import Mathlib

/-!
# SACD library (libsacd): disc parsing, container writers, extraction queue

A shallow embedding of `src/libsacd/*.c`.

Conventions of the embedding

* A byte is a `Nat` (a well-formed byte is `< 256`); a buffer, an image or a
  file's contents is a `List Nat`.
* C `int` fields are `Int`; unsigned fixed-width values are `Nat`, reduced
  modulo `2^w` where the C code converts or can wrap.
* A pointer into `disc->areas` is the index of the area.
* `heap_ok` says whether the allocator satisfies the requests of a call; the
  first allocation of the call fails when it is `false`.
* `double` is IEEE-754 binary64 with round-to-nearest-even, see `f64_round`.
-/

namespace Sacd

/-! ## sacd_lib.h: constants and types -/

def SACD_MAX_TRACKS : Nat := 255
def SACD_MAX_AREAS : Nat := 2
def SACD_LSN_SIZE : Nat := 2048
def SACD_SAMPLING_FREQ : Nat := 2822400
def SACD_FRAME_RATE : Nat := 75

inductive sacd_area_type_t where
  | SACD_AREA_STEREO
  | SACD_AREA_MULTICHANNEL
  deriving DecidableEq

inductive sacd_output_format_t where
  | SACD_FORMAT_DSF
  | SACD_FORMAT_DSDIFF
  | SACD_FORMAT_DSDIFF_EM
  deriving DecidableEq

inductive sacd_result_t where
  | SACD_RESULT_OK
  | SACD_RESULT_ERROR
  | SACD_RESULT_INVALID_FILE
  | SACD_RESULT_INVALID_AREA
  | SACD_RESULT_INVALID_TRACK
  | SACD_RESULT_OUT_OF_MEMORY
  | SACD_RESULT_IO_ERROR
  | SACD_RESULT_CANCELLED
  deriving DecidableEq

open sacd_result_t sacd_area_type_t sacd_output_format_t

structure sacd_genre_t where
  category : Nat := 0
  genre : Nat := 0
  deriving DecidableEq

/-- Time as minutes, seconds, frames; each field is a `uint8_t`. -/
structure sacd_time_t where
  minutes : Nat := 0
  seconds : Nat := 0
  frames : Nat := 0
  deriving DecidableEq

/-- Text fields; only `title` and `artist` are ever assigned by the library. -/
structure sacd_text_t where
  title : Option String := none
  artist : Option String := none
  deriving DecidableEq

structure sacd_track_t where
  number : Int := 0
  start_time : sacd_time_t := {}
  duration : sacd_time_t := {}
  start_lsn : Nat := 0
  length_lsn : Nat := 0
  text : sacd_text_t := {}
  channel_count : Int := 0
  dst_encoded : Bool := false
  deriving DecidableEq

structure sacd_area_t where
  type : sacd_area_type_t := SACD_AREA_STEREO
  track_count : Int := 0
  tracks : List sacd_track_t := List.replicate SACD_MAX_TRACKS {}
  text : sacd_text_t := {}
  channel_count : Int := 0
  start_lsn : Nat := 0
  end_lsn : Nat := 0
  sample_frequency : Nat := 0
  deriving DecidableEq

structure sacd_disc_t where
  text : sacd_text_t := {}
  genres : List sacd_genre_t := List.replicate 4 {}
  catalog_number : List Nat := List.replicate 17 0
  disc_catalog_number : List Nat := List.replicate 17 0
  version_major : Nat := 0
  version_minor : Nat := 0
  is_hybrid : Bool := false
  year : Nat := 0
  month : Nat := 0
  day : Nat := 0
  area_count : Int := 0
  areas : List sacd_area_t := List.replicate SACD_MAX_AREAS {}
  deriving DecidableEq

/-! ## sacd_disc.c -/

def SACD_MASTER_TOC_START_LSN : Nat := 510
def SACD_MASTER_TOC_LENGTH : Nat := 10

/-- The bytes of an ASCII string literal. -/
def ascii (s : String) : List Nat := s.data.map (fun c => c.toNat)

def SACD_SIGNATURE : List Nat := ascii "SACDMTOC"

/-- The byte `data[i]`; a read past the end of the list yields 0. -/
def byte_at (data : List Nat) (i : Nat) : Nat := data.getD i 0

/-- The `n` bytes at `data + off`, as `memcmp`/`memcpy` see them. -/
def bytes_at (data : List Nat) (off n : Nat) : List Nat := (data.drop off).take n

/-- Source: `(data[0] << 8) | data[1]`, returned as `uint16_t`. -/
def be16_to_cpu (data : List Nat) (off : Nat) : Nat :=
  ((byte_at data off <<< 8) ||| byte_at data (off + 1)) % 2 ^ 16

/-- Source: `(data[0] << 24) | (data[1] << 16) | (data[2] << 8) | data[3]`,
returned as `uint32_t`. -/
def be32_to_cpu (data : List Nat) (off : Nat) : Nat :=
  ((byte_at data off <<< 24) ||| (byte_at data (off + 1) <<< 16)
    ||| (byte_at data (off + 2) <<< 8) ||| byte_at data (off + 3)) % 2 ^ 32

/-- Source: `read_sector`. `lseek` to `lsn * 2048` succeeds on a regular file;
`read` delivers the bytes the image has from there, at most 2048, and anything
short of a full sector is an I/O error. -/
def read_sector (image : List Nat) (lsn : Nat) : Except sacd_result_t (List Nat) :=
  let offset := lsn * SACD_LSN_SIZE
  let got := (image.drop offset).take SACD_LSN_SIZE
  if got.length ≠ SACD_LSN_SIZE then .error SACD_RESULT_IO_ERROR else .ok got

/-- The loop `for (i = 0; i < n; i++) read_sector(internal, start + i, buf + i * 2048)`
of `parse_disc_structure` and `parse_area_toc`: the buffer filled by the first
`n` reads, or the result of the first read that fails. `start + i` is computed
in `uint32_t`. -/
def read_sectors (image : List Nat) (start : Nat) : Nat → Except sacd_result_t (List Nat)
  | 0 => .ok []
  | n + 1 =>
    match read_sectors image start n with
    | .error e => .error e
    | .ok buf =>
      match read_sector image ((start + n) % 2 ^ 32) with
      | .error e => .error e
      | .ok sector => .ok (buf ++ sector)

/-- Source: `parse_master_toc`, on the 10-sector master TOC buffer. -/
def parse_master_toc (data : List Nat) (disc : sacd_disc_t) : sacd_result_t × sacd_disc_t :=
  if bytes_at data 0 8 ≠ SACD_SIGNATURE then (SACD_RESULT_INVALID_FILE, disc)
  else
    (SACD_RESULT_OK,
      { disc with
        version_major := byte_at data 8
        version_minor := byte_at data 9
        catalog_number := bytes_at data 24 16 ++ [0]
        disc_catalog_number := bytes_at data 88 16 ++ [0]
        genres := (List.range 4).map (fun i =>
          { category := byte_at data (40 + i * 4), genre := byte_at data (40 + i * 4 + 3) })
        is_hybrid := decide (byte_at data 80 % 2 ≠ 0)
        year := be16_to_cpu data 104
        month := byte_at data 106
        day := byte_at data 107
        text := { disc.text with title := some "SACD Album", artist := some "Unknown Artist" }
        area_count := 0 })

/-- The loop `for (i = 0; i < n; i++) tracks[i] = f i tracks[i]`. -/
def update_tracks (n : Nat) (f : Nat → sacd_track_t → sacd_track_t)
    (tracks : List sacd_track_t) : List sacd_track_t :=
  tracks.mapIdx (fun i t => if i < n then f i t else t)

/-- Number of iterations of `for (i = 0; i < track_count && i < SACD_MAX_TRACKS; i++)`. -/
def track_loop_bound (track_count : Int) : Nat := min track_count.toNat SACD_MAX_TRACKS

/-- Body of the `SACDTRL1` branch for track `i`, the marker sector at `p`. -/
def set_track_lsn (mem : List Nat) (p : Nat) (channel_count : Int) (i : Nat)
    (t : sacd_track_t) : sacd_track_t :=
  { t with
    number := i
    start_lsn := be32_to_cpu mem (p + 8 + i * 4)
    length_lsn := be32_to_cpu mem (p + 8 + (255 + i) * 4)
    channel_count := channel_count }

/-- Body of the `SACDTRL2` branch for track `i`, the marker sector at `p`. -/
def set_track_time (mem : List Nat) (p : Nat) (i : Nat) (t : sacd_track_t) : sacd_track_t :=
  { t with
    start_time :=
      { minutes := byte_at mem (p + 8 + i * 4)
        seconds := byte_at mem (p + 8 + i * 4 + 1)
        frames := byte_at mem (p + 8 + i * 4 + 2) }
    duration :=
      { minutes := byte_at mem (p + 8 + 255 * 4 + i * 4)
        seconds := byte_at mem (p + 8 + 255 * 4 + i * 4 + 1)
        frames := byte_at mem (p + 8 + 255 * 4 + i * 4 + 2) } }

/-- The text `snprintf` produces for `"Track %02d"` and `i + 1`. -/
def track_title (i : Nat) : String :=
  if i + 1 < 10 then "Track 0" ++ toString (i + 1) else "Track " ++ toString (i + 1)

/-- Body of the `SACDTTxt` branch for track `i`. -/
def set_track_text (i : Nat) (t : sacd_track_t) : sacd_track_t :=
  { t with text := { t.text with title := some (track_title i) } }

/-- One iteration of the marker scan of `parse_area_toc`, for the sector at
`p = data + k * 2048`. `mem` is the memory that starts at `data`. -/
def scan_marker (mem : List Nat) (area : sacd_area_t) (k : Nat) : sacd_area_t :=
  let p := k * SACD_LSN_SIZE
  let n := track_loop_bound area.track_count
  if bytes_at mem p 8 = ascii "SACDTRL1" then
    { area with tracks := update_tracks n (set_track_lsn mem p area.channel_count) area.tracks }
  else if bytes_at mem p 8 = ascii "SACDTRL2" then
    { area with tracks := update_tracks n (set_track_time mem p) area.tracks }
  else if bytes_at mem p 8 = ascii "SACDTTxt" then
    { area with tracks := update_tracks n set_track_text area.tracks }
  else area

/-- The sector indices the `while (p < data + toc_data_size * 2048)` loop visits,
`p` starting at `data + 2048`. -/
def scanned_sectors (toc_data_size : Nat) : List Nat := List.range' 1 (toc_data_size - 1)

/-- Source: `parse_area_toc`. `area` is `internal->public.areas[area_index]` on
entry. `junk` stands for the memory that follows the `toc_size * 2048` byte
buffer: the scan is bounded by the size field of the TOC header, so it reads
there when that field exceeds `toc_size`. -/
def parse_area_toc (image : List Nat) (junk : List Nat) (area_index : Nat)
    (toc_start toc_size : Nat) (area : sacd_area_t) : sacd_result_t × sacd_area_t :=
  if area_index ≥ SACD_MAX_AREAS then (SACD_RESULT_INVALID_AREA, area)
  else
    match read_sectors image toc_start toc_size with
    | .error e => (e, area)
    | .ok data =>
      if bytes_at data 0 8 ≠ ascii "TWOCHTOC" ∧ bytes_at data 0 8 ≠ ascii "MULCHTOC" then
        (SACD_RESULT_INVALID_FILE, area)
      else
        let toc_data_size := be16_to_cpu data 10
        let track_count := if byte_at data 69 > SACD_MAX_TRACKS then SACD_MAX_TRACKS
          else byte_at data 69
        let area1 : sacd_area_t :=
          { area with
            channel_count := byte_at data 32
            sample_frequency := SACD_SAMPLING_FREQ
            track_count := track_count
            start_lsn := be32_to_cpu data 72
            end_lsn := be32_to_cpu data 76 }
        (SACD_RESULT_OK, (scanned_sectors toc_data_size).foldl (scan_marker (data ++ junk)) area1)

/-- Store `area` in `areas[i]`, with its type when the parse succeeded. -/
def store_area (areas : List sacd_area_t) (i : Nat) (r : sacd_result_t) (area : sacd_area_t)
    (type : sacd_area_type_t) : List sacd_area_t :=
  areas.set i (if r = SACD_RESULT_OK then { area with type := type } else area)

/-- Source: `parse_disc_structure`. `junk i` is the memory behind the TOC buffer
of `areas[i]`. -/
def parse_disc_structure (image : List Nat) (junk : Nat → List Nat) (disc : sacd_disc_t) :
    sacd_result_t × sacd_disc_t :=
  match read_sectors image SACD_MASTER_TOC_START_LSN SACD_MASTER_TOC_LENGTH with
  | .error e => (e, disc)
  | .ok master_data =>
    match parse_master_toc master_data disc with
    | (SACD_RESULT_OK, disc1) =>
      let area_1_toc_start := be32_to_cpu master_data 64
      let area_2_toc_start := be32_to_cpu master_data 72
      let area_1_toc_size := be16_to_cpu master_data 84
      let area_2_toc_size := be16_to_cpu master_data 86
      let (count1, areas1) :=
        if area_1_toc_start > 0 ∧ area_1_toc_size > 0 then
          let (r, a) := parse_area_toc image (junk 0) 0 area_1_toc_start area_1_toc_size
            (disc1.areas.getD 0 {})
          (if r = SACD_RESULT_OK then 1 else 0, store_area disc1.areas 0 r a SACD_AREA_STEREO)
        else (0, disc1.areas)
      let (count2, areas2) :=
        if area_2_toc_start > 0 ∧ area_2_toc_size > 0 then
          let (r, a) := parse_area_toc image (junk count1) count1 area_2_toc_start
            area_2_toc_size (areas1.getD count1 {})
          (if r = SACD_RESULT_OK then count1 + 1 else count1,
            store_area areas1 count1 r a SACD_AREA_MULTICHANNEL)
        else (count1, areas1)
      (SACD_RESULT_OK, { disc1 with areas := areas2, area_count := (count2 : Nat) })
    | (r, disc1) => (r, disc1)

/-- What `open(2)` and `fstat(2)` find at the path given to `sacd_disc_open`. -/
inductive iso_file where
  | missing
  | unreadable
  | image (bytes : List Nat)

/-- Source: `sacd_disc_open`, for non-null arguments; the second component is
`*disc` on return (`none` is NULL). The internal structure comes zeroed from
`calloc`. -/
def sacd_disc_open (heap_ok : Bool) (junk : Nat → List Nat) (file : iso_file) :
    sacd_result_t × Option sacd_disc_t :=
  if ¬ heap_ok then (SACD_RESULT_OUT_OF_MEMORY, none)
  else
    match file with
    | .missing => (SACD_RESULT_INVALID_FILE, none)
    | .unreadable => (SACD_RESULT_IO_ERROR, none)
    | .image bytes =>
      match parse_disc_structure bytes junk {} with
      | (SACD_RESULT_OK, disc) => (SACD_RESULT_OK, some disc)
      | (r, _) => (r, none)

/-- The area `disc->areas[i]`. -/
def area_at (disc : sacd_disc_t) (i : Nat) : sacd_area_t := disc.areas.getD i {}

/-- Source: `sacd_disc_get_area`, for a non-null disc; the pointer
`&disc->areas[i]` is the index `i`. -/
def sacd_disc_get_area (disc : sacd_disc_t) (area_type : sacd_area_type_t) : Option Nat :=
  (List.range disc.area_count.toNat).find? (fun i => decide ((area_at disc i).type = area_type))

/-- Source: `sacd_disc_get_best_area`, for a non-null disc. -/
def sacd_disc_get_best_area (disc : sacd_disc_t) : Option Nat :=
  if disc.area_count = 0 then none
  else
    match sacd_disc_get_area disc SACD_AREA_STEREO with
    | some stereo => some stereo
    | none => sacd_disc_get_area disc SACD_AREA_MULTICHANNEL

/-! ## IEEE-754 binary64 arithmetic

A finite `double` x is represented by the integer `x * 2^1074`: every finite
binary64 value is an integer multiple of `2^-1074` whose magnitude has at most
53 significant bits. Each operation computes the exact result and rounds it
to the nearest such value, ties to even. Infinities and NaN are not
represented: the operations below are used on magnitudes far below `2^1024`. -/

/-- One in units of `2^-1074`. -/
def F64_UNIT : Nat := 1 <<< 1074

/-- The integer nearest to `a / b`, ties to even. -/
def rne_div (a b : Nat) : Nat :=
  let q := a / b
  let r := a % b
  if 2 * r < b then q else if b < 2 * r then q + 1 else if q % 2 = 0 then q else q + 1

/-- Position of the highest set bit of `n`, by binary search; exact for
`n < 2^4096`, which covers every binary64 magnitude in units of `2^-1074`. -/
def floor_log2 (n : Nat) : Nat :=
  [2048, 1024, 512, 256, 128, 64, 32, 16, 8, 4, 2, 1].foldl
    (fun s k => if n >>> (s + k) ≠ 0 then s + k else s) 0

/-- The binary64 magnitude nearest to `a / b` units: the quotient is rounded at
the position that leaves 53 significant bits (at the unit for subnormals). -/
def f64_round (a b : Nat) : Nat :=
  let j := floor_log2 (a / b) - 52
  rne_div a (b <<< j) <<< j

/-- Rounding of the signed quotient `a / b`. -/
def f64_round_int (a : Int) (b : Nat) : Int :=
  if a < 0 then - (f64_round a.natAbs b : Int) else (f64_round a.natAbs b : Int)

/-- Conversion of a non-negative integer to `double`. -/
def f64_of_nat (n : Nat) : Int := f64_round_int ((n : Int) * F64_UNIT) 1

def f64_add (x y : Int) : Int := f64_round_int (x + y) 1
def f64_sub (x y : Int) : Int := f64_round_int (x - y) 1
def f64_mul (x y : Int) : Int := f64_round_int (x * y) F64_UNIT

/-- Division by a non-zero `double`. -/
def f64_div (x y : Int) : Int := f64_round_int (x * F64_UNIT * Int.sign y) y.natAbs

/-- Conversion of a `double` to a `w`-bit unsigned integer: truncation toward
zero. C leaves the conversion undefined when the truncated value does not fit;
the model then wraps modulo `2^w`. -/
def f64_to_uint (w : Nat) (x : Int) : Nat := (Int.tdiv x F64_UNIT % ((2 ^ w : Nat) : Int)).toNat

/-! ## sacd_utils.c -/

/-- Source: `sacd_time_to_seconds`, for a non-null time. -/
def sacd_time_to_seconds (time : sacd_time_t) : Int :=
  f64_add
    (f64_add (f64_mul (f64_of_nat time.minutes) (f64_of_nat 60)) (f64_of_nat time.seconds))
    (f64_div (f64_of_nat time.frames) (f64_of_nat SACD_FRAME_RATE))

/-- Source: `sacd_seconds_to_time`, for a non-null time. -/
def sacd_seconds_to_time (seconds : Int) : sacd_time_t :=
  let seconds0 := if seconds < 0 then 0 else seconds
  let minutes := f64_to_uint 8 (f64_div seconds0 (f64_of_nat 60))
  let seconds1 := f64_sub seconds0 (f64_mul (f64_of_nat minutes) (f64_of_nat 60))
  let secs := f64_to_uint 8 seconds1
  let seconds2 := f64_sub seconds1 (f64_of_nat secs)
  let frames := f64_to_uint 8 (f64_mul seconds2 (f64_of_nat SACD_FRAME_RATE))
  { minutes := minutes, seconds := secs, frames := frames }

/-- Source: `sacd_track_duration_samples`, for a non-null track. -/
def sacd_track_duration_samples (track : sacd_track_t) : Nat :=
  let seconds := sacd_time_to_seconds track.duration
  f64_to_uint 64 (f64_mul seconds (f64_of_nat SACD_SAMPLING_FREQ))

/-- Source: `sacd_estimate_track_file_size`, for a non-null track; `size_t` is
64 bits wide. -/
def sacd_estimate_track_file_size (track : sacd_track_t) (format : sacd_output_format_t) : Nat :=
  let samples := sacd_track_duration_samples track
  let channels := (track.channel_count % ((2 ^ 64 : Nat) : Int)).toNat
  let audio_data_size := (samples * channels) % 2 ^ 64 / 8
  let header_size :=
    match format with
    | SACD_FORMAT_DSF => 96
    | SACD_FORMAT_DSDIFF => 512
    | SACD_FORMAT_DSDIFF_EM => 512
  (audio_data_size + header_size) % 2 ^ 64

/-! ## Output streams (`FILE *`) -/

/-- An output stream: the bytes of the file, the file position indicator, and
the size the device can hold. A write stops at `limit`. -/
structure FILE where
  bytes : List Nat := []
  pos : Nat := 0
  limit : Nat := 0
  deriving DecidableEq

/-- A new, empty file as `fopen(filename, "wb")` returns it, on a device with
room for `limit` bytes. -/
def new_file (limit : Nat) : FILE := { bytes := [], pos := 0, limit := limit }

/-- The call `fwrite(buf, 1, buf.length, file)`: the number of bytes written and
the stream afterwards. Bytes between the old end of the file and the cursor
read as zero. -/
def fwrite (buf : List Nat) (file : FILE) : Nat × FILE :=
  let k := min buf.length (file.limit - file.pos)
  if k = 0 then (0, file)
  else
    (k, { file with
          bytes := file.bytes.take file.pos ++ List.replicate (file.pos - file.bytes.length) 0
            ++ buf.take k ++ file.bytes.drop (file.pos + k)
          pos := file.pos + k })

/-- The call `ftell(file)`: the position as a `long`, -1 when it does not fit. -/
def ftell (file : FILE) : Int := if file.pos < 2 ^ 63 then (file.pos : Int) else -1

/-- The call `fseek(file, offset, SEEK_SET)`: 0 on success. -/
def fseek (file : FILE) (offset : Int) : Int × FILE :=
  if offset < 0 then (-1, file) else (0, { file with pos := offset.toNat })

/-- The statement `if (fwrite(buf, 1, n, file) != n) return SACD_RESULT_IO_ERROR;`
followed by the rest `k` of the function. -/
def fwrite_or_fail (buf : List Nat) (file : FILE) (k : FILE → sacd_result_t × FILE) :
    sacd_result_t × FILE :=
  match fwrite buf file with
  | (n, file1) => if n ≠ buf.length then (SACD_RESULT_IO_ERROR, file1) else k file1

/-! ## sacd_formats.c -/

/-- A local buffer `uint8_t buf[n]` before anything is stored in it. -/
def local_buf (n : Nat) : List Nat := List.replicate n 0

/-- The memory that starts at `buf` after `data` has been stored at `buf + off`
(`memcpy`, or one of the `write_*` helpers). -/
def poke (buf : List Nat) (off : Nat) (data : List Nat) : List Nat :=
  buf.take off ++ data ++ buf.drop (off + data.length)

/-- A store of `data` at `buf + off` into the local array `buf`: the array
afterwards, and the bytes that the store puts past the end of the array, into
the object of the stack frame that lies behind it (none when the store stays
inside the array). -/
def store_local (buf : List Nat) (off : Nat) (data : List Nat) : List Nat × List Nat :=
  ((poke buf off data).take buf.length, (poke buf off data).drop buf.length)

/-- Source: `write_le32`; the bytes stored at `data[0..3]`. -/
def write_le32 (value : Nat) : List Nat :=
  [value &&& 0xFF, (value >>> 8) &&& 0xFF, (value >>> 16) &&& 0xFF, (value >>> 24) &&& 0xFF]

/-- Source: `write_le64`; the bytes stored at `data[0..7]`. -/
def write_le64 (value : Nat) : List Nat :=
  [value &&& 0xFF, (value >>> 8) &&& 0xFF, (value >>> 16) &&& 0xFF, (value >>> 24) &&& 0xFF,
   (value >>> 32) &&& 0xFF, (value >>> 40) &&& 0xFF, (value >>> 48) &&& 0xFF,
   (value >>> 56) &&& 0xFF]

/-- Source: `write_be64`; the bytes stored at `data[0..7]`. -/
def write_be64 (value : Nat) : List Nat :=
  [(value >>> 56) &&& 0xFF, (value >>> 48) &&& 0xFF, (value >>> 40) &&& 0xFF,
   (value >>> 32) &&& 0xFF, (value >>> 24) &&& 0xFF, (value >>> 16) &&& 0xFF,
   (value >>> 8) &&& 0xFF, value &&& 0xFF]

/-- Conversion of an `int` to an unsigned `w`-bit integer. -/
def int_to_uint (w : Nat) (x : Int) : Nat := (x % ((2 ^ w : Nat) : Int)).toNat

/-- Source: `sacd_internal_write_dsf_header`, for non-null arguments. The three
structures are packed: 28, 52 and 12 bytes. -/
def sacd_internal_write_dsf_header (file : FILE) (track : sacd_track_t) (area : sacd_area_t)
    (audio_data_size : Nat) : sacd_result_t × FILE :=
  let header_size := 28 + 52 + 12
  let total_file_size := (header_size + audio_data_size) % 2 ^ 64
  let sample_count := sacd_track_duration_samples track
  let header_buf :=
    poke (poke (poke (poke (local_buf 28) 0 (ascii "DSD ")) 4 (write_le64 28))
      12 (write_le64 total_file_size)) 20 (write_le64 0)
  fwrite_or_fail (header_buf.take 28) file fun file1 =>
    let channel_type : Nat := if track.channel_count = 2 then 2 else 7
    let channel_num := int_to_uint 32 track.channel_count
    let fmt_buf :=
      poke (poke (poke (poke (poke (poke (poke (poke (poke (poke (poke (local_buf 64)
        0 (ascii "fmt ")) 4 (write_le64 52)) 12 (write_le32 1)) 16 (write_le32 0))
        20 (write_le32 channel_type)) 24 (write_le32 channel_num))
        28 (write_le32 area.sample_frequency)) 32 (write_le32 1))
        36 (write_le64 sample_count)) 44 (write_le32 4096)) 48 (write_le32 0)
    fwrite_or_fail (fmt_buf.take 52) file1 fun file2 =>
      let data_chunk_size := (12 + audio_data_size) % 2 ^ 64
      let data_buf := poke (poke (local_buf 12) 0 (ascii "data")) 4 (write_le64 data_chunk_size)
      fwrite_or_fail (data_buf.take 12) file2 fun file3 => (SACD_RESULT_OK, file3)

/-- The table `channel_ids` of `sacd_internal_write_dsdiff_header`. -/
def channel_ids : List (List Nat) :=
  [ascii "SLFT", ascii "SRGT", ascii "C   ", ascii "LFE ", ascii "LS  ", ascii "RS  "]

/-- Number of iterations of `for (i = 0; i < channel_count && i < 6; i++)`. -/
def channel_id_count (channel_count : Int) : Nat := min channel_count.toNat 6

/-- The statement `if (fwrite(buf, 1, n, file) != n) return SACD_RESULT_IO_ERROR;`
followed by the rest `k` of a function that has, up to here, stored the bytes
`past` behind the end of one of its local arrays. -/
def fwrite_or_return (past : List Nat) (buf : List Nat) (file : FILE)
    (k : FILE → sacd_result_t × FILE × List Nat) : sacd_result_t × FILE × List Nat :=
  match fwrite buf file with
  | (n, file1) => if n ≠ buf.length then (SACD_RESULT_IO_ERROR, file1, past) else k file1

/-- The loop that writes the channel IDs, one `fwrite` of 4 bytes each. -/
def write_channel_ids (past : List Nat) (k : FILE → sacd_result_t × FILE × List Nat) :
    List (List Nat) → FILE → sacd_result_t × FILE × List Nat
  | [], file => k file
  | id :: rest, file => fwrite_or_return past id file (write_channel_ids past k rest)

/-- Source: `sacd_internal_write_dsdiff_header`, for non-null arguments. The
chunk sizes are computed in `size_t` (64 bits); `channel_count * 4` is computed
in `int`. The result is the value returned, the stream, and the bytes that the
function has stored past the end of a local array. All stores stay inside
their arrays but one: `write_be64(chnl_buf + 4, ...)` stores 8 bytes at offsets
4..11 of `uint8_t chnl_buf[8]`, so 4 bytes land in the object that the stack
frame has behind `chnl_buf`. C leaves the behaviour from there on undefined;
the steps that follow are those of a build in which that object is none the
function reads again. -/
def sacd_internal_write_dsdiff_header (file : FILE) (track : sacd_track_t) (area : sacd_area_t)
    (audio_data_size : Nat) : sacd_result_t × FILE × List Nat :=
  let chnl_chunk_size := (8 + int_to_uint 64 (track.channel_count * 4)) % 2 ^ 64
  let prop_chunk_size := (4 + 16 + chnl_chunk_size) % 2 ^ 64
  let form_chunk_size := (4 + 12 + prop_chunk_size + 16 + audio_data_size) % 2 ^ 64
  let form_buf :=
    poke (poke (poke (local_buf 16) 0 (ascii "FRM8")) 4 (write_be64 form_chunk_size))
      12 (ascii "DSD ")
  fwrite_or_return [] (form_buf.take 16) file fun file1 =>
    let fver_buf :=
      poke (poke (poke (local_buf 12) 0 (ascii "FVER")) 4 (write_be64 4))
        8 (write_le32 0x01050000)
    fwrite_or_return [] (fver_buf.take 12) file1 fun file2 =>
      let prop_buf :=
        poke (poke (poke (local_buf 16) 0 (ascii "PROP")) 4 (write_be64 prop_chunk_size))
          12 (ascii "SND ")
      fwrite_or_return [] (prop_buf.take 16) file2 fun file3 =>
        let fs_buf :=
          poke (poke (poke (local_buf 12) 0 (ascii "FS  ")) 4 (write_be64 4))
            8 (write_le32 area.sample_frequency)
        fwrite_or_return [] (fs_buf.take 12) file3 fun file4 =>
          let chnl_store :=
            store_local (poke (local_buf 8) 0 (ascii "CHNL"))
              4 (write_be64 (int_to_uint 64 (track.channel_count * 4)))
          let chnl_buf := chnl_store.1
          let past := chnl_store.2
          fwrite_or_return past chnl_buf file4 fun file5 =>
            write_channel_ids past
              (fun file6 =>
                let dsd_buf :=
                  poke (poke (local_buf 12) 0 (ascii "DSD ")) 4 (write_be64 audio_data_size)
                fwrite_or_return past (dsd_buf.take 12) file6 fun file7 =>
                  (SACD_RESULT_OK, file7, past))
              (channel_ids.take (channel_id_count track.channel_count)) file5

/-- Source: `sacd_internal_finalize_file_headers`, for a non-null stream. -/
def sacd_internal_finalize_file_headers (file : FILE) (format : sacd_output_format_t)
    (audio_data_size : Nat) : sacd_result_t × FILE :=
  let current_pos := ftell file
  if current_pos < 0 then (SACD_RESULT_IO_ERROR, file)
  else
    let restore := fun (file9 : FILE) =>
      match fseek file9 current_pos with
      | (r, file10) =>
        if r ≠ 0 then (SACD_RESULT_IO_ERROR, file10) else (SACD_RESULT_OK, file10)
    let dsdiff_branch :=
      match fseek file 4 with
      | (r1, file1) =>
        if r1 ≠ 0 then (SACD_RESULT_IO_ERROR, file1)
        else
          let form_size := int_to_uint 64 (current_pos - 12)
          fwrite_or_fail (write_be64 form_size) file1 restore
    match format with
    | SACD_FORMAT_DSF =>
      match fseek file 12 with
      | (r1, file1) =>
        if r1 ≠ 0 then (SACD_RESULT_IO_ERROR, file1)
        else
          let file_size := int_to_uint 64 current_pos
          fwrite_or_fail (write_le64 file_size) file1 fun file2 =>
            match fseek file2 (80 + 4) with
            | (r2, file3) =>
              if r2 ≠ 0 then (SACD_RESULT_IO_ERROR, file3)
              else
                let data_chunk_size := (12 + audio_data_size) % 2 ^ 64
                fwrite_or_fail (write_le64 data_chunk_size) file3 restore
    | SACD_FORMAT_DSDIFF => dsdiff_branch
    | SACD_FORMAT_DSDIFF_EM => dsdiff_branch

/-! ## sacd_dst.c -/

/-- The decoder state; a buffer field says whether the pointer is non-null. The
default value is the zeroed structure. -/
structure sacd_dst_decoder_t where
  input_buffer : Bool := false
  output_buffer : Bool := false
  input_size : Nat := 0
  output_size : Nat := 0
  initialized : Bool := false
  deriving DecidableEq

/-- Source: `sacd_internal_dst_decoder_cleanup`, for a non-null decoder: both
buffers are freed and the structure is zeroed. -/
def sacd_internal_dst_decoder_cleanup (_decoder : sacd_dst_decoder_t) : sacd_dst_decoder_t := {}

/-- Source: `sacd_internal_dst_decoder_init`, for a non-null decoder. -/
def sacd_internal_dst_decoder_init (heap_ok : Bool) (_decoder : sacd_dst_decoder_t) :
    sacd_result_t × sacd_dst_decoder_t :=
  let decoder0 : sacd_dst_decoder_t := {}
  let decoder1 := { decoder0 with input_buffer := heap_ok, output_buffer := heap_ok }
  if ¬ decoder1.input_buffer ∨ ¬ decoder1.output_buffer then
    (SACD_RESULT_OUT_OF_MEMORY, sacd_internal_dst_decoder_cleanup decoder1)
  else (SACD_RESULT_OK, { decoder1 with initialized := true })

/-- The byte the placeholder decoder stores at `decoded_data[i]`. -/
def dst_pattern_byte (input : List Nat) (i : Nat) : Nat :=
  if i < input.length then (byte_at input (i % input.length) ^^^ 0x69) % 256
  else if i % 2 = 1 then 0x69 else 0x96

/-- Source: `sacd_internal_dst_decode_frame`, for non-null arguments; `input` is
the `input_size` bytes at `input`, the second component is `*output` with
`*output_size` its length. -/
def sacd_internal_dst_decode_frame (heap_ok : Bool) (decoder : sacd_dst_decoder_t)
    (input : List Nat) : sacd_result_t × Option (List Nat) :=
  let input_size := input.length
  if ¬ decoder.initialized then (SACD_RESULT_ERROR, none)
  else if input_size < 5 then (SACD_RESULT_ERROR, none)
  else
    let estimated_output := (input_size * 4) % 2 ^ 64
    if ¬ heap_ok then (SACD_RESULT_OUT_OF_MEMORY, none)
    else if byte_at input 0 = 0xFF ∧ byte_at input 1 = 0xFF then (SACD_RESULT_OK, some input)
    else (SACD_RESULT_OK, some ((List.range estimated_output).map (dst_pattern_byte input)))

/-! ## sacd_extractor.c: the track queue -/

/-- The fields of `sacd_extractor_internal_t` that the queue operations and the
worker use. `track_queue` is the allocated array, `track_queue_capacity`
entries long; its first `track_queue_count` entries are the queue. `format` and
the three callback fields belong to `options`; a callback field says whether
the function pointer is non-null. -/
structure sacd_extractor_internal_t where
  area : sacd_area_t := {}
  format : sacd_output_format_t := SACD_FORMAT_DSF
  progress_callback : Bool := true
  track_start_callback : Bool := true
  track_complete_callback : Bool := true
  dst_decoder : sacd_dst_decoder_t :=
    { input_buffer := true, output_buffer := true, initialized := true }
  track_queue : List Int := List.replicate 16 0
  track_queue_count : Int := 0
  track_queue_capacity : Int := 16
  is_running : Bool := false
  cancel_requested : Bool := false
  current_track_index : Int := 0
  current_track_progress : Int := 0
  bytes_written : Nat := 0
  total_bytes_written : Nat := 0
  deriving DecidableEq

/-- Source: `sacd_extractor_create`, for non-null arguments; the second
component is `*extractor` on return (`none` is NULL). `heap_ok` stands for
`calloc`, `strdup` and `malloc`, `mutex_ok` for `pthread_mutex_init`, `dir_ok`
for the output directory being there or created. The structure comes zeroed
from `calloc`; the `malloc`ed queue array holds 16 unspecified entries (0
here). -/
def sacd_extractor_create (heap_ok mutex_ok dir_ok : Bool) (area : sacd_area_t)
    (format : sacd_output_format_t)
    (progress_callback track_start_callback track_complete_callback : Bool) :
    sacd_result_t × Option sacd_extractor_internal_t :=
  if ¬ heap_ok then (SACD_RESULT_OUT_OF_MEMORY, none)
  else if ¬ mutex_ok then (SACD_RESULT_ERROR, none)
  else
    match sacd_internal_dst_decoder_init heap_ok {} with
    | (SACD_RESULT_OK, decoder) =>
      if ¬ dir_ok then (SACD_RESULT_IO_ERROR, none)
      else
        (SACD_RESULT_OK,
          some
            { area := area
              format := format
              progress_callback := progress_callback
              track_start_callback := track_start_callback
              track_complete_callback := track_complete_callback
              dst_decoder := decoder
              track_queue := List.replicate 16 0
              track_queue_count := 0
              track_queue_capacity := 16
              is_running := false
              cancel_requested := false
              current_track_index := 0
              current_track_progress := 0
              bytes_written := 0
              total_bytes_written := 0 })
    | (r, _) => (r, none)

/-- The queue: the first `track_queue_count` entries of the array. -/
def queue (ex : sacd_extractor_internal_t) : List Int :=
  ex.track_queue.take ex.track_queue_count.toNat

/-- The call `realloc(queue, n * sizeof(int))`, when it succeeds: the old
entries are kept, the new ones are unspecified (0 here). -/
def realloc (old : List Int) (n : Nat) : List Int :=
  old.take n ++ List.replicate (n - old.length) 0

/-- The loop "Validate and add track numbers" of `sacd_extractor_add_tracks`. -/
def add_tracks_loop : sacd_extractor_internal_t → List Int → sacd_result_t × sacd_extractor_internal_t
  | ex, [] => (SACD_RESULT_OK, ex)
  | ex, track_num :: rest =>
    if track_num < 0 ∨ track_num ≥ ex.area.track_count then (SACD_RESULT_INVALID_TRACK, ex)
    else
      add_tracks_loop
        { ex with
          track_queue := ex.track_queue.set ex.track_queue_count.toNat track_num
          track_queue_count := ex.track_queue_count + 1 } rest

/-- Source: `sacd_extractor_add_tracks`, for a non-null extractor and array;
`track_numbers` is the array, `track_count` its length. The state is read and
written under `state_mutex`. -/
def sacd_extractor_add_tracks (heap_ok : Bool) (ex : sacd_extractor_internal_t)
    (track_numbers : List Int) : sacd_result_t × sacd_extractor_internal_t :=
  let track_count : Int := track_numbers.length
  if track_count ≤ 0 then (SACD_RESULT_ERROR, ex)
  else if ex.is_running then (SACD_RESULT_ERROR, ex)
  else
    let new_count := ex.track_queue_count + track_count
    if new_count > ex.track_queue_capacity then
      let new_capacity := new_count * 2
      if ¬ heap_ok then (SACD_RESULT_OUT_OF_MEMORY, ex)
      else
        add_tracks_loop
          { ex with
            track_queue := realloc ex.track_queue new_capacity.toNat
            track_queue_capacity := new_capacity } track_numbers
    else add_tracks_loop ex track_numbers

/-- Source: `sacd_extractor_add_all_tracks`, for a non-null extractor. A negative
`track_count` makes `track_count * sizeof(int)` a request of more than 2^63
bytes, which `malloc` refuses. -/
def sacd_extractor_add_all_tracks (heap_ok : Bool) (ex : sacd_extractor_internal_t) :
    sacd_result_t × sacd_extractor_internal_t :=
  let track_count := ex.area.track_count
  if ¬ heap_ok ∨ track_count < 0 then (SACD_RESULT_OUT_OF_MEMORY, ex)
  else
    let track_numbers : List Int := (List.range track_count.toNat).map Int.ofNat
    sacd_extractor_add_tracks heap_ok ex track_numbers

/-- Source: `sacd_extractor_start`, for a non-null extractor. `thread_ok` says
whether `pthread_create` succeeds; the third component says whether a worker
running `extraction_thread` has been spawned. -/
def sacd_extractor_start (thread_ok : Bool) (ex : sacd_extractor_internal_t) :
    sacd_result_t × sacd_extractor_internal_t × Bool :=
  if ex.is_running then (SACD_RESULT_ERROR, ex, false)
  else if ex.track_queue_count = 0 then (SACD_RESULT_ERROR, ex, false)
  else
    let ex1 :=
      { ex with
        cancel_requested := false
        current_track_index := 0
        current_track_progress := 0
        total_bytes_written := 0 }
    let ex2 := { ex1 with is_running := true }
    if ¬ thread_ok then (SACD_RESULT_ERROR, { ex2 with is_running := false }, false)
    else (SACD_RESULT_OK, ex2, true)

/-! ## sacd_extractor.c: the worker

The worker thread is a sequential program; the only thing another thread does
to it during a run is set `cancel_requested` (`sacd_extractor_cancel`). The
run is described by the list of the worker's steps, its trace. `cancel_at`
places the call of `sacd_extractor_cancel` in that list: `some c` sets the flag
when the worker has made `c` steps, so a read of the flag at a later step finds
it set; `none` never sets it. -/

/-- The status text of a progress callback: the text
`"Extracting track %d/%d: %s (%d%%) - %zu MB"` with its arguments,
`"Extraction cancelled"`, or `"Extraction completed"`. -/
inductive status_text where
  | extracting (index total : Int) (title : String) (percent : Int) (megabytes : Nat)
  | cancelled
  | completed
  deriving DecidableEq

/-- A step of the worker. `track_index` is the index of the track in
`area->tracks` (the `track` pointer of the callbacks and the file the step is
about); `track_number` is `track->number + 1`. -/
inductive worker_event where
  | cancel_check (seen : Bool)
  | track_start (track_index track_number : Int)
  | file_open (track_index : Int) (ok : Bool)
  | sector_read (lsn : Nat) (ok : Bool)
  | progress (track_number total_tracks track_progress overall_progress : Int)
      (status : status_text)
  | finalize (audio_data_size : Nat) (result : sacd_result_t)
  | file_close (track_index : Int) (file : FILE)
  | track_complete (track_index track_number : Int) (bytes_written : Nat)
  deriving DecidableEq

/-- What surrounds a run of the worker: the disc image, the memory behind the
2048-byte sector buffer, the allocator, `cancel_at`, and per track whether
`sacd_internal_create_filename` produces a name that fits, whether `fopen`
succeeds, and the room the device has for the output file. `other_progress`
is what the workers of the other extractors of the process do to the
`static int last_reported_progress` of `extract_track`, which all of them
share: `other_progress step = some v` when, as this worker has made `step`
steps and is about to read the variable, the last store to it since this
worker's previous access was a store of `v` by another worker. -/
structure worker_env where
  image : List Nat := []
  sector_junk : List Nat := []
  heap_ok : Bool := true
  cancel_at : Option Nat := none
  filename_ok : Int → Bool := fun _ => true
  open_ok : Int → Bool := fun _ => true
  file_limit : Int → Nat := fun _ => 0
  other_progress : Nat → Option Int := fun _ => none

/-- The state the worker carries: the extractor, the trace so far, and the
value that the `static int last_reported_progress` of `extract_track` had
after this worker's last access to it. The variable keeps its value between
calls and is shared with the workers of the other extractors of the process
(`other_progress`). -/
structure worker_state where
  ex : sacd_extractor_internal_t := {}
  trace : List worker_event := []
  last_reported_progress : Int := -1

/-- Append a step to the trace. -/
def log (ws : worker_state) (e : worker_event) : worker_state :=
  { ws with trace := ws.trace ++ [e] }

/-- Whether `cancel_requested` is set when the worker has made `step` steps. -/
def flag_set_at (cancel_at : Option Nat) (step : Nat) : Bool :=
  match cancel_at with
  | some c => decide (c ≤ step)
  | none => false

/-- A read of `internal->cancel_requested` by the worker. -/
def cancel_seen (env : worker_env) (ws : worker_state) : Bool × worker_state :=
  (flag_set_at env.cancel_at ws.trace.length,
    log ws (worker_event.cancel_check (flag_set_at env.cancel_at ws.trace.length)))

/-- Source: `sacd_internal_extract_dsd_from_sector`, for non-null arguments.
`mem` is the memory that starts at `sector_data`; the 2048 bytes at offsets
16 .. 2063 are copied. -/
def sacd_internal_extract_dsd_from_sector (heap_ok : Bool) (mem : List Nat) :
    Option (List Nat) :=
  if ¬ heap_ok then none else some ((List.range 2048).map (fun i => byte_at mem (16 + i)))

/-- The locals of `extract_track` that the sector loop updates, with the
output stream. -/
structure track_io where
  file : FILE := {}
  bytes_written : Nat := 0
  sectors_processed : Nat := 0

/-- The end of an iteration of the sector loop, from `sectors_processed++` to
the progress callback. The value found in `last_reported_progress` is the one
this worker left there, unless another worker has stored to the variable
since. -/
def report_progress (env : worker_env) (track : sacd_track_t) (ws : worker_state)
    (tio : track_io) : worker_state × track_io :=
  let tio1 := { tio with sectors_processed := tio.sectors_processed + 1 }
  let track_progress : Int := ((tio1.sectors_processed * 100 / track.length_lsn : Nat) : Int)
  let ws1 :=
    { ws with
      ex := { ws.ex with
              bytes_written := tio1.bytes_written
              current_track_progress := track_progress }
      last_reported_progress :=
        (env.other_progress ws.trace.length).getD ws.last_reported_progress }
  if ws1.ex.progress_callback ∧ track_progress ≠ ws1.last_reported_progress then
    let overall_progress :=
      Int.tdiv (ws1.ex.current_track_index * 100 + track_progress) ws1.ex.track_queue_count
    let status := status_text.extracting (ws1.ex.current_track_index + 1)
      ws1.ex.track_queue_count (track.text.title.getD "Unknown") track_progress
      (tio1.bytes_written / (1024 * 1024))
    (log { ws1 with last_reported_progress := track_progress }
      (worker_event.progress (track.number + 1) ws1.ex.track_queue_count track_progress
        overall_progress status), tio1)
  else (ws1, tio1)

/-- The statement `if (fwrite(data, 1, size, file) != size) { ...; return
SACD_RESULT_IO_ERROR; } bytes_written += size;` of the sector loop: the early
return closes the file. -/
def write_audio (track_index : Int) (data : List Nat) (ws : worker_state) (tio : track_io) :
    Option sacd_result_t × worker_state × track_io :=
  match fwrite data tio.file with
  | (n, file1) =>
    if n ≠ data.length then
      (some SACD_RESULT_IO_ERROR, log ws (worker_event.file_close track_index file1),
        { tio with file := file1 })
    else (none, ws, { tio with file := file1, bytes_written := tio.bytes_written + data.length })

/-- The loop `for (lsn = start_lsn; lsn < start_lsn + length_lsn &&
!internal->cancel_requested; lsn++)` of `extract_track`, over the sector
numbers that remain. The first component is the result of an early `return`,
`none` when the loop ends. -/
def sector_loop (env : worker_env) (track_index : Int) (track : sacd_track_t) :
    List Nat → worker_state → track_io → Option sacd_result_t × worker_state × track_io
  | [], ws, tio => (none, ws, tio)
  | lsn :: rest, ws, tio =>
    match cancel_seen env ws with
    | (true, ws1) => (none, ws1, tio)
    | (false, ws1) =>
      match read_sector env.image lsn with
      | .error e =>
        (some e, log (log ws1 (worker_event.sector_read lsn false))
          (worker_event.file_close track_index tio.file), tio)
      | .ok sector =>
        let ws2 := log ws1 (worker_event.sector_read lsn true)
        match sacd_internal_extract_dsd_from_sector env.heap_ok (sector ++ env.sector_junk) with
        | none => sector_loop env track_index track rest ws2 tio
        | some audio_data =>
          if track.dst_encoded then
            match sacd_internal_dst_decode_frame env.heap_ok ws2.ex.dst_decoder audio_data with
            | (SACD_RESULT_OK, some decompressed_data) =>
              match write_audio track_index decompressed_data ws2 tio with
              | (some e, ws3, tio3) => (some e, ws3, tio3)
              | (none, ws3, tio3) =>
                match report_progress env track ws3 tio3 with
                | (ws4, tio4) => sector_loop env track_index track rest ws4 tio4
            | _ =>
              match report_progress env track ws2 tio with
              | (ws4, tio4) => sector_loop env track_index track rest ws4 tio4
          else
            match write_audio track_index audio_data ws2 tio with
            | (some e, ws3, tio3) => (some e, ws3, tio3)
            | (none, ws3, tio3) =>
              match report_progress env track ws3 tio3 with
              | (ws4, tio4) => sector_loop env track_index track rest ws4 tio4

/-- The sector numbers `start_lsn`, `start_lsn + 1`, ... below
`start_lsn + length_lsn`, the sum computed in `uint32_t`. -/
def track_sectors (track : sacd_track_t) : List Nat :=
  List.range' track.start_lsn ((track.start_lsn + track.length_lsn) % 2 ^ 32 - track.start_lsn)

/-- The part "Call track start callback" of `extract_track`. -/
def announce_track (track_index : Int) (track : sacd_track_t) (ws : worker_state) :
    worker_state :=
  if ws.ex.track_start_callback then
    log ws (worker_event.track_start track_index (track.number + 1))
  else ws

/-- The part of `extract_track` from `fopen` to the allocation of the sector
buffer: an early `return` with its result, or the state and the output stream
with which the sector loop starts. Of the DSDIFF header writer the value
returned and the stream are used; what it stores past its `chnl_buf` stays in
its own stack frame. -/
def open_output (env : worker_env) (track_index : Int) (track : sacd_track_t)
    (ws1 : worker_state) : Except (sacd_result_t × worker_state) (worker_state × FILE) :=
  if ¬ env.open_ok track_index then
    .error (SACD_RESULT_IO_ERROR, log ws1 (worker_event.file_open track_index false))
  else
    let ws2 := log ws1 (worker_event.file_open track_index true)
    let file0 := new_file (env.file_limit track_index)
    let estimated_audio_size := sacd_estimate_track_file_size track ws2.ex.format
    match (if ws2.ex.format = SACD_FORMAT_DSF then
        sacd_internal_write_dsf_header file0 track ws2.ex.area estimated_audio_size
      else
        ((sacd_internal_write_dsdiff_header file0 track ws2.ex.area estimated_audio_size).1,
          (sacd_internal_write_dsdiff_header file0 track ws2.ex.area
            estimated_audio_size).2.1)) with
    | (result, file1) =>
      if result ≠ SACD_RESULT_OK then
        .error (result, log ws2 (worker_event.file_close track_index file1))
      else
        let ws3 := { ws2 with ex := { ws2.ex with bytes_written := 0 } }
        if ¬ env.heap_ok then
          .error (SACD_RESULT_OUT_OF_MEMORY,
            log ws3 (worker_event.file_close track_index file1))
        else .ok (ws3, file1)

/-- The part of `extract_track` after the sector loop: "Finalize file headers",
"Close output file", and the track-complete callback. -/
def finish_track (track_index : Int) (track : sacd_track_t) (ws4 : worker_state)
    (tio : track_io) : sacd_result_t × worker_state :=
  match sacd_internal_finalize_file_headers tio.file ws4.ex.format tio.bytes_written with
  | (result1, file2) =>
    let ws5 := log (log ws4 (worker_event.finalize tio.bytes_written result1))
      (worker_event.file_close track_index file2)
    if result1 = SACD_RESULT_OK then
      let ws6 :=
        { ws5 with
          ex := { ws5.ex with
                  total_bytes_written := ws5.ex.total_bytes_written + tio.bytes_written } }
      if ws6.ex.track_complete_callback then
        (result1, log ws6 (worker_event.track_complete track_index (track.number + 1)
          tio.bytes_written))
      else (result1, ws6)
    else (result1, ws5)

/-- Source: `extract_track`. `track_index` indexes `internal->area->tracks`. -/
def extract_track (env : worker_env) (track_index : Int) (ws : worker_state) :
    sacd_result_t × worker_state :=
  let track := ws.ex.area.tracks.getD track_index.toNat {}
  if ¬ env.filename_ok track_index then (SACD_RESULT_ERROR, ws)
  else
    match open_output env track_index track (announce_track track_index track ws) with
    | .error early => early
    | .ok (ws3, file1) =>
      match sector_loop env track_index track (track_sectors track) ws3
          { file := file1, bytes_written := 0, sectors_processed := 0 } with
      | (some e, ws4, _) => (e, ws4)
      | (none, ws4, tio) => finish_track track_index track ws4 tio

/-- The loop `for (i = 0; i < track_queue_count && !cancel_requested; i++)` of
`extraction_thread`, over the queue positions that remain. The result of
`extract_track` is not used. -/
def thread_loop (env : worker_env) : List Nat → worker_state → worker_state
  | [], ws => ws
  | i :: rest, ws =>
    match cancel_seen env ws with
    | (true, ws1) => ws1
    | (false, ws1) =>
      let ws2 := { ws1 with ex := { ws1.ex with current_track_index := (i : Int) } }
      let track_num := ws2.ex.track_queue.getD i 0
      thread_loop env rest (extract_track env track_num ws2).2

/-- Source: `extraction_thread`, without the start time. -/
def extraction_thread (env : worker_env) (ws : worker_state) : worker_state :=
  let ws1 := thread_loop env (List.range ws.ex.track_queue_count.toNat) ws
  let ws2 := { ws1 with ex := { ws1.ex with is_running := false } }
  if ws2.ex.progress_callback then
    match cancel_seen env ws2 with
    | (seen1, ws3) =>
      match cancel_seen env ws3 with
      | (seen2, ws4) =>
        let status := if seen1 then status_text.cancelled else status_text.completed
        let final_progress : Int := if seen2 then ws4.ex.current_track_progress else 100
        log ws4 (worker_event.progress 0 ws4.ex.track_queue_count 100 final_progress status)
  else ws2

/-! ## Reading fields back (vocabulary of the statements) -/

/-- The little-endian unsigned integer stored in the `n` bytes at `off`. -/
def read_le (data : List Nat) (off : Nat) : Nat → Nat
  | 0 => 0
  | n + 1 => byte_at data off + 256 * read_le data (off + 1) n

/-- The big-endian unsigned integer stored in the `n` bytes at `off`. -/
def read_be (data : List Nat) (off : Nat) : Nat → Nat
  | 0 => 0
  | n + 1 => byte_at data off * 256 ^ n + read_be data (off + 1) n

/-! ## Auxiliary definitions of the statements and proofs -/

/-- The stream after `buf` has been stored at the cursor: a successful
`fwrite` of all of `buf`. -/
def file_put (buf : List Nat) (file : FILE) : FILE :=
  { file with
    bytes := file.bytes.take file.pos ++ List.replicate (file.pos - file.bytes.length) 0
      ++ buf ++ file.bytes.drop (file.pos + buf.length)
    pos := file.pos + buf.length }

/-- The bytes `sacd_internal_write_dsf_header` writes to a new file. -/
def dsf_header_written (track : sacd_track_t) (area : sacd_area_t) (audio_data_size : Nat) :
    List Nat :=
  (sacd_internal_write_dsf_header (new_file 92) track area audio_data_size).2.bytes

/-- The bytes `sacd_internal_write_dsdiff_header` writes to a new file. -/
def dsdiff_header_written (track : sacd_track_t) (area : sacd_area_t) (audio_data_size : Nat) :
    List Nat :=
  (sacd_internal_write_dsdiff_header (new_file 100) track area audio_data_size).2.1.bytes

/-- The DSF header, field by field, in file order. -/
def dsf_header_fields (track : sacd_track_t) (area : sacd_area_t) (audio_data_size : Nat) :
    List (List Nat) :=
  [ascii "DSD ", write_le64 28, write_le64 ((28 + 52 + 12 + audio_data_size) % 2 ^ 64),
    write_le64 0,
    ascii "fmt ", write_le64 52, write_le32 1, write_le32 0,
    write_le32 (if track.channel_count = 2 then 2 else 7),
    write_le32 (int_to_uint 32 track.channel_count), write_le32 area.sample_frequency,
    write_le32 1, write_le64 (sacd_track_duration_samples track), write_le32 4096,
    write_le32 0,
    ascii "data", write_le64 ((12 + audio_data_size) % 2 ^ 64)]

def dsf_header_bytes (track : sacd_track_t) (area : sacd_area_t) (audio_data_size : Nat) :
    List Nat :=
  List.flatten (dsf_header_fields track area audio_data_size)

/-- The stream `sacd_internal_finalize_file_headers` leaves for format DSF. -/
def dsf_finalized (file : FILE) (audio_data_size : Nat) : FILE :=
  { file_put (write_le64 ((12 + audio_data_size) % 2 ^ 64))
      { file_put (write_le64 file.pos) { file with pos := 12 } with pos := 84 }
    with pos := file.pos }

/-- The stream `sacd_internal_finalize_file_headers` leaves for the DSDIFF formats. -/
def dsdiff_finalized (file : FILE) : FILE :=
  { file_put (write_be64 (int_to_uint 64 ((file.pos : Int) - 12))) { file with pos := 4 }
    with pos := file.pos }

/-- The DSDIFF header up to the channel IDs, field by field, in file order. The
8 bytes written for FVER, FS and CHNL after the chunk ID are the first 4 bytes
of the big-endian size followed by what the next store left there. -/
def dsdiff_header_fields (track : sacd_track_t) (area : sacd_area_t) (audio_data_size : Nat) :
    List (List Nat) :=
  let chnl_chunk_size := (8 + int_to_uint 64 (track.channel_count * 4)) % 2 ^ 64
  let prop_chunk_size := (4 + 16 + chnl_chunk_size) % 2 ^ 64
  let form_chunk_size := (4 + 12 + prop_chunk_size + 16 + audio_data_size) % 2 ^ 64
  [ascii "FRM8", write_be64 form_chunk_size, ascii "DSD ",
    ascii "FVER", (write_be64 4).take 4, write_le32 0x01050000,
    ascii "PROP", write_be64 prop_chunk_size, ascii "SND ",
    ascii "FS  ", (write_be64 4).take 4, write_le32 area.sample_frequency,
    ascii "CHNL", (write_be64 (int_to_uint 64 (track.channel_count * 4))).take 4,
    List.flatten (channel_ids.take (channel_id_count track.channel_count)),
    ascii "DSD ", write_be64 audio_data_size]

def dsdiff_header_bytes (track : sacd_track_t) (area : sacd_area_t) (audio_data_size : Nat) :
    List Nat :=
  List.flatten (dsdiff_header_fields track area audio_data_size)

/-- The steps of a trace with the contents of the closed files left out. -/
def steps (trace : List worker_event) : List worker_event :=
  trace.map (fun e =>
    match e with
    | worker_event.file_close track_index _ => worker_event.file_close track_index {}
    | e => e)

/-- The fields of the extractor that a run of the worker only reads. -/
def same_setup (a b : sacd_extractor_internal_t) : Prop :=
  a.area = b.area ∧ a.format = b.format ∧ a.progress_callback = b.progress_callback
    ∧ a.track_start_callback = b.track_start_callback
    ∧ a.track_complete_callback = b.track_complete_callback
    ∧ a.dst_decoder = b.dst_decoder ∧ a.track_queue = b.track_queue
    ∧ a.track_queue_count = b.track_queue_count
    ∧ a.track_queue_capacity = b.track_queue_capacity

/-- The master TOC buffer of `parse_disc_structure`: the 10 sectors from
sector 510, empty when they cannot be read. -/
def master_toc_data (image : List Nat) : List Nat :=
  match read_sectors image SACD_MASTER_TOC_START_LSN SACD_MASTER_TOC_LENGTH with
  | .ok data => data
  | .error _ => []

/-- An area TOC validates: its pointer in the master TOC has a non-zero start
sector and a non-zero size, its sectors can be read, and they begin with
"TWOCHTOC" or "MULCHTOC". -/
def area_toc_valid (image : List Nat) (toc_start toc_size : Nat) : Bool :=
  decide (toc_start > 0 ∧ toc_size > 0) &&
    match read_sectors image toc_start toc_size with
    | .ok data =>
      decide (bytes_at data 0 8 = ascii "TWOCHTOC" ∨ bytes_at data 0 8 = ascii "MULCHTOC")
    | .error _ => false

/-- The area TOC behind the Stereo pointer of the master TOC validates. -/
def stereo_toc_valid (image : List Nat) : Bool :=
  area_toc_valid image (be32_to_cpu (master_toc_data image) 64)
    (be16_to_cpu (master_toc_data image) 84)

/-- The area TOC behind the Multichannel pointer of the master TOC validates. -/
def multichannel_toc_valid (image : List Nat) : Bool :=
  area_toc_valid image (be32_to_cpu (master_toc_data image) 72)
    (be16_to_cpu (master_toc_data image) 86)

/-- The types of the areas whose TOC validates, Stereo first. -/
def validated_types (image : List Nat) : List sacd_area_type_t :=
  (if stereo_toc_valid image then [SACD_AREA_STEREO] else [])
    ++ (if multichannel_toc_valid image then [SACD_AREA_MULTICHANNEL] else [])

/-- The progress callbacks of a trace that were issued while a track was being
extracted (those with the "Extracting track" text): track number, track
percentage, overall percentage. -/
def progress_reports (tr : List worker_event) : List (Int × Int × Int) :=
  tr.filterMap (fun e =>
    match e with
    | worker_event.progress track_number _ track_progress overall_progress
        (status_text.extracting _ _ _ _ _) =>
      some (track_number, track_progress, overall_progress)
    | _ => none)

/-- What happens to an extractor after its creation: a call of
`sacd_extractor_add_tracks`, of `sacd_extractor_add_all_tracks` or of
`sacd_extractor_start` (with the flag that says whether the allocation, or the
creation of the thread, succeeds), or the run of the worker that a call of
`sacd_extractor_start` has spawned, to its end. -/
inductive extractor_call where
  | add_tracks (heap_ok : Bool) (track_numbers : List Int)
  | add_all_tracks (heap_ok : Bool)
  | start (thread_ok : Bool)
  | worker_run (env : worker_env) (last_reported_progress : Int)

/-- The extractor after a call. The worker runs only where one was spawned
(`is_running`). -/
def apply_call (ex : sacd_extractor_internal_t) : extractor_call → sacd_extractor_internal_t
  | extractor_call.add_tracks heap_ok track_numbers =>
    (sacd_extractor_add_tracks heap_ok ex track_numbers).2
  | extractor_call.add_all_tracks heap_ok => (sacd_extractor_add_all_tracks heap_ok ex).2
  | extractor_call.start thread_ok => (sacd_extractor_start thread_ok ex).2.1
  | extractor_call.worker_run env last_reported_progress =>
    if ex.is_running then
      (extraction_thread env
        { ex := ex, trace := [], last_reported_progress := last_reported_progress }).ex
    else ex

/-- The queue is well formed: the count lies between 0 and the capacity, the
array has `track_queue_capacity` entries, and every queued index is that of a
track of the bound area. -/
def queue_ok (ex : sacd_extractor_internal_t) : Prop :=
  0 ≤ ex.track_queue_count ∧ ex.track_queue_count ≤ ex.track_queue_capacity
    ∧ (ex.track_queue.length : Int) = ex.track_queue_capacity
    ∧ ∀ t, t ∈ queue ex → 0 ≤ t ∧ t < ex.area.track_count

/-- A first sector of an area TOC for the examples: the signature "TWOCHTOC",
the size `toc_data_size` at bytes 10..11 and the track count at byte 69, zero
elsewhere. -/
def toc_header_sector (toc_data_size track_count : Nat) : List Nat :=
  ascii "TWOCHTOC" ++ [0, 0, toc_data_size / 256, toc_data_size % 256]
    ++ List.replicate 57 0 ++ [track_count] ++ List.replicate 1978 0

/-- A sector for the examples that begins with `marker` (8 characters) and
holds the bytes `first` from offset 8 and the bytes `second` from offset
8 + 255 * 4 (each at most 1020 bytes), zero elsewhere. -/
def marker_sector (marker : String) (first second : List Nat) : List Nat :=
  ascii marker ++ first ++ List.replicate (1020 - first.length) 0
    ++ second ++ List.replicate (1020 - second.length) 0

/-- The track at queue position `i`: `area->tracks[track_queue[i]]`. -/
def queued_track (ex : sacd_extractor_internal_t) (i : Nat) : sacd_track_t :=
  ex.area.tracks.getD (ex.track_queue.getD i 0).toNat {}

/-- A progress callback issued while a track is being extracted. -/
def is_track_progress : worker_event → Bool
  | worker_event.progress _ _ _ _ (status_text.extracting _ _ _ _ _) => true
  | _ => false

/-- Every progress callback of the trace that is issued while a track is being
extracted has a step before it, and the two are related by `P`. -/
def each_track_progress (P : worker_event → worker_event → Prop)
    (tr : List worker_event) : Prop :=
  ∀ j e, tr[j]? = some e → is_track_progress e = true →
    1 ≤ j ∧ ∃ previous, tr[j - 1]? = some previous ∧ P previous e

/-- The values of a progress callback issued while `track` is being extracted
at queue position `index` of `total` (`current_track_index` and
`track_queue_count`): the callback follows the read of the `k`-th sector of the
track, for some `k` from 1 to `length_lsn`, and reports the track percentage
`k * 100 / length_lsn` and the overall percentage
`(index * 100 + track percentage) / total`, rounded toward zero. -/
def track_progress_values (track : sacd_track_t) (index total : Int)
    (previous e : worker_event) : Prop :=
  match e with
  | worker_event.progress track_number total_tracks track_progress overall_progress
      (status_text.extracting status_index _ _ _ _) =>
    ∃ k : Nat, 1 ≤ k ∧ k ≤ track.length_lsn
      ∧ previous = worker_event.sector_read (track.start_lsn + (k - 1)) true
      ∧ track_number = track.number + 1 ∧ total_tracks = total
      ∧ status_index = index + 1
      ∧ track_progress = ((k * 100 / track.length_lsn : Nat) : Int)
      ∧ overall_progress = Int.tdiv (index * 100 + track_progress) total
  | _ => True

/-- The values of a progress callback issued during a run of the extractor
`ex` while a track is being extracted: for some queue position `i` below the
queue length `n` and some `k` from 1 to the `length_lsn` of the track queued
there, the callback follows the read of the `k`-th sector of that track and
reports the track percentage `floor (100 k / length_lsn)` and the overall
percentage `floor ((100 i + track percentage) / n)`, both at most 100; the two
divisors `length_lsn` and `n` are positive. -/
def run_progress_values (ex : sacd_extractor_internal_t) (previous e : worker_event) : Prop :=
  match e with
  | worker_event.progress track_number total_tracks track_progress overall_progress
      (status_text.extracting status_index _ _ _ _) =>
    ∃ i k : Nat, i < ex.track_queue_count.toNat ∧ status_index = (i : Int) + 1
      ∧ 0 < (queued_track ex i).length_lsn ∧ 0 < ex.track_queue_count
      ∧ 1 ≤ k ∧ k ≤ (queued_track ex i).length_lsn
      ∧ previous
          = worker_event.sector_read ((queued_track ex i).start_lsn + (k - 1)) true
      ∧ track_number = (queued_track ex i).number + 1
      ∧ total_tracks = ex.track_queue_count
      ∧ track_progress = ((100 * k / (queued_track ex i).length_lsn : Nat) : Int)
      ∧ overall_progress
          = (((100 * i + 100 * k / (queued_track ex i).length_lsn)
              / ex.track_queue_count.toNat : Nat) : Int)
      ∧ 100 * k / (queued_track ex i).length_lsn ≤ 100
      ∧ (100 * i + 100 * k / (queued_track ex i).length_lsn) / ex.track_queue_count.toNat
          ≤ 100
  | _ => True

/-- The track percentages of the progress callbacks of a trace that were issued
while a track was being extracted, in the order of the callbacks. -/
def track_percentages (tr : List worker_event) : List Int :=
  (progress_reports tr).map (fun r => r.2.1)

/-! ## Sector reads -/

theorem read_sector_ok (image : List Nat) (lsn : Nat)
    (h : (lsn + 1) * SACD_LSN_SIZE ≤ image.length) :
    read_sector image lsn = .ok (bytes_at image (lsn * SACD_LSN_SIZE) SACD_LSN_SIZE) := by
  have hlen : ((image.drop (lsn * SACD_LSN_SIZE)).take SACD_LSN_SIZE).length = SACD_LSN_SIZE := by
    rw [List.length_take, List.length_drop]
    have : (lsn + 1) * SACD_LSN_SIZE = lsn * SACD_LSN_SIZE + SACD_LSN_SIZE := by ring
    omega
  simp only [read_sector, bytes_at, hlen, ne_eq, not_true_eq_false, if_false]

theorem read_sectors_ok (image : List Nat) (start : Nat) :
    ∀ n : Nat, (start + n) * SACD_LSN_SIZE ≤ image.length → start + n ≤ 2 ^ 32 →
      read_sectors image start n
        = .ok (bytes_at image (start * SACD_LSN_SIZE) (n * SACD_LSN_SIZE))
  | 0, _, _ => by simp [read_sectors, bytes_at]
  | n + 1, h, hw => by
    have e1 : (start + (n + 1)) * SACD_LSN_SIZE
        = (start + n) * SACD_LSN_SIZE + SACD_LSN_SIZE := by ring
    have ih := read_sectors_ok image start n (by omega) (by omega)
    have hmod : (start + n) % 2 ^ 32 = start + n := Nat.mod_eq_of_lt (by omega)
    have hs := read_sector_ok image (start + n) (by
      have : (start + n + 1) * SACD_LSN_SIZE = (start + n) * SACD_LSN_SIZE + SACD_LSN_SIZE := by
        ring
      omega)
    simp only [read_sectors, ih, hmod, hs, bytes_at]
    congr 1
    have e2 : (n + 1) * SACD_LSN_SIZE = n * SACD_LSN_SIZE + SACD_LSN_SIZE := by ring
    have e3 : (start + n) * SACD_LSN_SIZE = start * SACD_LSN_SIZE + n * SACD_LSN_SIZE := by ring
    rw [e2, List.take_add, List.drop_drop, e3]

/-- The master TOC buffer of an image of at least 520 sectors starts with the
bytes of the image at sector 510. -/
theorem master_toc_read (image : List Nat) (h : 520 * 2048 ≤ image.length) :
    ∃ data, read_sectors image SACD_MASTER_TOC_START_LSN SACD_MASTER_TOC_LENGTH = .ok data
      ∧ bytes_at data 0 8 = bytes_at image (510 * 2048) 8 := by
  refine ⟨_, read_sectors_ok image _ _ ?_ ?_, ?_⟩
  · simpa [SACD_MASTER_TOC_START_LSN, SACD_MASTER_TOC_LENGTH, SACD_LSN_SIZE] using h
  · norm_num [SACD_MASTER_TOC_START_LSN, SACD_MASTER_TOC_LENGTH]
  · simp only [bytes_at, SACD_MASTER_TOC_START_LSN, SACD_MASTER_TOC_LENGTH, SACD_LSN_SIZE,
      List.drop_zero, List.take_take]
    norm_num

/-! ## C1 -/

/-- C1: for every image of at least 520 sectors whose 8 bytes at byte offset
510 * 2048 are not "SACDMTOC", `sacd_disc_open` (the image opened, allocation
permitting) returns `SACD_RESULT_INVALID_FILE` and leaves the disc handle NULL. -/
theorem sacd_disc_open_bad_signature (junk : Nat → List Nat) (image : List Nat)
    (hlen : 520 * 2048 ≤ image.length)
    (hsig : bytes_at image (510 * 2048) 8 ≠ ascii "SACDMTOC") :
    sacd_disc_open true junk (.image image) = (SACD_RESULT_INVALID_FILE, none) := by
  obtain ⟨data, hread, hdata⟩ := master_toc_read image hlen
  have hpm : parse_master_toc data {} = (SACD_RESULT_INVALID_FILE, {}) := by
    simp [parse_master_toc, hdata, SACD_SIGNATURE, hsig]
  unfold sacd_disc_open parse_disc_structure
  simp only [hread, hpm]
  rfl

theorem sacd_disc_open_bad_signature_witness :
    sacd_disc_open true (fun _ => []) (.image (List.replicate (520 * 2048) 0))
      = (SACD_RESULT_INVALID_FILE, none) := by
  apply sacd_disc_open_bad_signature
  · rw [List.length_replicate]
  · have h : bytes_at (List.replicate (520 * 2048) 0) (510 * 2048) 8 = List.replicate 8 0 := by
      unfold bytes_at
      rw [List.drop_replicate, List.take_replicate]
      norm_num
    rw [h]
    decide

/-! ## C2 -/

/-- The first index below `n` that satisfies `p`, as `List.find?` computes it. -/
theorem range_find_spec (p : Nat → Bool) (n : Nat) :
    match (List.range n).find? p with
    | some j => j < n ∧ p j = true ∧ ∀ k, k < j → p k = false
    | none => ∀ k, k < n → p k = false := by
  induction n with
  | zero => simp
  | succ n ih =>
    rw [List.range_succ, List.find?_append]
    cases h : (List.range n).find? p with
    | some j =>
      rw [h] at ih
      simp only [Option.or]
      exact ⟨by omega, ih.2.1, ih.2.2⟩
    | none =>
      rw [h] at ih
      simp only [Option.or, List.find?_cons, List.find?_nil]
      cases hp : p n with
      | true =>
        simp only
        exact ⟨by omega, hp, fun k hk => ih k hk⟩
      | false =>
        simp only
        intro k hk
        rcases Nat.lt_succ_iff_lt_or_eq.mp hk with h1 | h1
        · exact ih k h1
        · rw [h1]; exact hp

/-- What `sacd_disc_get_area` returns: the first of the `area_count` parsed
areas that has the requested type, NULL when there is none. -/
theorem sacd_disc_get_area_spec (disc : sacd_disc_t) (ty : sacd_area_type_t) :
    match sacd_disc_get_area disc ty with
    | some j => j < disc.area_count.toNat ∧ (area_at disc j).type = ty
        ∧ ∀ k, k < j → (area_at disc k).type ≠ ty
    | none => ∀ k, k < disc.area_count.toNat → (area_at disc k).type ≠ ty := by
  have h := range_find_spec (fun i => decide ((area_at disc i).type = ty)) disc.area_count.toNat
  unfold sacd_disc_get_area
  cases hf : (List.range disc.area_count.toNat).find?
      (fun i => decide ((area_at disc i).type = ty)) with
  | some j =>
    rw [hf] at h
    simpa using h
  | none =>
    rw [hf] at h
    simpa using h

/-- C2: `sacd_disc_get_best_area` returns the Stereo area whenever one is among
the `area_count` parsed areas; returns the Multichannel area when the parsed
areas are Multichannel only; returns NULL when `area_count = 0`. The area
returned is the first parsed area of its type. -/
theorem sacd_disc_get_best_area_spec (disc : sacd_disc_t) :
    ((∃ i, i < disc.area_count.toNat ∧ (area_at disc i).type = SACD_AREA_STEREO) →
      ∃ j, sacd_disc_get_best_area disc = some j ∧ j < disc.area_count.toNat
        ∧ (area_at disc j).type = SACD_AREA_STEREO
        ∧ ∀ k, k < j → (area_at disc k).type ≠ SACD_AREA_STEREO)
    ∧ ((∃ i, i < disc.area_count.toNat ∧ (area_at disc i).type = SACD_AREA_MULTICHANNEL) →
        (∀ i, i < disc.area_count.toNat → (area_at disc i).type ≠ SACD_AREA_STEREO) →
      ∃ j, sacd_disc_get_best_area disc = some j ∧ j < disc.area_count.toNat
        ∧ (area_at disc j).type = SACD_AREA_MULTICHANNEL
        ∧ ∀ k, k < j → (area_at disc k).type ≠ SACD_AREA_MULTICHANNEL)
    ∧ (disc.area_count = 0 → sacd_disc_get_best_area disc = none) := by
  have hs := sacd_disc_get_area_spec disc SACD_AREA_STEREO
  have hm := sacd_disc_get_area_spec disc SACD_AREA_MULTICHANNEL
  refine ⟨?_, ?_, ?_⟩
  · rintro ⟨i, hi, hty⟩
    have hc : disc.area_count ≠ 0 := by
      intro h0
      rw [h0] at hi
      simp at hi
    cases hg : sacd_disc_get_area disc SACD_AREA_STEREO with
    | some j =>
      rw [hg] at hs
      exact ⟨j, by simp [sacd_disc_get_best_area, hc, hg], hs⟩
    | none =>
      rw [hg] at hs
      exact absurd hty (hs i hi)
  · rintro ⟨i, hi, hty⟩ hno
    have hc : disc.area_count ≠ 0 := by
      intro h0
      rw [h0] at hi
      simp at hi
    cases hg : sacd_disc_get_area disc SACD_AREA_STEREO with
    | some j =>
      rw [hg] at hs
      exact absurd hs.2.1 (hno j hs.1)
    | none =>
      cases hg2 : sacd_disc_get_area disc SACD_AREA_MULTICHANNEL with
      | some j =>
        rw [hg2] at hm
        exact ⟨j, by simp [sacd_disc_get_best_area, hc, hg, hg2], hm⟩
      | none =>
        rw [hg2] at hm
        exact absurd hty (hm i hi)
  · intro h0
    simp [sacd_disc_get_best_area, h0]
/-! ## Streams and byte buffers -/

theorem ascii_DSD : ascii "DSD " = [68, 83, 68, 32] := by decide
theorem ascii_fmt : ascii "fmt " = [102, 109, 116, 32] := by decide
theorem ascii_data : ascii "data" = [100, 97, 116, 97] := by decide
theorem ascii_FRM8 : ascii "FRM8" = [70, 82, 77, 56] := by decide
theorem ascii_FVER : ascii "FVER" = [70, 86, 69, 82] := by decide
theorem ascii_PROP : ascii "PROP" = [80, 82, 79, 80] := by decide
theorem ascii_SND : ascii "SND " = [83, 78, 68, 32] := by decide
theorem ascii_FS : ascii "FS  " = [70, 83, 32, 32] := by decide
theorem ascii_CHNL : ascii "CHNL" = [67, 72, 78, 76] := by decide

theorem write_le64_length (v : Nat) : (write_le64 v).length = 8 := rfl
theorem write_le32_length (v : Nat) : (write_le32 v).length = 4 := rfl
theorem write_be64_length (v : Nat) : (write_be64 v).length = 8 := rfl
theorem write_le64_ne_nil (v : Nat) : write_le64 v ≠ [] := by simp [write_le64]
theorem write_be64_ne_nil (v : Nat) : write_be64 v ≠ [] := by simp [write_be64]

theorem and_255 (x : Nat) : x &&& 0xFF = x % 256 := Nat.and_pow_two_sub_one_eq_mod x 8

theorem f64_to_uint_lt (w : Nat) (x : Int) : f64_to_uint w x < 2 ^ w := by
  unfold f64_to_uint
  have hpos : (0 : Int) < ((2 ^ w : Nat) : Int) := by positivity
  have h1 := Int.emod_lt_of_pos (Int.tdiv x F64_UNIT) hpos
  have h2 := Int.emod_nonneg (Int.tdiv x F64_UNIT) (ne_of_gt hpos)
  omega

theorem int_to_uint_lt (w : Nat) (x : Int) : int_to_uint w x < 2 ^ w := by
  unfold int_to_uint
  have hpos : (0 : Int) < ((2 ^ w : Nat) : Int) := by positivity
  have h1 := Int.emod_lt_of_pos x hpos
  have h2 := Int.emod_nonneg x (ne_of_gt hpos)
  omega

theorem int_to_uint_of_lt (w : Nat) (x : Nat) (h : x < 2 ^ w) : int_to_uint w (x : Int) = x := by
  unfold int_to_uint
  have : ((x : Int) % ((2 ^ w : Nat) : Int)) = (x : Int) := by
    apply Int.emod_eq_of_lt
    · exact Int.ofNat_nonneg x
    · exact_mod_cast h
  rw [this]
  rfl

theorem byte_at_append_left (a b : List Nat) (i : Nat) (h : i < a.length) :
    byte_at (a ++ b) i = byte_at a i := by
  simp only [byte_at, List.getD_eq_getElem?_getD, List.getElem?_append_left h]

theorem byte_at_append_right (a b : List Nat) (i : Nat) (h : a.length ≤ i) :
    byte_at (a ++ b) i = byte_at b (i - a.length) := by
  simp only [byte_at, List.getD_eq_getElem?_getD, List.getElem?_append_right h]

theorem byte_at_of_le (a : List Nat) (i : Nat) (h : a.length ≤ i) : byte_at a i = 0 := by
  simp only [byte_at, List.getD_eq_getElem?_getD, List.getElem?_eq_none h, Option.getD_none]

theorem byte_at_take (a : List Nat) (k i : Nat) (h : i < k) :
    byte_at (a.take k) i = byte_at a i := by
  simp only [byte_at, List.getD_eq_getElem?_getD, List.getElem?_take_of_lt h]

theorem byte_at_replicate_zero (n i : Nat) : byte_at (List.replicate n 0) i = 0 := by
  simp only [byte_at, List.getD_eq_getElem?_getD, List.getElem?_replicate]
  split <;> rfl

theorem byte_at_drop (data : List Nat) (off i : Nat) :
    byte_at (data.drop off) i = byte_at data (off + i) := by
  simp only [byte_at, List.getD_eq_getElem?_getD, List.getElem?_drop]

theorem read_le_congr (a b : List Nat) (off off' : Nat) :
    ∀ n : Nat, (∀ i, i < n → byte_at a (off + i) = byte_at b (off' + i)) →
      read_le a off n = read_le b off' n
  | 0, _ => rfl
  | n + 1, h => by
    have h0 := h 0 (by omega)
    have ih := read_le_congr a b (off + 1) (off' + 1) n (fun i hi => by
      have := h (i + 1) (by omega)
      rw [show off + 1 + i = off + (i + 1) by omega, show off' + 1 + i = off' + (i + 1) by omega]
      exact this)
    simp only [read_le, ih]
    rw [Nat.add_zero, Nat.add_zero] at h0
    rw [h0]

theorem read_be_congr (a b : List Nat) (off off' : Nat) :
    ∀ n : Nat, (∀ i, i < n → byte_at a (off + i) = byte_at b (off' + i)) →
      read_be a off n = read_be b off' n
  | 0, _ => rfl
  | n + 1, h => by
    have h0 := h 0 (by omega)
    have ih := read_be_congr a b (off + 1) (off' + 1) n (fun i hi => by
      have := h (i + 1) (by omega)
      rw [show off + 1 + i = off + (i + 1) by omega, show off' + 1 + i = off' + (i + 1) by omega]
      exact this)
    simp only [read_be, ih]
    rw [Nat.add_zero, Nat.add_zero] at h0
    rw [h0]

theorem le64_decode (v : Nat) (rest : List Nat) :
    read_le (write_le64 v ++ rest) 0 8 = v % 2 ^ 64 := by
  simp only [read_le, write_le64, byte_at, List.cons_append, List.getD_cons_zero,
    List.getD_cons_succ]
  simp only [and_255, Nat.shiftRight_eq_div_pow]
  omega

theorem le32_decode (v : Nat) (rest : List Nat) :
    read_le (write_le32 v ++ rest) 0 4 = v % 2 ^ 32 := by
  simp only [read_le, write_le32, byte_at, List.cons_append, List.getD_cons_zero,
    List.getD_cons_succ]
  simp only [and_255, Nat.shiftRight_eq_div_pow]
  omega

theorem be64_decode (v : Nat) (rest : List Nat) :
    read_be (write_be64 v ++ rest) 0 8 = v % 2 ^ 64 := by
  simp only [read_be, write_be64, byte_at, List.cons_append, List.getD_cons_zero,
    List.getD_cons_succ]
  simp only [and_255, Nat.shiftRight_eq_div_pow]
  omega

/-- A field read at the offset where it starts in a concatenation. -/
theorem read_le_at (pre field : List Nat) (off n : Nat) (h : pre.length = off) :
    read_le (pre ++ field) off n = read_le field 0 n := by
  apply read_le_congr
  intro i _
  rw [byte_at_append_right _ _ _ (by omega), ← h]
  congr 1
  omega

theorem read_be_at (pre field : List Nat) (off n : Nat) (h : pre.length = off) :
    read_be (pre ++ field) off n = read_be field 0 n := by
  apply read_be_congr
  intro i _
  rw [byte_at_append_right _ _ _ (by omega), ← h]
  congr 1
  omega

theorem read_le_seg (pre post : List (List Nat)) (field : List Nat) (off n : Nat)
    (h : (List.flatten pre).length = off) :
    read_le (List.flatten (pre ++ field :: post)) off n
      = read_le (field ++ List.flatten post) 0 n := by
  rw [List.flatten_append, List.flatten_cons]
  exact read_le_at _ _ off n h

theorem read_be_seg (pre post : List (List Nat)) (field : List Nat) (off n : Nat)
    (h : (List.flatten pre).length = off) :
    read_be (List.flatten (pre ++ field :: post)) off n
      = read_be (field ++ List.flatten post) 0 n := by
  rw [List.flatten_append, List.flatten_cons]
  exact read_be_at _ _ off n h

theorem bytes_at_seg (pre post : List (List Nat)) (field : List Nat) (off n : Nat)
    (h : (List.flatten pre).length = off) (hn : field.length = n) :
    bytes_at (List.flatten (pre ++ field :: post)) off n = field := by
  rw [List.flatten_append, List.flatten_cons, bytes_at, ← h, List.drop_left, ← hn,
    List.take_left]

theorem fwrite_ok (buf : List Nat) (file : FILE) (hne : buf ≠ [])
    (hroom : file.pos + buf.length ≤ file.limit) :
    fwrite buf file = (buf.length, file_put buf file) := by
  have hk : min buf.length (file.limit - file.pos) = buf.length := by omega
  have hpos : buf.length ≠ 0 := by
    intro h
    exact hne (List.length_eq_zero.mp h)
  simp only [fwrite, hk, hpos, if_false, file_put, List.take_length]

theorem fwrite_or_fail_ok (buf : List Nat) (file : FILE) (k : FILE → sacd_result_t × FILE)
    (hne : buf ≠ []) (hroom : file.pos + buf.length ≤ file.limit) :
    fwrite_or_fail buf file k = k (file_put buf file) := by
  simp [fwrite_or_fail, fwrite_ok buf file hne hroom]

theorem fwrite_or_return_ok (past buf : List Nat) (file : FILE)
    (k : FILE → sacd_result_t × FILE × List Nat)
    (hne : buf ≠ []) (hroom : file.pos + buf.length ≤ file.limit) :
    fwrite_or_return past buf file k = k (file_put buf file) := by
  simp [fwrite_or_return, fwrite_ok buf file hne hroom]

/-- Two writes in a row are one write of the concatenation. -/
theorem file_put_put (a b : List Nat) (file : FILE) :
    file_put b (file_put a file) = file_put (a ++ b) file := by
  generalize hP : file.bytes.take file.pos ++ List.replicate (file.pos - file.bytes.length) 0 = P
  have hPlen : P.length = file.pos := by
    rw [← hP]
    simp only [List.length_append, List.length_take, List.length_replicate]
    omega
  have hPa : (P ++ a).length = file.pos + a.length := by
    rw [List.length_append, hPlen]
  have e3 : ((P ++ a) ++ file.bytes.drop (file.pos + a.length)).take (file.pos + a.length)
      = P ++ a := by
    rw [← hPa, List.take_left]
  have e4 : ((P ++ a) ++ file.bytes.drop (file.pos + a.length)).drop
      (file.pos + a.length + b.length) = file.bytes.drop (file.pos + (a.length + b.length)) := by
    rw [← hPa, List.drop_append, List.drop_drop, hPa]
    congr 1
    omega
  have e5 : file.pos + a.length
      - ((P ++ a) ++ file.bytes.drop (file.pos + a.length)).length = 0 := by
    rw [List.length_append, hPa]
    omega
  unfold file_put
  simp only [hP]
  show FILE.mk _ _ _ = FILE.mk _ _ _
  congr 1
  · show (((P ++ a) ++ file.bytes.drop (file.pos + a.length)).take (file.pos + a.length)
        ++ List.replicate (file.pos + a.length
          - ((P ++ a) ++ file.bytes.drop (file.pos + a.length)).length) 0
        ++ b ++ ((P ++ a) ++ file.bytes.drop (file.pos + a.length)).drop
          (file.pos + a.length + b.length)) = _
    rw [e3, e4, e5, List.length_append]
    simp only [List.replicate_zero, List.append_nil, List.append_assoc]
  · show file.pos + a.length + b.length = file.pos + (a ++ b).length
    rw [List.length_append]
    omega

/-- A byte of the file after a write: the byte written when the offset lies in
the written range, the old byte otherwise. -/
theorem byte_at_file_put (buf : List Nat) (file : FILE) (i : Nat) :
    byte_at (file_put buf file).bytes i
      = if file.pos ≤ i ∧ i < file.pos + buf.length then byte_at buf (i - file.pos)
        else byte_at file.bytes i := by
  generalize hP : file.bytes.take file.pos ++ List.replicate (file.pos - file.bytes.length) 0 = P
  have hPlen : P.length = file.pos := by
    rw [← hP]
    simp only [List.length_append, List.length_take, List.length_replicate]
    omega
  have hPi : ∀ j, j < file.pos → byte_at P j = byte_at file.bytes j := by
    intro j hj
    rw [← hP]
    by_cases hjl : j < file.bytes.length
    · rw [byte_at_append_left _ _ _ (by rw [List.length_take]; omega), byte_at_take _ _ _ hj]
    · rw [byte_at_append_right _ _ _ (by rw [List.length_take]; omega),
        byte_at_replicate_zero, byte_at_of_le _ _ (by omega)]
  have e : (file_put buf file).bytes = P ++ (buf ++ file.bytes.drop (file.pos + buf.length)) := by
    simp only [file_put, hP, List.append_assoc]
  rw [e]
  by_cases h1 : i < file.pos
  · rw [byte_at_append_left _ _ _ (by omega), hPi i h1, if_neg (by omega)]
  · rw [byte_at_append_right _ _ _ (by omega), hPlen]
    by_cases h2 : i < file.pos + buf.length
    · rw [byte_at_append_left _ _ _ (by omega), if_pos (by omega)]
    · rw [byte_at_append_right _ _ _ (by omega), byte_at_drop, if_neg (by omega)]
      congr 1
      omega

theorem file_put_length (buf : List Nat) (file : FILE) :
    (file_put buf file).bytes.length = max file.bytes.length (file.pos + buf.length) := by
  simp only [file_put, List.length_append, List.length_take, List.length_replicate,
    List.length_drop]
  omega

theorem file_put_new_file (buf : List Nat) (limit : Nat) :
    file_put buf (new_file limit) = { bytes := buf, pos := buf.length, limit := limit } := by
  simp [file_put, new_file]

/-! ## The DSF header -/

theorem dsf_header_buf (t : Nat) :
    (poke (poke (poke (poke (local_buf 28) 0 (ascii "DSD ")) 4 (write_le64 28))
      12 (write_le64 t)) 20 (write_le64 0)).take 28
      = ascii "DSD " ++ write_le64 28 ++ write_le64 t ++ write_le64 0 := by
  simp [poke, local_buf, ascii_DSD, write_le64]

theorem dsf_fmt_buf (ct cn sf sc : Nat) :
    (poke (poke (poke (poke (poke (poke (poke (poke (poke (poke (poke (local_buf 64)
        0 (ascii "fmt ")) 4 (write_le64 52)) 12 (write_le32 1)) 16 (write_le32 0))
        20 (write_le32 ct)) 24 (write_le32 cn))
        28 (write_le32 sf)) 32 (write_le32 1))
        36 (write_le64 sc)) 44 (write_le32 4096)) 48 (write_le32 0)).take 52
      = ascii "fmt " ++ write_le64 52 ++ write_le32 1 ++ write_le32 0 ++ write_le32 ct
        ++ write_le32 cn ++ write_le32 sf ++ write_le32 1 ++ write_le64 sc ++ write_le32 4096
        ++ write_le32 0 := by
  simp [poke, local_buf, ascii_fmt, write_le64, write_le32]

theorem dsf_data_buf (t : Nat) :
    (poke (poke (local_buf 12) 0 (ascii "data")) 4 (write_le64 t)).take 12
      = ascii "data" ++ write_le64 t := by
  simp [poke, local_buf, ascii_data, write_le64]

theorem dsf_header_bytes_length (track : sacd_track_t) (area : sacd_area_t) (a : Nat) :
    (dsf_header_bytes track area a).length = 92 := by
  simp only [dsf_header_bytes, dsf_header_fields, List.flatten, List.length_append,
    write_le64_length, write_le32_length,
    ascii_DSD, ascii_fmt, ascii_data, List.length_cons, List.length_nil]

/-- With room for 92 bytes, the DSF header writer succeeds and its three writes
amount to one write of `dsf_header_bytes`. -/
theorem write_dsf_header_eq (file : FILE) (track : sacd_track_t) (area : sacd_area_t) (a : Nat)
    (hroom : file.pos + 92 ≤ file.limit) :
    sacd_internal_write_dsf_header file track area a
      = (SACD_RESULT_OK, file_put (dsf_header_bytes track area a) file) := by
  simp only [sacd_internal_write_dsf_header, dsf_header_buf, dsf_fmt_buf, dsf_data_buf]
  rw [fwrite_or_fail_ok _ _ _ (by simp [ascii_DSD]) (by
    simp only [List.length_append, write_le64_length, ascii_DSD, List.length_cons,
      List.length_nil]
    omega)]
  rw [fwrite_or_fail_ok _ _ _ (by simp [ascii_fmt]) (by
    simp only [file_put, List.length_append, write_le64_length, write_le32_length, ascii_DSD,
      ascii_fmt, List.length_cons, List.length_nil]
    omega)]
  rw [fwrite_or_fail_ok _ _ _ (by simp [ascii_data]) (by
    simp only [file_put, List.length_append, write_le64_length, write_le32_length, ascii_DSD,
      ascii_fmt, ascii_data, List.length_cons, List.length_nil]
    omega)]
  rw [file_put_put, file_put_put]
  simp only [dsf_header_bytes, dsf_header_fields, List.flatten, List.append_assoc,
    List.append_nil]

theorem dsf_header_written_eq (track : sacd_track_t) (area : sacd_area_t) (a : Nat) :
    dsf_header_written track area a = dsf_header_bytes track area a := by
  unfold dsf_header_written
  rw [write_dsf_header_eq _ _ _ _ (by simp [new_file]), file_put_new_file]

/-! ## C3 -/

/-- C3: for every track, area and audio_data_size (and a stream with room for
the header), `sacd_internal_write_dsf_header` returns OK and writes exactly 92
bytes `hdr` at the cursor: "DSD " at offset 0, little-endian u64 28 at 4,
92 + audio_data_size at 12, 0 at 20; "fmt " at 28, u64 52 at 32, then the u32
fields format version 1, format id 0, channel type (2 when
`track.channel_count = 2`, 7 otherwise), channel count, the sample frequency of
the area, bits per sample 1, the u64 sample count
`sacd_track_duration_samples track`, block size 4096, reserved 0; "data" at 80
and 12 + audio_data_size at 84. Values are those of the C types: 64-bit sums are
modulo 2^64, 32-bit fields modulo 2^32. -/
theorem sacd_internal_write_dsf_header_spec (file : FILE) (track : sacd_track_t)
    (area : sacd_area_t) (audio_data_size : Nat) (hroom : file.pos + 92 ≤ file.limit) :
    ∃ hdr : List Nat,
      sacd_internal_write_dsf_header file track area audio_data_size
        = (SACD_RESULT_OK, file_put hdr file)
      ∧ hdr.length = 92
      ∧ bytes_at hdr 0 4 = ascii "DSD "
      ∧ read_le hdr 4 8 = 28
      ∧ read_le hdr 12 8 = (92 + audio_data_size) % 2 ^ 64
      ∧ read_le hdr 20 8 = 0
      ∧ bytes_at hdr 28 4 = ascii "fmt "
      ∧ read_le hdr 32 8 = 52
      ∧ read_le hdr 40 4 = 1
      ∧ read_le hdr 44 4 = 0
      ∧ read_le hdr 48 4 = (if track.channel_count = 2 then 2 else 7)
      ∧ read_le hdr 52 4 = int_to_uint 32 track.channel_count
      ∧ read_le hdr 56 4 = area.sample_frequency % 2 ^ 32
      ∧ read_le hdr 60 4 = 1
      ∧ read_le hdr 64 8 = sacd_track_duration_samples track
      ∧ read_le hdr 72 4 = 4096
      ∧ read_le hdr 76 4 = 0
      ∧ bytes_at hdr 80 4 = ascii "data"
      ∧ read_le hdr 84 8 = (12 + audio_data_size) % 2 ^ 64 := by
  refine ⟨dsf_header_bytes track area audio_data_size,
    write_dsf_header_eq file track area audio_data_size hroom,
    dsf_header_bytes_length track area audio_data_size, ?_, ?_, ?_, ?_, ?_, ?_, ?_, ?_, ?_, ?_,
    ?_, ?_, ?_, ?_, ?_, ?_, ?_⟩
  · exact bytes_at_seg [] _ _ 0 4 rfl (by simp [ascii_DSD])
  · exact (read_le_seg [_] _ _ 4 8 (by simp [ascii_DSD])).trans (le64_decode _ _)
  · refine (read_le_seg [_, _] _ _ 12 8 (by simp [ascii_DSD, write_le64_length])).trans
      ((le64_decode _ _).trans ?_)
    omega
  · exact (read_le_seg [_, _, _] _ _ 20 8 (by simp [ascii_DSD, write_le64_length])).trans
      (le64_decode _ _)
  · exact bytes_at_seg [_, _, _, _] _ _ 28 4 (by simp [ascii_DSD, write_le64_length])
      (by simp [ascii_fmt])
  · exact (read_le_seg [_, _, _, _, _] _ _ 32 8
      (by simp [ascii_DSD, ascii_fmt, write_le64_length])).trans (le64_decode _ _)
  · exact (read_le_seg [_, _, _, _, _, _] _ _ 40 4
      (by simp [ascii_DSD, ascii_fmt, write_le64_length])).trans (le32_decode _ _)
  · exact (read_le_seg [_, _, _, _, _, _, _] _ _ 44 4
      (by simp [ascii_DSD, ascii_fmt, write_le64_length, write_le32_length])).trans
      (le32_decode _ _)
  · refine (read_le_seg [_, _, _, _, _, _, _, _] _ _ 48 4
      (by simp [ascii_DSD, ascii_fmt, write_le64_length, write_le32_length])).trans
      ((le32_decode _ _).trans ?_)
    split <;> rfl
  · exact (read_le_seg [_, _, _, _, _, _, _, _, _] _ _ 52 4
      (by simp [ascii_DSD, ascii_fmt, write_le64_length, write_le32_length])).trans
      ((le32_decode _ _).trans (Nat.mod_eq_of_lt (int_to_uint_lt 32 _)))
  · exact (read_le_seg [_, _, _, _, _, _, _, _, _, _] _ _ 56 4
      (by simp [ascii_DSD, ascii_fmt, write_le64_length, write_le32_length])).trans
      (le32_decode _ _)
  · exact (read_le_seg [_, _, _, _, _, _, _, _, _, _, _] _ _ 60 4
      (by simp [ascii_DSD, ascii_fmt, write_le64_length, write_le32_length])).trans
      (le32_decode _ _)
  · exact (read_le_seg [_, _, _, _, _, _, _, _, _, _, _, _] _ _ 64 8
      (by simp [ascii_DSD, ascii_fmt, write_le64_length, write_le32_length])).trans
      ((le64_decode _ _).trans (Nat.mod_eq_of_lt (f64_to_uint_lt 64 _)))
  · exact (read_le_seg [_, _, _, _, _, _, _, _, _, _, _, _, _] _ _ 72 4
      (by simp [ascii_DSD, ascii_fmt, write_le64_length, write_le32_length])).trans
      (le32_decode _ _)
  · exact (read_le_seg [_, _, _, _, _, _, _, _, _, _, _, _, _, _] _ _ 76 4
      (by simp [ascii_DSD, ascii_fmt, write_le64_length, write_le32_length])).trans
      (le32_decode _ _)
  · exact bytes_at_seg [_, _, _, _, _, _, _, _, _, _, _, _, _, _, _] _ _ 80 4
      (by simp [ascii_DSD, ascii_fmt, write_le64_length, write_le32_length])
      (by simp [ascii_data])
  · exact (read_le_seg [_, _, _, _, _, _, _, _, _, _, _, _, _, _, _, _] [] _ 84 8
      (by simp [ascii_DSD, ascii_fmt, ascii_data, write_le64_length, write_le32_length])).trans
      ((le64_decode _ _).trans (Nat.mod_mod _ _))

theorem sacd_internal_write_dsf_header_spec_witness :
    (sacd_internal_write_dsf_header (new_file 92)
        { channel_count := 2, duration := { minutes := 0, seconds := 10, frames := 0 } }
        { sample_frequency := 2822400 } 0).1 = SACD_RESULT_OK
      ∧ (sacd_internal_write_dsf_header (new_file 92)
        { channel_count := 2, duration := { minutes := 0, seconds := 10, frames := 0 } }
        { sample_frequency := 2822400 } 0).2.bytes.length = 92 := by
  obtain ⟨hdr, h, hlen, _⟩ := sacd_internal_write_dsf_header_spec (new_file 92)
    { channel_count := 2, duration := { minutes := 0, seconds := 10, frames := 0 } }
    { sample_frequency := 2822400 } 0 (by decide)
  rw [h, file_put_new_file]
  exact ⟨rfl, hlen⟩

/-! ## Finalizing a DSF file -/

/-- With the two size fields inside the device limit, finalizing a DSF stream
succeeds and leaves `dsf_finalized`. -/
theorem finalize_dsf_eq (file : FILE) (n : Nat) (hpos : file.pos < 2 ^ 63)
    (hlim : 92 ≤ file.limit) :
    sacd_internal_finalize_file_headers file SACD_FORMAT_DSF n
      = (SACD_RESULT_OK, dsf_finalized file n) := by
  have hft : ftell file = (file.pos : Int) := by
    unfold ftell
    rw [if_pos hpos]
  have hnn : ¬ ((file.pos : Int) < 0) := by omega
  have hconv : int_to_uint 64 (file.pos : Int) = file.pos :=
    int_to_uint_of_lt 64 file.pos (by omega)
  simp only [sacd_internal_finalize_file_headers, hft, hnn, if_false, hconv]
  have hs1 : fseek file 12 = (0, { file with pos := 12 }) := by simp [fseek]
  simp only [hs1]
  rw [fwrite_or_fail_ok _ _ _ (write_le64_ne_nil _) (by simp only [write_le64_length]; omega)]
  have hs2 : ∀ f : FILE, fseek f (80 + 4) = (0, { f with pos := 84 }) := by
    intro f; simp [fseek]
  simp only [hs2]
  rw [fwrite_or_fail_ok _ _ _ (write_le64_ne_nil _) (by
    simp only [write_le64_length, file_put]; omega)]
  have hs3 : ∀ f : FILE, fseek f (file.pos : Int) = (0, { f with pos := file.pos }) := by
    intro f; simp [fseek]
  simp only [hs3]
  simp [dsf_finalized]

theorem dsf_finalized_bytes (file : FILE) (n : Nat) :
    (dsf_finalized file n).bytes
      = (file_put (write_le64 ((12 + n) % 2 ^ 64))
          { file_put (write_le64 file.pos) { file with pos := 12 } with pos := 84 }).bytes :=
  rfl

theorem dsf_finalized_length (file : FILE) (n : Nat) (h : 92 ≤ file.bytes.length) :
    (dsf_finalized file n).bytes.length = file.bytes.length := by
  rw [dsf_finalized_bytes, file_put_length]
  show max (file_put (write_le64 file.pos) { file with pos := 12 }).bytes.length _ = _
  rw [file_put_length]
  simp only [write_le64_length]
  omega

theorem dsf_finalized_file_size (file : FILE) (n : Nat) :
    read_le (dsf_finalized file n).bytes 12 8 = file.pos % 2 ^ 64 := by
  rw [← le64_decode file.pos [], dsf_finalized_bytes]
  apply read_le_congr
  intro i hi
  rw [byte_at_file_put, if_neg (by
    show ¬ (84 ≤ 12 + i ∧ _)
    omega)]
  show byte_at (file_put (write_le64 file.pos) { file with pos := 12 }).bytes (12 + i) = _
  rw [byte_at_file_put, if_pos (by
    show 12 ≤ 12 + i ∧ 12 + i < 12 + (write_le64 file.pos).length
    rw [write_le64_length]
    omega)]
  show byte_at (write_le64 file.pos) (12 + i - 12) = _
  rw [List.append_nil]
  congr 1
  omega

theorem dsf_finalized_data_size (file : FILE) (n : Nat) :
    read_le (dsf_finalized file n).bytes 84 8 = (12 + n) % 2 ^ 64 := by
  rw [← Nat.mod_mod (12 + n) (2 ^ 64), ← le64_decode ((12 + n) % 2 ^ 64) [],
    dsf_finalized_bytes]
  apply read_le_congr
  intro i hi
  rw [byte_at_file_put, if_pos (by
    show 84 ≤ 84 + i ∧ 84 + i < 84 + (write_le64 ((12 + n) % 2 ^ 64)).length
    rw [write_le64_length]
    omega)]
  show byte_at (write_le64 ((12 + n) % 2 ^ 64)) (84 + i - 84) = _
  rw [List.append_nil]
  congr 1
  omega

/-! ## C4 -/

/-- C4: for every file that consists of the 92 bytes written by
`sacd_internal_write_dsf_header` (with any size estimate `est`) followed by the
`n` audio bytes `audio`, with the cursor at the end (the file within the device
limit, its size a valid `long`), `sacd_internal_finalize_file_headers` with
format DSF and `n` returns OK, keeps the length of the file, and leaves the
little-endian u64 at offset 12 equal to 28 + 52 + 12 + n, the length of the
file, and the little-endian u64 at offset 84 equal to 12 + n. -/
theorem sacd_internal_finalize_dsf_spec (file : FILE) (track : sacd_track_t)
    (area : sacd_area_t) (est : Nat) (audio : List Nat)
    (hbytes : file.bytes = dsf_header_written track area est ++ audio)
    (hpos : file.pos = file.bytes.length)
    (hlim : file.bytes.length ≤ file.limit)
    (hlong : file.bytes.length < 2 ^ 63) :
    ∃ file1 : FILE,
      sacd_internal_finalize_file_headers file SACD_FORMAT_DSF audio.length
        = (SACD_RESULT_OK, file1)
      ∧ file1.bytes.length = file.bytes.length
      ∧ read_le file1.bytes 12 8 = 28 + 52 + 12 + audio.length
      ∧ read_le file1.bytes 12 8 = file1.bytes.length
      ∧ read_le file1.bytes 84 8 = 12 + audio.length := by
  have hlen : file.bytes.length = 92 + audio.length := by
    rw [hbytes, List.length_append, dsf_header_written_eq, dsf_header_bytes_length]
  have hsz : read_le (dsf_finalized file audio.length).bytes 12 8 = 92 + audio.length := by
    rw [dsf_finalized_file_size, hpos, hlen]
    exact Nat.mod_eq_of_lt (by omega)
  refine ⟨dsf_finalized file audio.length,
    finalize_dsf_eq file audio.length (by omega) (by omega),
    dsf_finalized_length file audio.length (by omega), ?_, ?_, ?_⟩
  · rw [hsz]
  · rw [hsz, dsf_finalized_length file audio.length (by omega), hlen]
  · rw [dsf_finalized_data_size]
    exact Nat.mod_eq_of_lt (by omega)

theorem sacd_internal_finalize_dsf_spec_witness :
    ∃ file1 : FILE,
      sacd_internal_finalize_file_headers
          { bytes := dsf_header_written {} {} 0 ++ [1, 2, 3], pos := 95, limit := 95 }
          SACD_FORMAT_DSF 3 = (SACD_RESULT_OK, file1)
      ∧ read_le file1.bytes 12 8 = 95
      ∧ read_le file1.bytes 84 8 = 15 := by
  have hlen : (dsf_header_written {} {} 0 ++ [1, 2, 3]).length = 95 := by
    rw [List.length_append, dsf_header_written_eq, dsf_header_bytes_length]
    rfl
  obtain ⟨file1, h, _, h12, _, h84⟩ := sacd_internal_finalize_dsf_spec
    { bytes := dsf_header_written {} {} 0 ++ [1, 2, 3], pos := 95, limit := 95 } {} {} 0
    [1, 2, 3] rfl hlen.symm (le_of_eq hlen) (by rw [hlen]; norm_num)
  exact ⟨file1, h, h12, h84⟩

/-! ## The DSDIFF header -/

theorem dsdiff_form_buf (t : Nat) :
    (poke (poke (poke (local_buf 16) 0 (ascii "FRM8")) 4 (write_be64 t)) 12 (ascii "DSD ")).take 16
      = ascii "FRM8" ++ write_be64 t ++ ascii "DSD " := by
  simp [poke, local_buf, ascii_FRM8, ascii_DSD, write_be64]

theorem dsdiff_fver_buf :
    (poke (poke (poke (local_buf 12) 0 (ascii "FVER")) 4 (write_be64 4))
        8 (write_le32 0x01050000)).take 12
      = ascii "FVER" ++ (write_be64 4).take 4 ++ write_le32 0x01050000 := by
  decide

theorem dsdiff_prop_buf (t : Nat) :
    (poke (poke (poke (local_buf 16) 0 (ascii "PROP")) 4 (write_be64 t)) 12 (ascii "SND ")).take 16
      = ascii "PROP" ++ write_be64 t ++ ascii "SND " := by
  simp [poke, local_buf, ascii_PROP, ascii_SND, write_be64]

theorem dsdiff_fs_buf (sf : Nat) :
    (poke (poke (poke (local_buf 12) 0 (ascii "FS  ")) 4 (write_be64 4)) 8 (write_le32 sf)).take 12
      = ascii "FS  " ++ (write_be64 4).take 4 ++ write_le32 sf := by
  simp [poke, local_buf, ascii_FS, write_be64, write_le32]

theorem dsdiff_chnl_buf (t : Nat) :
    (store_local (poke (local_buf 8) 0 (ascii "CHNL")) 4 (write_be64 t)).1
      = ascii "CHNL" ++ (write_be64 t).take 4 := by
  simp [store_local, poke, local_buf, ascii_CHNL, write_be64]

/-- The store of the CHNL size puts the 4 low bytes of the size past the end of
`chnl_buf`. -/
theorem dsdiff_chnl_past (t : Nat) :
    (store_local (poke (local_buf 8) 0 (ascii "CHNL")) 4 (write_be64 t)).2
      = (write_be64 t).drop 4 := by
  simp [store_local, poke, local_buf, ascii_CHNL, write_be64]

theorem dsdiff_dsd_buf (t : Nat) :
    (poke (poke (local_buf 12) 0 (ascii "DSD ")) 4 (write_be64 t)).take 12
      = ascii "DSD " ++ write_be64 t := by
  simp [poke, local_buf, ascii_DSD, write_be64]

theorem write_be64_take_length (v : Nat) : ((write_be64 v).take 4).length = 4 := rfl

theorem channel_ids_length4 : ∀ id, id ∈ channel_ids → id.length = 4 := by decide

theorem flatten_length4 : ∀ ids : List (List Nat), (∀ id, id ∈ ids → id.length = 4) →
    (List.flatten ids).length = 4 * ids.length
  | [], _ => rfl
  | id :: rest, h => by
    rw [List.flatten_cons, List.length_append, h id (List.mem_cons_self _ _),
      flatten_length4 rest (fun x hx => h x (List.mem_cons_of_mem _ hx)), List.length_cons]
    omega

theorem channel_id_count_le (c : Int) : channel_id_count c ≤ 6 := by
  unfold channel_id_count
  omega

theorem channel_ids_taken_length (c : Int) :
    (List.flatten (channel_ids.take (channel_id_count c))).length = 4 * channel_id_count c := by
  rw [flatten_length4 _ (fun id hid => channel_ids_length4 id (List.mem_of_mem_take hid)),
    List.length_take]
  have h6 : channel_ids.length = 6 := rfl
  have := channel_id_count_le c
  omega

/-- The channel ID loop, with room for all IDs, is one write of their
concatenation. -/
theorem write_channel_ids_ok (past : List Nat) (k : FILE → sacd_result_t × FILE × List Nat)
    (file : FILE) :
    ∀ (ids : List (List Nat)) (pre : List Nat), (∀ id, id ∈ ids → id.length = 4) →
      file.pos + pre.length + 4 * ids.length ≤ file.limit →
      write_channel_ids past k ids (file_put pre file)
        = k (file_put (pre ++ List.flatten ids) file)
  | [], pre, _, _ => by simp [write_channel_ids]
  | id :: rest, pre, h, hroom => by
    have h4 : id.length = 4 := h id (List.mem_cons_self _ _)
    have hne : id ≠ [] := by
      intro h0
      rw [h0] at h4
      exact absurd h4 (by decide)
    rw [List.length_cons] at hroom
    rw [write_channel_ids, fwrite_or_return_ok _ _ _ _ hne (by
      show file.pos + pre.length + id.length ≤ file.limit
      omega), file_put_put,
      write_channel_ids_ok past k file rest (pre ++ id)
        (fun x hx => h x (List.mem_cons_of_mem _ hx)) (by
          rw [List.length_append]
          omega),
      List.flatten_cons, List.append_assoc]

theorem dsdiff_header_bytes_length (track : sacd_track_t) (area : sacd_area_t) (a : Nat) :
    (dsdiff_header_bytes track area a).length = 76 + 4 * channel_id_count track.channel_count := by
  simp only [dsdiff_header_bytes, dsdiff_header_fields, List.flatten, List.length_append,
    write_be64_length, write_le32_length, write_be64_take_length, channel_ids_taken_length,
    ascii_DSD, ascii_FRM8, ascii_FVER, ascii_PROP, ascii_SND, ascii_FS, ascii_CHNL,
    List.length_cons, List.length_nil]
  omega

/-- With room for the header, the DSDIFF header writer succeeds and its writes
amount to one write of `dsdiff_header_bytes`. -/
theorem write_dsdiff_header_eq (file : FILE) (track : sacd_track_t) (area : sacd_area_t)
    (a : Nat)
    (hroom : file.pos + (76 + 4 * channel_id_count track.channel_count) ≤ file.limit) :
    sacd_internal_write_dsdiff_header file track area a
      = (SACD_RESULT_OK, file_put (dsdiff_header_bytes track area a) file,
          (write_be64 (int_to_uint 64 (track.channel_count * 4))).drop 4) := by
  simp only [sacd_internal_write_dsdiff_header, dsdiff_form_buf, dsdiff_fver_buf,
    dsdiff_prop_buf, dsdiff_fs_buf, dsdiff_chnl_buf, dsdiff_chnl_past, dsdiff_dsd_buf]
  rw [fwrite_or_return_ok _ _ _ _ (by simp [ascii_FRM8]) (by
    simp only [List.length_append, write_be64_length, ascii_FRM8, ascii_DSD, List.length_cons,
      List.length_nil]
    omega)]
  rw [fwrite_or_return_ok _ _ _ _ (by simp [ascii_FVER]) (by
    simp only [file_put, List.length_append, write_be64_length, write_le32_length,
      write_be64_take_length, ascii_FRM8, ascii_DSD, ascii_FVER, List.length_cons,
      List.length_nil]
    omega)]
  rw [file_put_put]
  rw [fwrite_or_return_ok _ _ _ _ (by simp [ascii_PROP]) (by
    simp only [file_put, List.length_append, write_be64_length, write_le32_length,
      write_be64_take_length, ascii_FRM8, ascii_DSD, ascii_FVER, ascii_PROP, ascii_SND,
      List.length_cons, List.length_nil]
    omega)]
  rw [file_put_put]
  rw [fwrite_or_return_ok _ _ _ _ (by simp [ascii_FS]) (by
    simp only [file_put, List.length_append, write_be64_length, write_le32_length,
      write_be64_take_length, ascii_FRM8, ascii_DSD, ascii_FVER, ascii_PROP, ascii_SND,
      ascii_FS, List.length_cons, List.length_nil]
    omega)]
  rw [file_put_put]
  rw [fwrite_or_return_ok _ _ _ _ (by simp [ascii_CHNL]) (by
    simp only [file_put, List.length_append, write_be64_length, write_le32_length,
      write_be64_take_length, ascii_FRM8, ascii_DSD, ascii_FVER, ascii_PROP, ascii_SND,
      ascii_FS, ascii_CHNL, List.length_cons, List.length_nil]
    omega)]
  rw [file_put_put]
  rw [write_channel_ids_ok _ _ _ _ _
    (fun id hid => channel_ids_length4 id (List.mem_of_mem_take hid)) (by
      have h6 : channel_ids.length = 6 := rfl
      have := channel_id_count_le track.channel_count
      simp only [List.length_append, write_be64_length, write_le32_length,
        write_be64_take_length, ascii_FRM8, ascii_DSD, ascii_FVER, ascii_PROP, ascii_SND,
        ascii_FS, ascii_CHNL, List.length_cons, List.length_nil, List.length_take]
      omega)]
  rw [fwrite_or_return_ok _ _ _ _ (by simp [ascii_DSD]) (by
    simp only [file_put, List.length_append, write_be64_length, write_le32_length,
      write_be64_take_length, channel_ids_taken_length, ascii_FRM8, ascii_DSD, ascii_FVER,
      ascii_PROP, ascii_SND, ascii_FS, ascii_CHNL, List.length_cons, List.length_nil]
    omega)]
  rw [file_put_put]
  simp only [dsdiff_header_bytes, dsdiff_header_fields, List.flatten, List.append_assoc,
    List.append_nil]

theorem dsdiff_header_written_eq (track : sacd_track_t) (area : sacd_area_t) (a : Nat) :
    dsdiff_header_written track area a = dsdiff_header_bytes track area a := by
  unfold dsdiff_header_written
  rw [write_dsdiff_header_eq _ _ _ _ (by
    have := channel_id_count_le track.channel_count
    simp only [new_file]
    omega), file_put_new_file]

/-! ## C5 -/

/-- With the form size field inside the device limit and the cursor at 12 or
beyond, finalizing a DSDIFF stream succeeds and leaves `dsdiff_finalized`. -/
theorem finalize_dsdiff_eq (file : FILE) (format : sacd_output_format_t) (n : Nat)
    (hfmt : format = SACD_FORMAT_DSDIFF ∨ format = SACD_FORMAT_DSDIFF_EM)
    (hpos : file.pos < 2 ^ 63) (hlim : 12 ≤ file.limit) :
    sacd_internal_finalize_file_headers file format n
      = (SACD_RESULT_OK, dsdiff_finalized file) := by
  have hft : ftell file = (file.pos : Int) := by
    unfold ftell
    rw [if_pos hpos]
  have hnn : ¬ ((file.pos : Int) < 0) := by omega
  have hs1 : fseek file 4 = (0, { file with pos := 4 }) := by simp [fseek]
  have hs3 : ∀ f : FILE, fseek f (file.pos : Int) = (0, { f with pos := file.pos }) := by
    intro f; simp [fseek]
  rcases hfmt with h | h <;>
  · subst h
    simp only [sacd_internal_finalize_file_headers, hft, hnn, if_false, hs1]
    rw [fwrite_or_fail_ok _ _ _ (write_be64_ne_nil _) (by
      simp only [write_be64_length]; omega)]
    simp only [hs3]
    simp [dsdiff_finalized]

theorem dsdiff_finalized_length (file : FILE) (h : 12 ≤ file.bytes.length) :
    (dsdiff_finalized file).bytes.length = file.bytes.length := by
  show (file_put _ { file with pos := 4 }).bytes.length = _
  rw [file_put_length]
  simp only [write_be64_length]
  omega

theorem dsdiff_finalized_form_size (file : FILE) :
    read_be (dsdiff_finalized file).bytes 4 8
      = int_to_uint 64 ((file.pos : Int) - 12) := by
  have hlt := int_to_uint_lt 64 ((file.pos : Int) - 12)
  refine Eq.trans ?_ ((be64_decode _ []).trans (Nat.mod_eq_of_lt hlt))
  apply read_be_congr
  intro i hi
  show byte_at (file_put _ { file with pos := 4 }).bytes (4 + i) = _
  rw [byte_at_file_put, if_pos (by
    show 4 ≤ 4 + i ∧ 4 + i < 4 + (write_be64 _).length
    rw [write_be64_length]
    omega)]
  show byte_at (write_be64 _) (4 + i - 4) = _
  rw [List.append_nil]
  congr 1
  omega

/-- C5: for every DSDIFF output file (the bytes written by
`sacd_internal_write_dsdiff_header` followed by audio bytes, within the device
limit, its size a valid `long`) whose cursor is at its end, and for format
DSDIFF or DSDIFF Edit Master, `sacd_internal_finalize_file_headers` returns OK,
keeps the length of the file, and leaves the big-endian u64 at offset 4 equal
to the total file size minus 12. -/
theorem sacd_internal_finalize_dsdiff_spec (file : FILE) (format : sacd_output_format_t)
    (track : sacd_track_t) (area : sacd_area_t) (est n : Nat) (audio : List Nat)
    (hfmt : format = SACD_FORMAT_DSDIFF ∨ format = SACD_FORMAT_DSDIFF_EM)
    (hbytes : file.bytes = dsdiff_header_written track area est ++ audio)
    (hpos : file.pos = file.bytes.length)
    (hlim : file.bytes.length ≤ file.limit)
    (hlong : file.bytes.length < 2 ^ 63) :
    ∃ file1 : FILE,
      sacd_internal_finalize_file_headers file format n = (SACD_RESULT_OK, file1)
      ∧ file1.bytes.length = file.bytes.length
      ∧ 12 ≤ file1.bytes.length
      ∧ read_be file1.bytes 4 8 = file1.bytes.length - 12 := by
  have hlen : 76 ≤ file.bytes.length := by
    rw [hbytes, List.length_append, dsdiff_header_written_eq, dsdiff_header_bytes_length]
    omega
  have hl := dsdiff_finalized_length file (by omega)
  refine ⟨dsdiff_finalized file, finalize_dsdiff_eq file format n hfmt (by omega) (by omega),
    hl, by omega, ?_⟩
  rw [dsdiff_finalized_form_size, hl, hpos]
  have e : ((file.bytes.length : Nat) : Int) - 12 = ((file.bytes.length - 12 : Nat) : Int) := by
    omega
  rw [e]
  exact int_to_uint_of_lt 64 _ (by omega)

theorem sacd_internal_finalize_dsdiff_spec_witness :
    ∃ file1 : FILE,
      sacd_internal_finalize_file_headers
          { bytes := dsdiff_header_written { channel_count := 2 } {} 0 ++ [1, 2, 3],
            pos := 87, limit := 87 }
          SACD_FORMAT_DSDIFF 3 = (SACD_RESULT_OK, file1)
      ∧ read_be file1.bytes 4 8 = 75 := by
  have hlen : (dsdiff_header_written { channel_count := 2 } {} 0 ++ [1, 2, 3]).length = 87 := by
    rw [List.length_append, dsdiff_header_written_eq, dsdiff_header_bytes_length]
    rfl
  have hlong : (dsdiff_header_written { channel_count := 2 } {} 0 ++ [1, 2, 3]).length
      < 2 ^ 63 := by
    rw [hlen]
    norm_num
  obtain ⟨file1, h, hl, _, h4⟩ := sacd_internal_finalize_dsdiff_spec
    { bytes := dsdiff_header_written { channel_count := 2 } {} 0 ++ [1, 2, 3],
      pos := 87, limit := 87 } SACD_FORMAT_DSDIFF { channel_count := 2 } {} 0 3
    [1, 2, 3] (Or.inl rfl) rfl hlen.symm (le_of_eq hlen) hlong
  have e : ∀ b : List Nat, b.length = 87 → b.length - 12 = 75 := by
    intro b hb
    omega
  refine ⟨file1, h, ?_⟩
  rw [h4, hl]
  exact e _ hlen

/-! ## The layout of the DSDIFF header -/

/-- The bytes `hdr` that `sacd_internal_write_dsdiff_header` writes (to a
stream with room for them) when it goes on after its store past the end of
`chnl_buf`; the 4 bytes stored there are the third component of the result.
The bytes hold the chunk identifiers in this order: "FRM8" at
0 with form type "DSD " at 12, "FVER" at 16, "PROP" at 28 with type "SND " at
40, "FS  " at 44, "CHNL" at 56 followed, from offset 64, by exactly
k = min(c, 6) four-byte channel IDs, the first k entries of the table SLFT,
SRGT, C, LFE, LS, RS, and finally "DSD " followed by the big-endian u64
audio_data_size; `hdr` is 76 + 4 * k bytes long. Here c is the channel count
of the track and k is `channel_id_count c`, which is min(c, 6) for c >= 0. -/
theorem sacd_internal_write_dsdiff_header_layout (file : FILE) (track : sacd_track_t)
    (area : sacd_area_t) (audio_data_size : Nat)
    (hroom : file.pos + (76 + 4 * channel_id_count track.channel_count) ≤ file.limit) :
    ∃ hdr : List Nat,
      sacd_internal_write_dsdiff_header file track area audio_data_size
        = (SACD_RESULT_OK, file_put hdr file,
            (write_be64 (int_to_uint 64 (track.channel_count * 4))).drop 4)
      ∧ hdr.length = 76 + 4 * channel_id_count track.channel_count
      ∧ bytes_at hdr 0 4 = ascii "FRM8"
      ∧ bytes_at hdr 12 4 = ascii "DSD "
      ∧ bytes_at hdr 16 4 = ascii "FVER"
      ∧ bytes_at hdr 28 4 = ascii "PROP"
      ∧ bytes_at hdr 40 4 = ascii "SND "
      ∧ bytes_at hdr 44 4 = ascii "FS  "
      ∧ bytes_at hdr 56 4 = ascii "CHNL"
      ∧ bytes_at hdr 64 (4 * channel_id_count track.channel_count)
          = List.flatten (List.take (channel_id_count track.channel_count)
              [ascii "SLFT", ascii "SRGT", ascii "C   ", ascii "LFE ", ascii "LS  ",
                ascii "RS  "])
      ∧ bytes_at hdr (64 + 4 * channel_id_count track.channel_count) 4 = ascii "DSD "
      ∧ read_be hdr (68 + 4 * channel_id_count track.channel_count) 8
          = audio_data_size % 2 ^ 64
      ∧ (0 ≤ track.channel_count →
          ((channel_id_count track.channel_count : Nat) : Int) = min track.channel_count 6) := by
  have hk := channel_ids_taken_length track.channel_count
  refine ⟨dsdiff_header_bytes track area audio_data_size,
    write_dsdiff_header_eq file track area audio_data_size hroom,
    dsdiff_header_bytes_length track area audio_data_size, ?_, ?_, ?_, ?_, ?_, ?_, ?_, ?_, ?_,
    ?_, ?_⟩
  · exact bytes_at_seg [] _ _ 0 4 rfl (by simp [ascii_FRM8])
  · exact bytes_at_seg [_, _] _ _ 12 4 (by simp [ascii_FRM8, write_be64_length])
      (by simp [ascii_DSD])
  · exact bytes_at_seg [_, _, _] _ _ 16 4 (by simp [ascii_FRM8, ascii_DSD, write_be64_length])
      (by simp [ascii_FVER])
  · exact bytes_at_seg [_, _, _, _, _, _] _ _ 28 4
      (by simp [ascii_FRM8, ascii_DSD, ascii_FVER, write_be64_length, write_le32_length])
      (by simp [ascii_PROP])
  · exact bytes_at_seg [_, _, _, _, _, _, _, _] _ _ 40 4
      (by simp [ascii_FRM8, ascii_DSD, ascii_FVER, ascii_PROP, write_be64_length,
        write_le32_length])
      (by simp [ascii_SND])
  · exact bytes_at_seg [_, _, _, _, _, _, _, _, _] _ _ 44 4
      (by simp [ascii_FRM8, ascii_DSD, ascii_FVER, ascii_PROP, ascii_SND, write_be64_length,
        write_le32_length])
      (by simp [ascii_FS])
  · exact bytes_at_seg [_, _, _, _, _, _, _, _, _, _, _, _] _ _ 56 4
      (by simp [ascii_FRM8, ascii_DSD, ascii_FVER, ascii_PROP, ascii_SND, ascii_FS,
        write_be64_length, write_le32_length])
      (by simp [ascii_CHNL])
  · exact bytes_at_seg [_, _, _, _, _, _, _, _, _, _, _, _, _, _] _ _ 64 _
      (by simp [ascii_FRM8, ascii_DSD, ascii_FVER, ascii_PROP, ascii_SND, ascii_FS, ascii_CHNL,
        write_be64_length, write_le32_length])
      hk
  · exact bytes_at_seg [_, _, _, _, _, _, _, _, _, _, _, _, _, _, _] _ _ _ 4
      (by
        simp only [List.flatten, List.length_append, hk, write_be64_length, write_le32_length,
          write_be64_take_length, ascii_FRM8, ascii_DSD, ascii_FVER, ascii_PROP, ascii_SND,
          ascii_FS, ascii_CHNL, List.length_cons, List.length_nil]
        omega)
      (by simp [ascii_DSD])
  · exact (read_be_seg [_, _, _, _, _, _, _, _, _, _, _, _, _, _, _, _] [] _ _ 8
      (by
        simp only [List.flatten, List.length_append, hk, write_be64_length, write_le32_length,
          write_be64_take_length, ascii_FRM8, ascii_DSD, ascii_FVER, ascii_PROP, ascii_SND,
          ascii_FS, ascii_CHNL, List.length_cons, List.length_nil]
        omega)).trans (be64_decode _ _)
  · intro h0
    unfold channel_id_count
    omega

theorem sacd_internal_write_dsdiff_header_layout_witness :
    (sacd_internal_write_dsdiff_header (new_file 100) { channel_count := 5 }
        { sample_frequency := 2822400 } 7).1 = SACD_RESULT_OK
      ∧ (sacd_internal_write_dsdiff_header (new_file 100) { channel_count := 5 }
        { sample_frequency := 2822400 } 7).2.1.bytes.length = 96 := by
  obtain ⟨hdr, h, hlen, _⟩ := sacd_internal_write_dsdiff_header_layout (new_file 100)
    { channel_count := 5 } { sample_frequency := 2822400 } 7 (by decide)
  rw [h, file_put_new_file]
  exact ⟨rfl, hlen⟩

/-! ## The FVER and FS chunks as written -/

/-- In every header written by
`sacd_internal_write_dsdiff_header`, the 8 bytes after "FVER" read as the
big-endian value 1281, not 4: the version is stored over the low half of the
size field, and the next chunk, "PROP", starts right after it. In the same way
the 8 bytes after "FS  " hold four zero bytes and the little-endian sample
rate, and "CHNL" starts right after them. -/
theorem dsdiff_fver_fs_bytes (track : sacd_track_t) (area : sacd_area_t)
    (audio_data_size : Nat) :
    read_be (dsdiff_header_written track area audio_data_size) 20 8 = 1281
      ∧ bytes_at (dsdiff_header_written track area audio_data_size) 24 4
          = write_le32 0x01050000
      ∧ bytes_at (dsdiff_header_written track area audio_data_size) 28 4 = ascii "PROP"
      ∧ bytes_at (dsdiff_header_written track area audio_data_size) 48 4 = [0, 0, 0, 0]
      ∧ bytes_at (dsdiff_header_written track area audio_data_size) 52 4
          = write_le32 area.sample_frequency
      ∧ bytes_at (dsdiff_header_written track area audio_data_size) 56 4 = ascii "CHNL" := by
  rw [dsdiff_header_written_eq]
  refine ⟨?_, ?_, ?_, ?_, ?_, ?_⟩
  · have e : dsdiff_header_bytes track area audio_data_size
        = List.flatten ([ascii "FRM8",
            write_be64 ((4 + 12 + (4 + 16 + (8 + int_to_uint 64 (track.channel_count * 4))
              % 2 ^ 64) % 2 ^ 64 + 16 + audio_data_size) % 2 ^ 64),
            ascii "DSD ", ascii "FVER"]
          ++ ((write_be64 4).take 4 ++ write_le32 0x01050000)
          :: (List.drop 6 (dsdiff_header_fields track area audio_data_size))) := by
      simp only [dsdiff_header_bytes, dsdiff_header_fields, List.flatten, List.drop,
        List.append_assoc, List.cons_append, List.nil_append]
    rw [e]
    refine (read_be_seg _ _ _ 20 8 (by simp [ascii_FRM8, ascii_DSD, ascii_FVER,
      write_be64_length])).trans ?_
    apply (read_be_congr _ ((write_be64 4).take 4 ++ write_le32 0x01050000) 0 0 8 _).trans
    · decide
    · intro i hi
      exact byte_at_append_left _ _ _ (by simpa using hi)
  · exact bytes_at_seg [_, _, _, _, _] _ _ 24 4
      (by simp [ascii_FRM8, ascii_DSD, ascii_FVER, write_be64_length]) rfl
  · exact bytes_at_seg [_, _, _, _, _, _] _ _ 28 4
      (by simp [ascii_FRM8, ascii_DSD, ascii_FVER, write_be64_length, write_le32_length])
      (by simp [ascii_PROP])
  · exact bytes_at_seg [_, _, _, _, _, _, _, _, _, _] _ _ 48 4
      (by simp [ascii_FRM8, ascii_DSD, ascii_FVER, ascii_PROP, ascii_SND, ascii_FS,
        write_be64_length, write_le32_length]) rfl
  · exact bytes_at_seg [_, _, _, _, _, _, _, _, _, _, _] _ _ 52 4
      (by simp [ascii_FRM8, ascii_DSD, ascii_FVER, ascii_PROP, ascii_SND, ascii_FS,
        write_be64_length, write_le32_length]) rfl
  · exact bytes_at_seg [_, _, _, _, _, _, _, _, _, _, _, _] _ _ 56 4
      (by simp [ascii_FRM8, ascii_DSD, ascii_FVER, ascii_PROP, ascii_SND, ascii_FS,
        write_be64_length, write_le32_length])
      (by simp [ascii_CHNL])

/-! ## C7 -/

/-- The fields of the DSDIFF header with the 8 bytes after "FS  " as one field. -/
theorem dsdiff_header_bytes_fs (track : sacd_track_t) (area : sacd_area_t) (a : Nat) :
    dsdiff_header_bytes track area a
      = List.flatten (List.take 10 (dsdiff_header_fields track area a)
          ++ ((write_be64 4).take 4 ++ write_le32 area.sample_frequency)
          :: (List.drop 12 (dsdiff_header_fields track area a))) := by
  simp only [dsdiff_header_bytes, dsdiff_header_fields, List.flatten, List.drop, List.take,
    List.append_assoc, List.cons_append, List.nil_append]

/-- C7 (what the code writes, at the sample frequency 2822400 that
`parse_area_toc` gives every area): the 8 bytes after "FS  " read as the
big-endian value 1125120, not 4; they hold four zero bytes and the
little-endian sample rate, and "CHNL" follows at once. The 8 bytes after
"FVER" read as 1281, not 4, for every input, and "PROP" follows at once. -/
theorem dsdiff_fver_fs_size_fields (track : sacd_track_t) (area : sacd_area_t)
    (audio_data_size : Nat) :
    read_be (dsdiff_header_written track { area with sample_frequency := 2822400 }
        audio_data_size) 48 8 = 1125120
      ∧ read_be (dsdiff_header_written track area audio_data_size) 20 8 = 1281
      ∧ bytes_at (dsdiff_header_written track area audio_data_size) 28 4 = ascii "PROP"
      ∧ bytes_at (dsdiff_header_written track area audio_data_size) 56 4 = ascii "CHNL" := by
  refine ⟨?_, (dsdiff_fver_fs_bytes track area audio_data_size).1,
    (dsdiff_fver_fs_bytes track area audio_data_size).2.2.1,
    (dsdiff_fver_fs_bytes track area audio_data_size).2.2.2.2.2⟩
  rw [dsdiff_header_written_eq, dsdiff_header_bytes_fs]
  refine (read_be_seg _ _ _ 48 8 (by
    simp [dsdiff_header_fields, ascii_FRM8, ascii_DSD, ascii_FVER, ascii_PROP, ascii_SND,
      ascii_FS, write_be64_length, write_le32_length])).trans ?_
  apply (read_be_congr _ ((write_be64 4).take 4 ++ write_le32 2822400) 0 0 8 _).trans
  · decide
  · intro i hi
    exact byte_at_append_left _ _ _ (by simpa using hi)

/-! ## C8 -/

/-- C8 (what the code computes): the time 0:01 and 2 frames, converted to
seconds and back, comes out as 0:01 and 1 frame. The sum 1 + 2/75 is rounded to
a `double` slightly below the exact value; the conversion back truncates
`seconds * 75`, which is then just below 2. -/
theorem sacd_time_round_trip_loses_frame :
    sacd_seconds_to_time (sacd_time_to_seconds { minutes := 0, seconds := 1, frames := 2 })
      = { minutes := 0, seconds := 1, frames := 1 } := by
  decide

/-! ## The track queue -/

theorem take_set_succ (l : List Int) (n : Nat) (a : Int) (h : n < l.length) :
    (l.set n a).take (n + 1) = l.take n ++ [a] := by
  induction l generalizing n with
  | nil => simp at h
  | cons x xs ih =>
    cases n with
    | zero => simp
    | succ m =>
      simp only [List.set_cons_succ, List.take_succ_cons, List.cons_append, List.length_cons] at *
      rw [ih m (by omega)]

theorem add_tracks_loop_area : ∀ (track_numbers : List Int) (ex : sacd_extractor_internal_t),
    (add_tracks_loop ex track_numbers).2.area = ex.area
  | [], _ => rfl
  | t :: rest, ex => by
    unfold add_tracks_loop
    split
    · rfl
    · exact add_tracks_loop_area rest _

/-- The loop on indices that are all in range: it returns OK and appends them
in order. -/
theorem add_tracks_loop_valid : ∀ (track_numbers : List Int) (ex : sacd_extractor_internal_t),
    (∀ t, t ∈ track_numbers → 0 ≤ t ∧ t < ex.area.track_count) →
    0 ≤ ex.track_queue_count →
    ex.track_queue_count.toNat + track_numbers.length ≤ ex.track_queue.length →
    (add_tracks_loop ex track_numbers).1 = SACD_RESULT_OK
      ∧ queue (add_tracks_loop ex track_numbers).2 = queue ex ++ track_numbers
      ∧ (add_tracks_loop ex track_numbers).2.track_queue_count
          = ex.track_queue_count + track_numbers.length
  | [], ex, _, _, _ => by simp [add_tracks_loop]
  | t :: rest, ex, hv, h0, hroom => by
    have ht := hv t (List.mem_cons_self _ _)
    have hnot : ¬ (t < 0 ∨ t ≥ ex.area.track_count) := by omega
    rw [List.length_cons] at hroom
    have ih := add_tracks_loop_valid rest
      { ex with
        track_queue := ex.track_queue.set ex.track_queue_count.toNat t
        track_queue_count := ex.track_queue_count + 1 }
      (fun x hx => hv x (List.mem_cons_of_mem _ hx))
      (by show 0 ≤ ex.track_queue_count + 1; omega)
      (by
        show (ex.track_queue_count + 1).toNat + rest.length
          ≤ (ex.track_queue.set ex.track_queue_count.toNat t).length
        rw [List.length_set]
        omega)
    have hq : queue
        { ex with
          track_queue := ex.track_queue.set ex.track_queue_count.toNat t
          track_queue_count := ex.track_queue_count + 1 } = queue ex ++ [t] := by
      show (ex.track_queue.set ex.track_queue_count.toNat t).take
        (ex.track_queue_count + 1).toNat = ex.track_queue.take ex.track_queue_count.toNat ++ [t]
      have e : (ex.track_queue_count + 1).toNat = ex.track_queue_count.toNat + 1 := by omega
      rw [e, take_set_succ _ _ _ (by omega)]
    unfold add_tracks_loop
    rw [if_neg hnot]
    refine ⟨ih.1, ?_, ?_⟩
    · rw [ih.2.1, hq, List.append_assoc]
      rfl
    · rw [ih.2.2]
      show ex.track_queue_count + 1 + (rest.length : Int)
        = ex.track_queue_count + ((rest.length + 1 : Nat) : Int)
      push_cast
      omega

/-- The loop on a list with an index out of range returns INVALID_TRACK. -/
theorem add_tracks_loop_invalid : ∀ (track_numbers : List Int) (ex : sacd_extractor_internal_t),
    (∃ t, t ∈ track_numbers ∧ (t < 0 ∨ t ≥ ex.area.track_count)) →
    (add_tracks_loop ex track_numbers).1 = SACD_RESULT_INVALID_TRACK
  | [], _, h => by
    obtain ⟨t, ht, _⟩ := h
    simp at ht
  | t :: rest, ex, h => by
    unfold add_tracks_loop
    by_cases hbad : t < 0 ∨ t ≥ ex.area.track_count
    · rw [if_pos hbad]
    · rw [if_neg hbad]
      apply add_tracks_loop_invalid rest
      obtain ⟨x, hx, hxb⟩ := h
      rcases List.mem_cons.mp hx with h1 | h1
      · rw [h1] at hxb
        exact absurd hxb hbad
      · exact ⟨x, h1, hxb⟩

/-- On an idle extractor with a well-formed queue and a non-empty list,
`sacd_extractor_add_tracks` runs the loop on a queue with room for the list and
the same contents. -/
theorem add_tracks_idle_eq (ex : sacd_extractor_internal_t) (track_numbers : List Int)
    (hidle : ex.is_running = false) (hne : track_numbers ≠ [])
    (hcount : 0 ≤ ex.track_queue_count)
    (hcap : ex.track_queue_count ≤ ex.track_queue_capacity)
    (hbuf : (ex.track_queue.length : Int) = ex.track_queue_capacity) :
    ∃ ex1 : sacd_extractor_internal_t,
      sacd_extractor_add_tracks true ex track_numbers = add_tracks_loop ex1 track_numbers
      ∧ ex1.area = ex.area ∧ queue ex1 = queue ex
      ∧ ex1.track_queue_count = ex.track_queue_count
      ∧ ex1.track_queue_count.toNat + track_numbers.length ≤ ex1.track_queue.length := by
  have hlen : 0 < track_numbers.length := List.length_pos.mpr hne
  have hpos : ¬ ((track_numbers.length : Int) ≤ 0) := by omega
  unfold sacd_extractor_add_tracks
  simp only [hpos, if_false, hidle, Bool.false_eq_true, not_true_eq_false, not_false_eq_true]
  by_cases hgrow : ex.track_queue_count + (track_numbers.length : Int) > ex.track_queue_capacity
  · simp only [hgrow, if_true]
    refine ⟨_, rfl, rfl, ?_, rfl, ?_⟩
    · show (realloc ex.track_queue ((ex.track_queue_count + (track_numbers.length : Int)) * 2).toNat).take
        ex.track_queue_count.toNat = ex.track_queue.take ex.track_queue_count.toNat
      unfold realloc
      rw [List.take_append_of_le_length (by rw [List.length_take]; omega), List.take_take]
      congr 1
      omega
    · show ex.track_queue_count.toNat + track_numbers.length
        ≤ (realloc ex.track_queue
            ((ex.track_queue_count + (track_numbers.length : Int)) * 2).toNat).length
      unfold realloc
      rw [List.length_append, List.length_take, List.length_replicate]
      omega
  · simp only [hgrow, if_false]
    exact ⟨ex, rfl, rfl, rfl, rfl, by omega⟩

/-! ## C9 -/

/-- C9: for every extractor state with `is_running = true` and every list of
track indices, `sacd_extractor_add_tracks` returns an error
(`SACD_RESULT_ERROR`) and leaves the track queue (contents, count and capacity,
and the rest of the state) unchanged. -/
theorem sacd_extractor_add_tracks_running (heap_ok : Bool) (ex : sacd_extractor_internal_t)
    (track_numbers : List Int) (hrun : ex.is_running = true) :
    (sacd_extractor_add_tracks heap_ok ex track_numbers).1 = SACD_RESULT_ERROR
      ∧ (sacd_extractor_add_tracks heap_ok ex track_numbers).1 ≠ SACD_RESULT_OK
      ∧ (sacd_extractor_add_tracks heap_ok ex track_numbers).2.track_queue = ex.track_queue
      ∧ (sacd_extractor_add_tracks heap_ok ex track_numbers).2.track_queue_count
          = ex.track_queue_count
      ∧ (sacd_extractor_add_tracks heap_ok ex track_numbers).2.track_queue_capacity
          = ex.track_queue_capacity
      ∧ (sacd_extractor_add_tracks heap_ok ex track_numbers).2 = ex := by
  have h : sacd_extractor_add_tracks heap_ok ex track_numbers = (SACD_RESULT_ERROR, ex) := by
    unfold sacd_extractor_add_tracks
    by_cases hc : (track_numbers.length : Int) ≤ 0
    · simp only [hc, if_true]
    · simp only [hc, if_false, hrun, if_true]
  rw [h]
  refine ⟨rfl, ?_, rfl, rfl, rfl, rfl⟩
  show SACD_RESULT_ERROR ≠ SACD_RESULT_OK
  decide

theorem sacd_extractor_add_tracks_running_witness :
    (sacd_extractor_add_tracks true
        { area := { track_count := 3 }, track_queue_count := 1, is_running := true } [0, 2]).1
      = SACD_RESULT_ERROR
    ∧ (sacd_extractor_add_tracks true
        { area := { track_count := 3 }, track_queue_count := 1, is_running := true } [0, 2]).2
      = { area := { track_count := 3 }, track_queue_count := 1, is_running := true } := by
  have h := sacd_extractor_add_tracks_running true
    { area := { track_count := 3 }, track_queue_count := 1, is_running := true } [0, 2] rfl
  exact ⟨h.1, h.2.2.2.2.2⟩

/-! ## C10 -/

/-- C10: on an extractor that is not running (its queue well formed: the count
between 0 and the capacity, the array as long as the capacity), for every
non-empty list of indices, allocation permitting, `sacd_extractor_add_tracks`
returns `SACD_RESULT_INVALID_TRACK` if and only if some index is negative or
not below the `track_count` of the bound area; otherwise it returns OK and the
new queue is the old queue followed by the given indices in the given order. -/
theorem sacd_extractor_add_tracks_idle (ex : sacd_extractor_internal_t)
    (track_numbers : List Int)
    (hidle : ex.is_running = false) (hne : track_numbers ≠ [])
    (hcount : 0 ≤ ex.track_queue_count)
    (hcap : ex.track_queue_count ≤ ex.track_queue_capacity)
    (hbuf : (ex.track_queue.length : Int) = ex.track_queue_capacity) :
    ((sacd_extractor_add_tracks true ex track_numbers).1 = SACD_RESULT_INVALID_TRACK
        ↔ ∃ t, t ∈ track_numbers ∧ (t < 0 ∨ t ≥ ex.area.track_count))
      ∧ ((¬ ∃ t, t ∈ track_numbers ∧ (t < 0 ∨ t ≥ ex.area.track_count)) →
          (sacd_extractor_add_tracks true ex track_numbers).1 = SACD_RESULT_OK
          ∧ queue (sacd_extractor_add_tracks true ex track_numbers).2
              = queue ex ++ track_numbers
          ∧ (sacd_extractor_add_tracks true ex track_numbers).2.track_queue_count
              = ex.track_queue_count + track_numbers.length) := by
  obtain ⟨ex1, heq, harea, hq, hc, hroom⟩ :=
    add_tracks_idle_eq ex track_numbers hidle hne hcount hcap hbuf
  rw [heq]
  have hvalid : (¬ ∃ t, t ∈ track_numbers ∧ (t < 0 ∨ t ≥ ex.area.track_count)) →
      (add_tracks_loop ex1 track_numbers).1 = SACD_RESULT_OK
        ∧ queue (add_tracks_loop ex1 track_numbers).2 = queue ex ++ track_numbers
        ∧ (add_tracks_loop ex1 track_numbers).2.track_queue_count
            = ex.track_queue_count + track_numbers.length := by
    intro hno
    have hall : ∀ t, t ∈ track_numbers → 0 ≤ t ∧ t < ex1.area.track_count := by
      intro t ht
      rw [harea]
      by_contra hbad
      exact hno ⟨t, ht, by omega⟩
    have h := add_tracks_loop_valid track_numbers ex1 hall (by rw [hc]; exact hcount) hroom
    rw [hq, hc] at h
    exact h
  refine ⟨⟨?_, ?_⟩, hvalid⟩
  · intro hres
    by_contra hno
    rw [(hvalid hno).1] at hres
    exact absurd hres (by decide)
  · intro hbad
    apply add_tracks_loop_invalid
    rw [harea]
    exact hbad

theorem sacd_extractor_add_tracks_idle_witness :
    (sacd_extractor_add_tracks true { area := { track_count := 3 } } [2, 0]).1 = SACD_RESULT_OK
      ∧ queue (sacd_extractor_add_tracks true { area := { track_count := 3 } } [2, 0]).2
          = [2, 0]
      ∧ (sacd_extractor_add_tracks true { area := { track_count := 3 } } [0, 3]).1
          = SACD_RESULT_INVALID_TRACK := by
  have h1 := sacd_extractor_add_tracks_idle { area := { track_count := 3 } } [2, 0] rfl
    (by decide) (by decide) (by decide) (by decide)
  have h2 := sacd_extractor_add_tracks_idle { area := { track_count := 3 } } [0, 3] rfl
    (by decide) (by decide) (by decide) (by decide)
  have hok := h1.2 (by decide)
  exact ⟨hok.1, hok.2.1, h2.1.mpr (by decide)⟩

/-! ## C11 -/

/-- C11 (what the code does): on an idle extractor with an empty queue, bound
to an area of 3 tracks, `sacd_extractor_add_tracks` with the list 0, 5 returns
`SACD_RESULT_INVALID_TRACK` and leaves the valid index 0 that precedes the
invalid one in the queue: the queue is 0 and the count 1 after the call, where
they were empty and 0 before it. -/
theorem sacd_extractor_add_tracks_partial_append :
    (sacd_extractor_add_tracks true { area := { track_count := 3 } } [0, 5]).1
        = SACD_RESULT_INVALID_TRACK
      ∧ queue ({ area := { track_count := 3 } } : sacd_extractor_internal_t) = []
      ∧ queue (sacd_extractor_add_tracks true { area := { track_count := 3 } } [0, 5]).2 = [0]
      ∧ (sacd_extractor_add_tracks true { area := { track_count := 3 } } [0, 5]).2.track_queue_count
          = 1 := by
  decide

/-! ## C12 -/

/-- The list 0, 1, ..., n-1 of track numbers. -/
theorem all_tracks_valid (n : Nat) (tc : Int) (h : tc = n) :
    ∀ t, t ∈ (List.range n).map Int.ofNat → 0 ≤ t ∧ t < tc := by
  intro t ht
  obtain ⟨i, hi, rfl⟩ := List.mem_map.mp ht
  have := List.mem_range.mp hi
  simp only [Int.ofNat_eq_coe]
  omega

/-- C12: for an idle extractor (its queue well formed) bound to an area with
n >= 1 tracks, allocation permitting, `sacd_extractor_add_all_tracks` returns
the same result and leaves the same state as `sacd_extractor_add_tracks` called
with the list 0, 1, ..., n-1: it returns OK and appends the indices 0..n-1 in
ascending order to the existing queue. -/
theorem sacd_extractor_add_all_tracks_spec (ex : sacd_extractor_internal_t) (n : Nat)
    (hn : 1 ≤ n) (harea : ex.area.track_count = n)
    (hidle : ex.is_running = false)
    (hcount : 0 ≤ ex.track_queue_count)
    (hcap : ex.track_queue_count ≤ ex.track_queue_capacity)
    (hbuf : (ex.track_queue.length : Int) = ex.track_queue_capacity) :
    sacd_extractor_add_all_tracks true ex
        = sacd_extractor_add_tracks true ex ((List.range n).map Int.ofNat)
      ∧ (sacd_extractor_add_all_tracks true ex).1 = SACD_RESULT_OK
      ∧ queue (sacd_extractor_add_all_tracks true ex).2
          = queue ex ++ (List.range n).map Int.ofNat
      ∧ (sacd_extractor_add_all_tracks true ex).2.track_queue_count
          = ex.track_queue_count + n := by
  have heq : sacd_extractor_add_all_tracks true ex
      = sacd_extractor_add_tracks true ex ((List.range n).map Int.ofNat) := by
    unfold sacd_extractor_add_all_tracks
    have hneg : ¬ (¬ (true = true) ∨ ex.area.track_count < 0) := by
      rw [harea]
      simp
    rw [if_neg hneg, harea]
    rfl
  have hne : (List.range n).map Int.ofNat ≠ [] := by
    intro h0
    have hl := congrArg List.length h0
    rw [List.length_map, List.length_range, List.length_nil] at hl
    omega
  obtain ⟨ex1, hloop, harea1, hq, hc, hroom⟩ :=
    add_tracks_idle_eq ex _ hidle hne hcount hcap hbuf
  have hv := add_tracks_loop_valid _ ex1
    (all_tracks_valid n ex1.area.track_count (by rw [harea1, harea]))
    (by rw [hc]; exact hcount) hroom
  rw [heq, hloop]
  refine ⟨rfl, hv.1, ?_, ?_⟩
  · rw [hv.2.1, hq]
  · rw [hv.2.2, hc, List.length_map, List.length_range]

theorem sacd_extractor_add_all_tracks_spec_witness :
    (sacd_extractor_add_all_tracks true { area := { track_count := 3 } }).1 = SACD_RESULT_OK
      ∧ queue (sacd_extractor_add_all_tracks true { area := { track_count := 3 } }).2
          = [0, 1, 2] := by
  have h := sacd_extractor_add_all_tracks_spec { area := { track_count := 3 } } 3
    (by decide) rfl rfl (by decide) (by decide) (by decide)
  exact ⟨h.2.1, h.2.2.1⟩

/-! ## C13 -/

/-- C13: thread creation permitting, `sacd_extractor_start` fails exactly when
the extractor is already running or its queue is empty; when it fails it spawns
no worker and leaves every field of the extractor state as it was. Whether or
not a thread can be created, a failed call spawns no worker. -/
theorem sacd_extractor_start_spec (ex : sacd_extractor_internal_t) :
    ((sacd_extractor_start true ex).1 ≠ SACD_RESULT_OK
        ↔ (ex.is_running = true ∨ ex.track_queue_count = 0))
      ∧ ((sacd_extractor_start true ex).1 ≠ SACD_RESULT_OK →
          (sacd_extractor_start true ex).2.1 = ex
            ∧ (sacd_extractor_start true ex).2.2 = false)
      ∧ (∀ thread_ok, (sacd_extractor_start thread_ok ex).1 ≠ SACD_RESULT_OK →
          (sacd_extractor_start thread_ok ex).2.2 = false) := by
  unfold sacd_extractor_start
  by_cases hr : ex.is_running = true
  · simp [hr]
  · by_cases hq : ex.track_queue_count = 0
    · simp [hr, hq]
    · simp only [hr, hq, if_false, Bool.false_eq_true]
      refine ⟨?_, ?_, ?_⟩
      · simp
      · simp
      · intro thread_ok
        cases thread_ok <;> simp

/-! ## C18 -/

/-- C18: for every image and logical sector number, `read_sector` returns OK
with exactly the 2048 bytes at offsets 2048 * lsn up to 2048 * lsn + 2048 when
the image has at least 2048 * (lsn + 1) bytes, and `SACD_RESULT_IO_ERROR`
otherwise. -/
theorem read_sector_spec (image : List Nat) (lsn : Nat) :
    (2048 * (lsn + 1) ≤ image.length →
        ∃ sector, read_sector image lsn = .ok sector ∧ sector.length = 2048
          ∧ sector = (image.drop (2048 * lsn)).take 2048
          ∧ ∀ i, i < 2048 → sector.get? i = image.get? (2048 * lsn + i))
      ∧ (image.length < 2048 * (lsn + 1) →
          read_sector image lsn = .error SACD_RESULT_IO_ERROR) := by
  constructor
  · intro h
    have hok := read_sector_ok image lsn (by simp only [SACD_LSN_SIZE]; omega)
    have hmul : lsn * 2048 = 2048 * lsn := Nat.mul_comm _ _
    refine ⟨_, hok, ?_, ?_, ?_⟩
    · simp only [bytes_at, SACD_LSN_SIZE, List.length_take, List.length_drop]
      omega
    · simp only [bytes_at, SACD_LSN_SIZE, hmul]
    · intro i hi
      simp only [bytes_at, SACD_LSN_SIZE, hmul, List.get?_eq_getElem?,
        List.getElem?_take_of_lt hi, List.getElem?_drop]
  · intro h
    unfold read_sector
    have hlen : ((image.drop (lsn * SACD_LSN_SIZE)).take SACD_LSN_SIZE).length
        ≠ SACD_LSN_SIZE := by
      simp only [SACD_LSN_SIZE, List.length_take, List.length_drop]
      omega
    simp only [hlen, ne_eq, not_false_eq_true, if_true]

/-! ## C20 -/

/-- C20: `sacd_internal_dst_decode_frame` returns `SACD_RESULT_ERROR` whenever
the decoder is not initialised (in particular the zeroed decoder), whenever it
has been released by `sacd_internal_dst_decoder_cleanup` after an
initialisation, and whenever the input has fewer than 5 bytes; for an
initialised decoder, such as the one a successful
`sacd_internal_dst_decoder_init` leaves, and an input of at least 5 bytes it
returns OK with an output, allocation permitting. -/
theorem sacd_internal_dst_decode_frame_spec (heap_ok : Bool) (decoder : sacd_dst_decoder_t)
    (input : List Nat) :
    (decoder.initialized = false →
        sacd_internal_dst_decode_frame heap_ok decoder input = (SACD_RESULT_ERROR, none))
      ∧ sacd_internal_dst_decode_frame heap_ok {} input = (SACD_RESULT_ERROR, none)
      ∧ sacd_internal_dst_decode_frame heap_ok
          (sacd_internal_dst_decoder_cleanup (sacd_internal_dst_decoder_init true decoder).2)
          input = (SACD_RESULT_ERROR, none)
      ∧ (input.length < 5 →
          sacd_internal_dst_decode_frame heap_ok decoder input = (SACD_RESULT_ERROR, none))
      ∧ (sacd_internal_dst_decoder_init true decoder).1 = SACD_RESULT_OK
      ∧ (sacd_internal_dst_decoder_init true decoder).2.initialized = true
      ∧ (decoder.initialized = true → 5 ≤ input.length →
          (sacd_internal_dst_decode_frame true decoder input).1 = SACD_RESULT_OK
            ∧ ∃ output, (sacd_internal_dst_decode_frame true decoder input).2 = some output) := by
  refine ⟨?_, ?_, ?_, ?_, rfl, rfl, ?_⟩
  · intro h
    simp [sacd_internal_dst_decode_frame, h]
  · simp [sacd_internal_dst_decode_frame]
  · simp [sacd_internal_dst_decode_frame, sacd_internal_dst_decoder_cleanup]
  · intro h
    unfold sacd_internal_dst_decode_frame
    by_cases hi : decoder.initialized = true
    · simp [hi, h]
    · simp [hi]
  · intro hi hlen
    have h5 : ¬ input.length < 5 := by omega
    unfold sacd_internal_dst_decode_frame
    simp only [hi, h5, not_true_eq_false, if_false]
    by_cases hff : byte_at input 0 = 0xFF ∧ byte_at input 1 = 0xFF
    · simp [hff]
    · simp [hff]


/-! ## The worker: steps in order -/

theorem same_setup_refl (a : sacd_extractor_internal_t) : same_setup a a :=
  ⟨rfl, rfl, rfl, rfl, rfl, rfl, rfl, rfl, rfl⟩

theorem same_setup_trans {a b c : sacd_extractor_internal_t} (h1 : same_setup a b)
    (h2 : same_setup b c) : same_setup a c := by
  obtain ⟨a1, a2, a3, a4, a5, a6, a7, a8, a9⟩ := h1
  obtain ⟨b1, b2, b3, b4, b5, b6, b7, b8, b9⟩ := h2
  exact ⟨a1.trans b1, a2.trans b2, a3.trans b3, a4.trans b4, a5.trans b5, a6.trans b6,
    a7.trans b7, a8.trans b8, a9.trans b9⟩

theorem same_setup_report_progress (env : worker_env) (track : sacd_track_t)
    (ws : worker_state) (tio : track_io) : same_setup ws.ex (report_progress env track ws tio).1.ex := by
  unfold report_progress
  simp only
  split <;> exact ⟨rfl, rfl, rfl, rfl, rfl, rfl, rfl, rfl, rfl⟩

theorem same_setup_write_audio (track_index : Int) (data : List Nat)
    (ws : worker_state) (tio : track_io) :
    same_setup ws.ex (write_audio track_index data ws tio).2.1.ex := by
  unfold write_audio
  simp only
  split <;> exact same_setup_refl _

theorem same_setup_sector_loop (env : worker_env) (track_index : Int) (track : sacd_track_t) :
    ∀ (lsns : List Nat) (ws : worker_state) (tio : track_io),
      same_setup ws.ex (sector_loop env track_index track lsns ws tio).2.1.ex
  | [], ws, tio => same_setup_refl _
  | lsn :: rest, ws, tio => by
    unfold sector_loop
    cases hflag : flag_set_at env.cancel_at ws.trace.length with
    | true =>
      simp only [cancel_seen, hflag]
      exact same_setup_refl _
    | false =>
      simp only [cancel_seen, hflag]
      cases hrd : read_sector env.image lsn with
      | error e =>
        simp only
        exact same_setup_refl _
      | ok sector =>
        simp only
        cases hex : sacd_internal_extract_dsd_from_sector env.heap_ok
            (sector ++ env.sector_junk) with
        | none =>
          simp only
          exact same_setup_sector_loop env track_index track rest
            (log (log ws (worker_event.cancel_check false))
              (worker_event.sector_read lsn true)) tio
        | some audio_data =>
          simp only
          split
          · split
            · rename_i decompressed_data _
              have hw := same_setup_write_audio track_index decompressed_data
                (log (log ws (worker_event.cancel_check false))
                  (worker_event.sector_read lsn true)) tio
              split
              · rename_i e ws3 tio3 heq
                rw [heq] at hw
                exact hw
              · rename_i ws3 tio3 heq
                rw [heq] at hw
                exact same_setup_trans hw (same_setup_trans
                  (same_setup_report_progress env track ws3 tio3)
                  (same_setup_sector_loop env track_index track rest _ _))
            · exact same_setup_trans
                (same_setup_report_progress env track
                  (log (log ws (worker_event.cancel_check false))
                    (worker_event.sector_read lsn true)) tio)
                (same_setup_sector_loop env track_index track rest _ _)
          · have hw := same_setup_write_audio track_index audio_data
              (log (log ws (worker_event.cancel_check false))
                (worker_event.sector_read lsn true)) tio
            split
            · rename_i e ws3 tio3 heq
              rw [heq] at hw
              exact hw
            · rename_i ws3 tio3 heq
              rw [heq] at hw
              exact same_setup_trans hw (same_setup_trans
                (same_setup_report_progress env track ws3 tio3)
                (same_setup_sector_loop env track_index track rest _ _))

theorem same_setup_announce_track (track_index : Int) (track : sacd_track_t)
    (ws : worker_state) : same_setup ws.ex (announce_track track_index track ws).ex := by
  unfold announce_track
  split <;> exact same_setup_refl _

theorem same_setup_open_output (env : worker_env) (track_index : Int) (track : sacd_track_t)
    (ws1 : worker_state) :
    (∀ r, open_output env track_index track ws1 = .error r → same_setup ws1.ex r.2.ex)
    ∧ (∀ p, open_output env track_index track ws1 = .ok p → same_setup ws1.ex p.1.ex) := by
  unfold open_output
  simp only
  split
  · refine ⟨fun r h => ?_, fun p h => by cases h⟩
    injection h with h
    rw [← h]
    exact same_setup_refl _
  · split <;>
    · split
      · refine ⟨fun r h => ?_, fun p h => by cases h⟩
        injection h with h
        rw [← h]
        exact same_setup_refl _
      · split
        · refine ⟨fun r h => ?_, fun p h => by cases h⟩
          injection h with h
          rw [← h]
          exact ⟨rfl, rfl, rfl, rfl, rfl, rfl, rfl, rfl, rfl⟩
        · refine ⟨fun r h => (by cases h), fun p h => ?_⟩
          injection h with h
          rw [← h]
          exact ⟨rfl, rfl, rfl, rfl, rfl, rfl, rfl, rfl, rfl⟩

theorem same_setup_finish_track (track_index : Int) (track : sacd_track_t)
    (ws4 : worker_state) (tio : track_io) :
    same_setup ws4.ex (finish_track track_index track ws4 tio).2.ex := by
  unfold finish_track
  split
  rename_i result1 file2 _
  simp only
  split
  · split <;> exact ⟨rfl, rfl, rfl, rfl, rfl, rfl, rfl, rfl, rfl⟩
  · exact same_setup_refl _

theorem same_setup_extract_track (env : worker_env) (track_index : Int)
    (ws : worker_state) : same_setup ws.ex (extract_track env track_index ws).2.ex := by
  unfold extract_track
  simp only
  split
  · exact same_setup_refl _
  · have ha := same_setup_announce_track track_index
      (ws.ex.area.tracks.getD track_index.toNat {}) ws
    have hopen := same_setup_open_output env track_index
      (ws.ex.area.tracks.getD track_index.toNat {})
      (announce_track track_index (ws.ex.area.tracks.getD track_index.toNat {}) ws)
    split
    · rename_i early heq
      exact same_setup_trans ha (hopen.1 early heq)
    · rename_i ws3 file1 heq
      have h3 := same_setup_trans ha (hopen.2 _ heq)
      have hloop := same_setup_sector_loop env track_index
        (ws.ex.area.tracks.getD track_index.toNat {})
        (track_sectors (ws.ex.area.tracks.getD track_index.toNat {})) ws3
        { file := file1, bytes_written := 0, sectors_processed := 0 }
      split
      · rename_i e ws4 tio4 heq2
        rw [heq2] at hloop
        exact same_setup_trans h3 hloop
      · rename_i ws4 tio4 heq2
        rw [heq2] at hloop
        exact same_setup_trans h3 (same_setup_trans hloop
          (same_setup_finish_track _ _ _ _))

theorem same_setup_thread_loop (env : worker_env) :
    ∀ (is : List Nat) (ws : worker_state), same_setup ws.ex (thread_loop env is ws).ex
  | [], ws => same_setup_refl _
  | i :: rest, ws => by
    unfold thread_loop
    cases hflag : flag_set_at env.cancel_at ws.trace.length with
    | true =>
      simp only [cancel_seen, hflag]
      exact same_setup_refl _
    | false =>
      simp only [cancel_seen, hflag]
      refine same_setup_trans ?_ (same_setup_trans (same_setup_extract_track env _ _)
        (same_setup_thread_loop env rest _))
      exact ⟨rfl, rfl, rfl, rfl, rfl, rfl, rfl, rfl, rfl⟩

/-! ## The worker: cancellation -/

/-- The end of the worker thread when a progress callback is installed: two
reads of the cancel flag, and the final progress callback. -/
theorem extraction_thread_trace (env : worker_env) (ws : worker_state)
    (hcb : ws.ex.progress_callback = true) :
    (extraction_thread env ws).trace
      = (thread_loop env (List.range ws.ex.track_queue_count.toNat) ws).trace
        ++ [worker_event.cancel_check (flag_set_at env.cancel_at
              (thread_loop env (List.range ws.ex.track_queue_count.toNat) ws).trace.length),
            worker_event.cancel_check (flag_set_at env.cancel_at
              ((thread_loop env (List.range ws.ex.track_queue_count.toNat) ws).trace.length
                + 1)),
            worker_event.progress 0 ws.ex.track_queue_count 100
              (if flag_set_at env.cancel_at
                  ((thread_loop env (List.range ws.ex.track_queue_count.toNat) ws).trace.length
                    + 1) = true then
                (thread_loop env (List.range ws.ex.track_queue_count.toNat)
                  ws).ex.current_track_progress
              else 100)
              (if flag_set_at env.cancel_at
                  (thread_loop env (List.range ws.ex.track_queue_count.toNat) ws).trace.length
                  = true then
                status_text.cancelled
              else status_text.completed)] := by
  obtain ⟨-, -, h3, -, -, -, -, h8, -⟩ :=
    same_setup_thread_loop env (List.range ws.ex.track_queue_count.toNat) ws
  unfold extraction_thread
  simp only [cancel_seen, log, ← h3, hcb, if_true, ← h8, List.length_append,
    List.length_singleton, List.append_assoc, List.singleton_append]
  rfl

/-- C14: the worker goes on with the queue after a failed track. The image is
empty, so the only sector of track 0 cannot be read and `extract_track`
returns `SACD_RESULT_IO_ERROR` for queue position 0; the worker nevertheless
issues the track-start callback for queue position 1 and opens its output
file. -/
theorem extraction_thread_continues_after_read_error :
    (extract_track { image := [], file_limit := fun _ => 1000 } 0
        (log { ex := { area := { track_count := 2,
                                  tracks := [{ length_lsn := 1 }, { number := 1 }] },
                       track_queue := [0, 1], track_queue_count := 2,
                       is_running := true } }
          (worker_event.cancel_check false))).1 = SACD_RESULT_IO_ERROR
    ∧ steps (extraction_thread { image := [], file_limit := fun _ => 1000 }
        { ex := { area := { track_count := 2,
                             tracks := [{ length_lsn := 1 }, { number := 1 }] },
                  track_queue := [0, 1], track_queue_count := 2,
                  is_running := true } }).trace
      = [worker_event.cancel_check false, worker_event.track_start 0 1,
          worker_event.file_open 0 true, worker_event.cancel_check false,
          worker_event.sector_read 0 false, worker_event.file_close 0 {},
          worker_event.cancel_check false, worker_event.track_start 1 2,
          worker_event.file_open 1 true, worker_event.finalize 0 SACD_RESULT_OK,
          worker_event.file_close 1 {}, worker_event.track_complete 1 2 0,
          worker_event.cancel_check false, worker_event.cancel_check false,
          worker_event.progress 0 2 100 100 status_text.completed] := by
  decide

/-- C16: the track-complete callback is issued for a track that cancellation
stopped before its first sector. The track has two sectors; the cancel flag is
set when the output file has been opened, the check before the first sector
read finds it set, no sector is read, and the worker finalizes the file with
0 audio bytes and issues the track-complete callback with `bytes_written` 0. -/
theorem extract_track_complete_after_cancel :
    (track_sectors { length_lsn := 2 }).length = 2
    ∧ steps (extraction_thread { image := [], file_limit := fun _ => 1000, cancel_at := some 3 }
        { ex := { area := { track_count := 1, tracks := [{ length_lsn := 2 }] },
                  track_queue := [0], track_queue_count := 1,
                  is_running := true } }).trace
      = [worker_event.cancel_check false, worker_event.track_start 0 1,
          worker_event.file_open 0 true, worker_event.cancel_check true,
          worker_event.finalize 0 SACD_RESULT_OK, worker_event.file_close 0 {},
          worker_event.track_complete 0 1 0,
          worker_event.cancel_check true, worker_event.cancel_check true,
          worker_event.progress 0 1 100 0 status_text.cancelled] := by
  decide
/-! ## The worker: a track extracted to the end -/

theorem read_sector_error (image : List Nat) (lsn : Nat) (e : sacd_result_t)
    (h : read_sector image lsn = .error e) : e = SACD_RESULT_IO_ERROR := by
  unfold read_sector at h
  simp only at h
  split at h
  · injection h with h
    exact h.symm
  · cases h

theorem read_sectors_error (image : List Nat) (start : Nat) :
    ∀ (n : Nat) (e : sacd_result_t), read_sectors image start n = .error e →
      e = SACD_RESULT_IO_ERROR
  | 0, e, h => by simp [read_sectors] at h
  | n + 1, e, h => by
    unfold read_sectors at h
    cases hr : read_sectors image start n with
    | error e1 =>
      rw [hr] at h
      simp only at h
      injection h with h
      rw [← h]
      exact read_sectors_error image start n e1 hr
    | ok buf =>
      rw [hr] at h
      simp only at h
      cases hs : read_sector image ((start + n) % 2 ^ 32) with
      | error e2 =>
        rw [hs] at h
        simp only at h
        injection h with h
        rw [← h]
        exact read_sector_error image _ e2 hs
      | ok sector =>
        rw [hs] at h
        cases h

/-- The result of `parse_area_toc` for an index below `SACD_MAX_AREAS`: OK
exactly when the sectors can be read and begin with one of the two signatures;
a failed call leaves the area as it was. -/
theorem parse_area_toc_result (image junk : List Nat) (idx toc_start toc_size : Nat)
    (area : sacd_area_t) (hidx : idx < 2) :
    ((parse_area_toc image junk idx toc_start toc_size area).1 = SACD_RESULT_OK ↔
      (match read_sectors image toc_start toc_size with
        | .ok data =>
          decide (bytes_at data 0 8 = ascii "TWOCHTOC" ∨ bytes_at data 0 8 = ascii "MULCHTOC")
        | .error _ => false) = true)
    ∧ ((parse_area_toc image junk idx toc_start toc_size area).1 ≠ SACD_RESULT_OK →
        (parse_area_toc image junk idx toc_start toc_size area).2 = area) := by
  unfold parse_area_toc
  rw [if_neg (by unfold SACD_MAX_AREAS; omega)]
  cases hr : read_sectors image toc_start toc_size with
  | error e =>
    have he := read_sectors_error image toc_start toc_size e hr
    subst he
    simp
  | ok data =>
    simp only
    by_cases hsig : bytes_at data 0 8 ≠ ascii "TWOCHTOC" ∧ bytes_at data 0 8 ≠ ascii "MULCHTOC"
    · rw [if_pos hsig]
      refine ⟨?_, fun _ => rfl⟩
      simp only [decide_eq_true_eq]
      constructor
      · intro h
        cases h
      · intro h
        rcases h with h | h
        · exact absurd h hsig.1
        · exact absurd h hsig.2
    · rw [if_neg hsig]
      refine ⟨?_, fun h => absurd rfl h⟩
      simp only [decide_eq_true_eq, true_iff]
      by_contra hc
      exact hsig ⟨fun h => hc (Or.inl h), fun h => hc (Or.inr h)⟩

theorem area_toc_valid_eq (image junk : List Nat) (idx toc_start toc_size : Nat)
    (area : sacd_area_t) (hidx : idx < 2) (hp : toc_start > 0 ∧ toc_size > 0) :
    area_toc_valid image toc_start toc_size
      = decide ((parse_area_toc image junk idx toc_start toc_size area).1 = SACD_RESULT_OK) := by
  unfold area_toc_valid
  rw [decide_eq_true hp, Bool.true_and, Bool.eq_iff_iff, decide_eq_true_iff]
  exact (parse_area_toc_result image junk idx toc_start toc_size area hidx).1.symm

theorem area_toc_valid_absent (image : List Nat) (toc_start toc_size : Nat)
    (hp : ¬ (toc_start > 0 ∧ toc_size > 0)) :
    area_toc_valid image toc_start toc_size = false := by
  unfold area_toc_valid
  rw [decide_eq_false hp, Bool.false_and]

/-- The disc that `parse_disc_structure` leaves when the master TOC can be read
and has its signature, for a disc whose two area slots are `a0` and `a1`. -/
theorem parse_disc_structure_areas (image : List Nat) (junk : Nat → List Nat)
    (disc : sacd_disc_t) (a0 a1 : sacd_area_t) (data : List Nat)
    (hareas : disc.areas = [a0, a1])
    (hread : read_sectors image SACD_MASTER_TOC_START_LSN SACD_MASTER_TOC_LENGTH = .ok data)
    (hsig : bytes_at data 0 8 = SACD_SIGNATURE) :
    ∃ disc1, parse_disc_structure image junk disc = (SACD_RESULT_OK, disc1)
      ∧ disc1.area_count
          = (((if area_toc_valid image (be32_to_cpu data 64) (be16_to_cpu data 84) = true then 1 else 0)
              + (if area_toc_valid image (be32_to_cpu data 72) (be16_to_cpu data 86) = true then 1 else 0) : Nat) : Int)
      ∧ (area_toc_valid image (be32_to_cpu data 64) (be16_to_cpu data 84) = true →
          disc1.areas.getD 0 {}
            = { (parse_area_toc image (junk 0) 0 (be32_to_cpu data 64) (be16_to_cpu data 84) a0).2 with
                type := SACD_AREA_STEREO })
      ∧ (area_toc_valid image (be32_to_cpu data 72) (be16_to_cpu data 86) = true →
          disc1.areas.getD (if area_toc_valid image (be32_to_cpu data 64) (be16_to_cpu data 84) = true then 1 else 0) {}
            = { (parse_area_toc image
                  (junk (if area_toc_valid image (be32_to_cpu data 64) (be16_to_cpu data 84) = true then 1 else 0))
                  (if area_toc_valid image (be32_to_cpu data 64) (be16_to_cpu data 84) = true then 1 else 0)
                  (be32_to_cpu data 72) (be16_to_cpu data 86)
                  (if area_toc_valid image (be32_to_cpu data 64) (be16_to_cpu data 84) = true then a1 else a0)).2 with
                type := SACD_AREA_MULTICHANNEL }) := by
  by_cases hp1 : be32_to_cpu data 64 > 0 ∧ be16_to_cpu data 84 > 0
  · have hv1 := area_toc_valid_eq image (junk 0) 0 (be32_to_cpu data 64) (be16_to_cpu data 84) a0 (by omega) hp1
    by_cases hr1 : (parse_area_toc image (junk 0) 0 (be32_to_cpu data 64) (be16_to_cpu data 84) a0).1 = SACD_RESULT_OK
    · have hs : area_toc_valid image (be32_to_cpu data 64) (be16_to_cpu data 84) = true := by
        rw [hv1]; exact decide_eq_true hr1
      by_cases hp2 : be32_to_cpu data 72 > 0 ∧ be16_to_cpu data 86 > 0
      · have hv2 := area_toc_valid_eq image (junk 1) 1 (be32_to_cpu data 72) (be16_to_cpu data 86) a1 (by omega) hp2
        by_cases hr2 : (parse_area_toc image (junk 1) 1 (be32_to_cpu data 72) (be16_to_cpu data 86) a1).1 = SACD_RESULT_OK
        · have hm : area_toc_valid image (be32_to_cpu data 72) (be16_to_cpu data 86) = true := by
            rw [hv2]; exact decide_eq_true hr2
          rw [hs, hm]
          simp only [parse_disc_structure, hread, parse_master_toc, hsig, ne_eq, not_true_eq_false,
        if_false, hareas, and_self, if_true, List.getD_cons_zero, store_area,
        List.getD_cons_succ, List.set_cons_zero, List.set_cons_succ, Nat.zero_add,
        hp1, hr1, hp2, hr2]
          exact ⟨_, rfl, rfl, fun _ => rfl, fun _ => rfl⟩
        · have hm : area_toc_valid image (be32_to_cpu data 72) (be16_to_cpu data 86) = false := by
            rw [hv2]; exact decide_eq_false hr2
          have hu2 := (parse_area_toc_result image (junk 1) 1 (be32_to_cpu data 72) (be16_to_cpu data 86) a1 (by omega)).2 hr2
          rw [hs, hm]
          simp only [parse_disc_structure, hread, parse_master_toc, hsig, ne_eq, not_true_eq_false,
        if_false, hareas, and_self, if_true, List.getD_cons_zero, store_area,
        List.getD_cons_succ, List.set_cons_zero, List.set_cons_succ, Nat.zero_add,
        hp1, hr1, hp2, hr2, hu2]
          exact ⟨_, rfl, rfl, fun _ => rfl, fun h => (by cases h)⟩
      · have hm := area_toc_valid_absent image (be32_to_cpu data 72) (be16_to_cpu data 86) hp2
        rw [hs, hm]
        simp only [parse_disc_structure, hread, parse_master_toc, hsig, ne_eq, not_true_eq_false,
        if_false, hareas, and_self, if_true, List.getD_cons_zero, store_area,
        List.getD_cons_succ, List.set_cons_zero, List.set_cons_succ, Nat.zero_add,
        hp1, hr1, hp2]
        exact ⟨_, rfl, rfl, fun _ => rfl, fun h => (by cases h)⟩
    · have hs : area_toc_valid image (be32_to_cpu data 64) (be16_to_cpu data 84) = false := by
        rw [hv1]; exact decide_eq_false hr1
      have hu1 := (parse_area_toc_result image (junk 0) 0 (be32_to_cpu data 64) (be16_to_cpu data 84) a0 (by omega)).2 hr1
      by_cases hp2 : be32_to_cpu data 72 > 0 ∧ be16_to_cpu data 86 > 0
      · have hv2 := area_toc_valid_eq image (junk 0) 0 (be32_to_cpu data 72) (be16_to_cpu data 86) a0 (by omega) hp2
        by_cases hr2 : (parse_area_toc image (junk 0) 0 (be32_to_cpu data 72) (be16_to_cpu data 86) a0).1 = SACD_RESULT_OK
        · have hm : area_toc_valid image (be32_to_cpu data 72) (be16_to_cpu data 86) = true := by
            rw [hv2]; exact decide_eq_true hr2
          rw [hs, hm]
          simp only [parse_disc_structure, hread, parse_master_toc, hsig, ne_eq, not_true_eq_false,
        if_false, hareas, and_self, if_true, List.getD_cons_zero, store_area,
        List.getD_cons_succ, List.set_cons_zero, List.set_cons_succ, Nat.zero_add,
        hp1, hr1, hu1, hp2, hr2]
          exact ⟨_, rfl, rfl, fun h => (by cases h), fun _ => rfl⟩
        · have hm : area_toc_valid image (be32_to_cpu data 72) (be16_to_cpu data 86) = false := by
            rw [hv2]; exact decide_eq_false hr2
          have hu2 := (parse_area_toc_result image (junk 0) 0 (be32_to_cpu data 72) (be16_to_cpu data 86) a0 (by omega)).2 hr2
          rw [hs, hm]
          simp only [parse_disc_structure, hread, parse_master_toc, hsig, ne_eq, not_true_eq_false,
        if_false, hareas, and_self, if_true, List.getD_cons_zero, store_area,
        List.getD_cons_succ, List.set_cons_zero, List.set_cons_succ, Nat.zero_add,
        hp1, hr1, hu1, hp2, hr2, hu2]
          exact ⟨_, rfl, rfl, fun h => (by cases h), fun h => (by cases h)⟩
      · have hm := area_toc_valid_absent image (be32_to_cpu data 72) (be16_to_cpu data 86) hp2
        rw [hs, hm]
        simp only [parse_disc_structure, hread, parse_master_toc, hsig, ne_eq, not_true_eq_false,
        if_false, hareas, and_self, if_true, List.getD_cons_zero, store_area,
        List.getD_cons_succ, List.set_cons_zero, List.set_cons_succ, Nat.zero_add,
        hp1, hr1, hu1, hp2]
        exact ⟨_, rfl, rfl, fun h => (by cases h), fun h => (by cases h)⟩
  · have hs := area_toc_valid_absent image (be32_to_cpu data 64) (be16_to_cpu data 84) hp1
    by_cases hp2 : be32_to_cpu data 72 > 0 ∧ be16_to_cpu data 86 > 0
    · have hv2 := area_toc_valid_eq image (junk 0) 0 (be32_to_cpu data 72) (be16_to_cpu data 86) a0 (by omega) hp2
      by_cases hr2 : (parse_area_toc image (junk 0) 0 (be32_to_cpu data 72) (be16_to_cpu data 86) a0).1 = SACD_RESULT_OK
      · have hm : area_toc_valid image (be32_to_cpu data 72) (be16_to_cpu data 86) = true := by
          rw [hv2]; exact decide_eq_true hr2
        rw [hs, hm]
        simp only [parse_disc_structure, hread, parse_master_toc, hsig, ne_eq, not_true_eq_false,
        if_false, hareas, and_self, if_true, List.getD_cons_zero, store_area,
        List.getD_cons_succ, List.set_cons_zero, List.set_cons_succ, Nat.zero_add,
        hp1, hp2, hr2]
        exact ⟨_, rfl, rfl, fun h => (by cases h), fun _ => rfl⟩
      · have hm : area_toc_valid image (be32_to_cpu data 72) (be16_to_cpu data 86) = false := by
          rw [hv2]; exact decide_eq_false hr2
        have hu2 := (parse_area_toc_result image (junk 0) 0 (be32_to_cpu data 72) (be16_to_cpu data 86) a0 (by omega)).2 hr2
        rw [hs, hm]
        simp only [parse_disc_structure, hread, parse_master_toc, hsig, ne_eq, not_true_eq_false,
        if_false, hareas, and_self, if_true, List.getD_cons_zero, store_area,
        List.getD_cons_succ, List.set_cons_zero, List.set_cons_succ, Nat.zero_add,
        hp1, hp2, hr2, hu2]
        exact ⟨_, rfl, rfl, fun h => (by cases h), fun h => (by cases h)⟩
    · have hm := area_toc_valid_absent image (be32_to_cpu data 72) (be16_to_cpu data 86) hp2
      rw [hs, hm]
      simp only [parse_disc_structure, hread, parse_master_toc, hsig, ne_eq, not_true_eq_false,
        if_false, hareas, and_self, if_true, List.getD_cons_zero, store_area,
        List.getD_cons_succ, List.set_cons_zero, List.set_cons_succ, Nat.zero_add,
        hp1, hp2]
      exact ⟨_, rfl, rfl, fun h => (by cases h), fun h => (by cases h)⟩

theorem master_toc_data_eq (image data : List Nat)
    (hread : read_sectors image SACD_MASTER_TOC_START_LSN SACD_MASTER_TOC_LENGTH = .ok data) :
    master_toc_data image = data := by
  unfold master_toc_data
  rw [hread]

/-- A call of `sacd_disc_open` that returns OK was given an image whose master
TOC can be read and has its signature. -/
theorem sacd_disc_open_ok (heap_ok : Bool) (junk : Nat → List Nat) (file : iso_file)
    (hopen : (sacd_disc_open heap_ok junk file).1 = SACD_RESULT_OK) :
    ∃ image data, file = .image image
      ∧ read_sectors image SACD_MASTER_TOC_START_LSN SACD_MASTER_TOC_LENGTH = .ok data
      ∧ bytes_at data 0 8 = SACD_SIGNATURE := by
  unfold sacd_disc_open at hopen
  cases heap_ok with
  | false => simp at hopen
  | true =>
    cases file with
    | missing => simp at hopen
    | unreadable => simp at hopen
    | image image =>
      cases hread : read_sectors image SACD_MASTER_TOC_START_LSN SACD_MASTER_TOC_LENGTH with
      | error e =>
        have he := read_sectors_error image _ _ e hread
        subst he
        simp [parse_disc_structure, hread] at hopen
      | ok data =>
        refine ⟨image, data, rfl, hread, ?_⟩
        by_contra hsig
        simp [parse_disc_structure, hread, parse_master_toc, hsig] at hopen

/-- On an image of at least 520 sectors with the master TOC signature at sector
510, `sacd_disc_open` returns OK (allocation permitting). -/
theorem sacd_disc_open_result_ok (junk : Nat → List Nat) (image : List Nat)
    (hlen : 520 * 2048 ≤ image.length)
    (hsig : bytes_at image (510 * 2048) 8 = SACD_SIGNATURE) :
    (sacd_disc_open true junk (.image image)).1 = SACD_RESULT_OK := by
  obtain ⟨data, hread, hdata⟩ := master_toc_read image hlen
  obtain ⟨disc1, hparse, -⟩ := parse_disc_structure_areas image junk {} {} {} data rfl
    hread (hdata.trans hsig)
  unfold sacd_disc_open
  rw [if_neg (fun h => h rfl)]
  simp only [hparse]

/-- C19: after every call of `sacd_disc_open` that returns OK, on the image
`image` and with the disc `disc` as its result: `area_count` is the number of
area TOCs that validate (the Stereo and Multichannel pointers of the master TOC
with a non-zero start sector and a non-zero size, whose sectors can be read and
begin with "TWOCHTOC" or "MULCHTOC"); the types of `areas[0 .. area_count)` are
those of the validated TOCs, Stereo before Multichannel, and pairwise distinct;
the areas are what `parse_area_toc` made of a zeroed slot, with the type set;
and `sacd_disc_get_area` returns NULL for a type whose TOC did not validate. -/
theorem sacd_disc_open_areas (heap_ok : Bool) (junk : Nat → List Nat) (file : iso_file)
    (hopen : (sacd_disc_open heap_ok junk file).1 = SACD_RESULT_OK) :
    ∃ image disc, file = .image image
      ∧ sacd_disc_open heap_ok junk file = (SACD_RESULT_OK, some disc)
      ∧ disc.area_count = ((validated_types image).length : Int)
      ∧ (List.range disc.area_count.toNat).map (fun i => (area_at disc i).type)
          = validated_types image
      ∧ (∀ i j, i < j → j < disc.area_count.toNat →
          (area_at disc i).type ≠ (area_at disc j).type)
      ∧ (stereo_toc_valid image = true →
          area_at disc 0
            = { (parse_area_toc image (junk 0) 0 (be32_to_cpu (master_toc_data image) 64)
                  (be16_to_cpu (master_toc_data image) 84) {}).2 with
                type := SACD_AREA_STEREO })
      ∧ (multichannel_toc_valid image = true →
          area_at disc (if stereo_toc_valid image = true then 1 else 0)
            = { (parse_area_toc image
                  (junk (if stereo_toc_valid image = true then 1 else 0))
                  (if stereo_toc_valid image = true then 1 else 0)
                  (be32_to_cpu (master_toc_data image) 72)
                  (be16_to_cpu (master_toc_data image) 86) {}).2 with
                type := SACD_AREA_MULTICHANNEL })
      ∧ (∀ ty, ty ∉ validated_types image → sacd_disc_get_area disc ty = none) := by
  obtain ⟨image, data, hfile, hread, hsig⟩ := sacd_disc_open_ok heap_ok junk file hopen
  subst hfile
  have hheap : heap_ok = true := by
    cases heap_ok with
    | true => rfl
    | false => simp [sacd_disc_open] at hopen
  subst hheap
  obtain ⟨disc, hparse, hcount, harea0, harea1⟩ :=
    parse_disc_structure_areas image junk {} {} {} data rfl hread hsig
  have hmaster := master_toc_data_eq image data hread
  have hs : stereo_toc_valid image
      = area_toc_valid image (be32_to_cpu data 64) (be16_to_cpu data 84) := by
    unfold stereo_toc_valid
    rw [hmaster]
  have hm : multichannel_toc_valid image
      = area_toc_valid image (be32_to_cpu data 72) (be16_to_cpu data 86) := by
    unfold multichannel_toc_valid
    rw [hmaster]
  rw [← hs] at hcount harea0 harea1
  rw [← hm] at hcount harea1
  rw [← hmaster] at harea0 harea1
  have hprev : (if stereo_toc_valid image = true then ({} : sacd_area_t) else {}) = {} := by
    split <;> rfl
  rw [hprev] at harea1
  clear hprev
  have hres : sacd_disc_open true junk (.image image) = (SACD_RESULT_OK, some disc) := by
    unfold sacd_disc_open
    rw [if_neg (fun h => h rfl)]
    simp only [hparse]
  have ht0 : stereo_toc_valid image = true → (area_at disc 0).type = SACD_AREA_STEREO := by
    intro h
    unfold area_at
    rw [harea0 h]
  have ht1 : multichannel_toc_valid image = true →
      (area_at disc (if stereo_toc_valid image = true then 1 else 0)).type
        = SACD_AREA_MULTICHANNEL := by
    intro h
    unfold area_at
    rw [harea1 h]
  have htypes : (List.range disc.area_count.toNat).map (fun i => (area_at disc i).type)
      = validated_types image := by
    rw [hcount, Int.toNat_ofNat]
    unfold validated_types
    cases hsv : stereo_toc_valid image <;> cases hmv : multichannel_toc_valid image
    · rfl
    · have h1 := ht1 hmv
      rw [hsv] at h1
      show [(area_at disc 0).type] = [SACD_AREA_MULTICHANNEL]
      rw [← h1]
      rfl
    · have h0 := ht0 hsv
      show [(area_at disc 0).type] = [SACD_AREA_STEREO]
      rw [h0]
    · have h0 := ht0 hsv
      have h1 := ht1 hmv
      rw [hsv] at h1
      show [(area_at disc 0).type, (area_at disc 1).type]
        = [SACD_AREA_STEREO, SACD_AREA_MULTICHANNEL]
      rw [h0, ← h1]
      rfl
  have hlen : disc.area_count.toNat = (validated_types image).length := by
    rw [← htypes, List.length_map, List.length_range]
  refine ⟨image, disc, rfl, hres, ?_, htypes, ?_, harea0, harea1, ?_⟩
  · rw [hcount]
    unfold validated_types
    cases stereo_toc_valid image <;> cases multichannel_toc_valid image <;> rfl
  · intro i j hij hj
    have hget : ∀ k, k < disc.area_count.toNat →
        (validated_types image)[k]? = some (area_at disc k).type := by
      intro k hk
      rw [← htypes, List.getElem?_map, List.getElem?_range hk]
      rfl
    have hi := hget i (by omega)
    have hj2 := hget j hj
    rw [hlen] at hj
    revert hi hj2 hj
    unfold validated_types
    cases stereo_toc_valid image <;> cases multichannel_toc_valid image
    · intro hj
      simp at hj
    · intro hj
      simp at hj
      omega
    · intro hj
      simp at hj
      omega
    · intro hj hi hj2
      simp at hj
      have hi0 : i = 0 := by omega
      have hj1 : j = 1 := by omega
      subst hi0
      subst hj1
      simp at hi hj2
      rw [← hi, ← hj2]
      decide
  · intro ty hty
    unfold sacd_disc_get_area
    rw [List.find?_eq_none]
    intro k hk hdec
    have hmem : (area_at disc k).type ∈ validated_types image := by
      rw [← htypes]
      exact List.mem_map.mpr ⟨k, hk, rfl⟩
    rw [decide_eq_true_eq] at hdec
    rw [hdec] at hmem
    exact hty hmem

theorem sacd_disc_open_areas_witness :
    ∃ image disc,
      iso_file.image (List.replicate (510 * 2048) 0
          ++ ([83, 65, 67, 68, 77, 84, 79, 67] ++ List.replicate 20472 0)) = .image image
      ∧ sacd_disc_open true (fun _ => [])
          (.image (List.replicate (510 * 2048) 0
            ++ ([83, 65, 67, 68, 77, 84, 79, 67] ++ List.replicate 20472 0)))
        = (SACD_RESULT_OK, some disc)
      ∧ disc.area_count = ((validated_types image).length : Int) := by
  have hlen : 520 * 2048 ≤ (List.replicate (510 * 2048) 0
      ++ ([83, 65, 67, 68, 77, 84, 79, 67] ++ List.replicate 20472 0)).length := by
    rw [List.length_append, List.length_append, List.length_replicate, List.length_replicate]
    simp only [List.length_cons, List.length_nil]
    omega
  have hsig : bytes_at (List.replicate (510 * 2048) 0
      ++ ([83, 65, 67, 68, 77, 84, 79, 67] ++ List.replicate 20472 0)) (510 * 2048) 8
      = SACD_SIGNATURE := by
    unfold bytes_at
    rw [List.drop_left' (List.length_replicate _ _),
      @List.take_left' Nat [83, 65, 67, 68, 77, 84, 79, 67] (List.replicate 20472 0) 8 rfl]
    decide
  obtain ⟨image, disc, hfile, hres, hcount, -⟩ :=
    sacd_disc_open_areas true (fun _ => []) _
      (sacd_disc_open_result_ok (fun _ => []) _ hlen hsig)
  exact ⟨image, disc, hfile, hres, hcount⟩

/-! ## C22 -/

set_option maxRecDepth 100000 in
/-- C22: the scan of `parse_area_toc` leaves the TOC buffer when the size field
of the TOC header is larger than `toc_size`. The area TOC is one sector
(`toc_size = 1`) whose header gives the size 2 at bytes 10..11 and one track;
the buffer is the 2048 bytes of that sector. The scan visits sector index 1,
which is not among the indices 1 .. `toc_size - 1`, and reads the bytes at
offsets 2048 and up of the buffer: with "SACDTRL1" and the number 9 in the
memory behind the buffer, track 0 gets the start sector 9; with nothing there
it keeps 0. -/
theorem parse_area_toc_scans_past_buffer :
    (read_sectors (ascii "TWOCHTOC" ++ [0, 0, 0, 2] ++ List.replicate 57 0 ++ [1]
        ++ List.replicate 1978 0) 0 1).toOption.map List.length = some 2048
    ∧ scanned_sectors (be16_to_cpu (ascii "TWOCHTOC" ++ [0, 0, 0, 2] ++ List.replicate 57 0
        ++ [1] ++ List.replicate 1978 0) 10) = [1]
    ∧ (parse_area_toc (ascii "TWOCHTOC" ++ [0, 0, 0, 2] ++ List.replicate 57 0 ++ [1]
        ++ List.replicate 1978 0) (ascii "SACDTRL1" ++ [0, 0, 0, 9]) 0 0 1 {}).1
      = SACD_RESULT_OK
    ∧ ((parse_area_toc (ascii "TWOCHTOC" ++ [0, 0, 0, 2] ++ List.replicate 57 0 ++ [1]
        ++ List.replicate 1978 0) (ascii "SACDTRL1" ++ [0, 0, 0, 9]) 0 0 1 {}).2.tracks.getD 0
          {}).start_lsn = 9
    ∧ ((parse_area_toc (ascii "TWOCHTOC" ++ [0, 0, 0, 2] ++ List.replicate 57 0 ++ [1]
        ++ List.replicate 1978 0) [] 0 0 1 {}).2.tracks.getD 0 {}).start_lsn = 0 := by
  decide!

/-! ## C27 -/

set_option maxRecDepth 100000 in
/-- C27: the progress callbacks of a track depend on what was extracted before
it. In both runs the queue is 0, 1, and track 1 (track number 2, one sector) is
extracted to the end at queue position 1. When track 0 has one sector, its
callback reports 100 percent, `last_reported_progress` stays at 100, and
track 1 gets no progress callback at all; when track 0 has no sector, track 1
gets the callback with 100 percent. -/
theorem progress_callbacks_depend_on_earlier_tracks :
    progress_reports (extraction_thread
        { image := List.replicate 2048 0, file_limit := fun _ => 100000 }
        { ex := { area := { track_count := 2,
                            tracks := [{ length_lsn := 1 }, { number := 1, length_lsn := 1 }] },
                  track_queue := [0, 1], track_queue_count := 2,
                  is_running := true } }).trace
      = [(1, 100, 50)]
    ∧ worker_event.track_complete 1 2 2048 ∈ (extraction_thread
        { image := List.replicate 2048 0, file_limit := fun _ => 100000 }
        { ex := { area := { track_count := 2,
                            tracks := [{ length_lsn := 1 }, { number := 1, length_lsn := 1 }] },
                  track_queue := [0, 1], track_queue_count := 2,
                  is_running := true } }).trace
    ∧ progress_reports (extraction_thread
        { image := List.replicate 2048 0, file_limit := fun _ => 100000 }
        { ex := { area := { track_count := 2,
                            tracks := [{ length_lsn := 0 }, { number := 1, length_lsn := 1 }] },
                  track_queue := [0, 1], track_queue_count := 2,
                  is_running := true } }).trace
      = [(2, 100, 100)] := by
  decide!

/-! ## C28 -/

/-- C28: the chunk sizes that `sacd_internal_write_dsdiff_header` writes, for 2
channels and `audio_data_size = 0`, and for 8 channels and
`audio_data_size = 1000`. With 2 channels the header is 84 bytes long and the
FRM8 size is 68, not 84 + 0 - 12 = 72; the PROP size is 36, while "SND " begins
at offset 40 and the last channel ID ends at offset 72, 32 bytes later; the 8
bytes after "CHNL" are four zero bytes and the first channel ID, so that they
read as 1397507668, not 8. With 8 channels the header is 100 bytes long with 6
channel IDs, the FRM8 size is 1092, not 100 + 1000 - 12 = 1088, and the PROP
size is 60, not 48. -/
theorem dsdiff_chunk_sizes_written :
    (dsdiff_header_written { channel_count := 2 } {} 0).length = 84
    ∧ read_be (dsdiff_header_written { channel_count := 2 } {} 0) 4 8 = 68
    ∧ read_be (dsdiff_header_written { channel_count := 2 } {} 0) 32 8 = 36
    ∧ bytes_at (dsdiff_header_written { channel_count := 2 } {} 0) 40 4 = ascii "SND "
    ∧ bytes_at (dsdiff_header_written { channel_count := 2 } {} 0) 56 4 = ascii "CHNL"
    ∧ read_be (dsdiff_header_written { channel_count := 2 } {} 0) 60 8 = 1397507668
    ∧ bytes_at (dsdiff_header_written { channel_count := 2 } {} 0) 64 8
        = ascii "SLFT" ++ ascii "SRGT"
    ∧ bytes_at (dsdiff_header_written { channel_count := 2 } {} 0) 72 4 = ascii "DSD "
    ∧ (dsdiff_header_written { channel_count := 8 } {} 1000).length = 100
    ∧ read_be (dsdiff_header_written { channel_count := 8 } {} 1000) 4 8 = 1092
    ∧ read_be (dsdiff_header_written { channel_count := 8 } {} 1000) 32 8 = 60
    ∧ bytes_at (dsdiff_header_written { channel_count := 8 } {} 1000) 64 24
        = List.flatten channel_ids
    ∧ bytes_at (dsdiff_header_written { channel_count := 8 } {} 1000) 88 4 = ascii "DSD " := by
  decide!

/-! ## C29 -/

set_option maxRecDepth 100000 in
/-- C29: `sacd_internal_extract_dsd_from_sector` copies the 2048 bytes at
offsets 16 .. 2063 of the memory that starts at the sector buffer, so the last
16 bytes of the payload come from behind the 2048-byte buffer. For a sector of
2048 zero bytes the payload has 2048 bytes, byte 2031 is the 0 of the sector,
and bytes 2032 and 2047 are what lies behind the buffer, 255 here and 1 there;
in the worker these bytes go to the output file. -/
theorem extract_dsd_reads_past_sector :
    (sacd_internal_extract_dsd_from_sector true
        (List.replicate 2048 0 ++ List.replicate 16 255)).map
        (fun d => (d.length, d.getD 2031 7, d.getD 2032 7, d.getD 2047 7))
      = some (2048, 0, 255, 255)
    ∧ (sacd_internal_extract_dsd_from_sector true
        (List.replicate 2048 0 ++ List.replicate 16 1)).map
        (fun d => (d.length, d.getD 2031 7, d.getD 2032 7, d.getD 2047 7))
      = some (2048, 0, 1, 1)
    ∧ (sector_loop { image := List.replicate 2048 0, sector_junk := List.replicate 16 255 }
        0 { length_lsn := 1 } [0] {} { file := new_file 5000 }).2.2.file.bytes.getD 2047 7
      = 255
    ∧ (sector_loop { image := List.replicate 2048 0, sector_junk := List.replicate 16 1 }
        0 { length_lsn := 1 } [0] {} { file := new_file 5000 }).2.2.file.bytes.getD 2047 7
      = 1 := by
  decide!
/-! ## C21 -/

theorem getElem?_of_byte_at (a b : List Nat) (i : Nat) (hlen : a.length = b.length)
    (h : byte_at a i = byte_at b i) : a[i]? = b[i]? := by
  by_cases hi : i < a.length
  · have hb : i < b.length := by omega
    simp only [byte_at, List.getD_eq_getElem?_getD, List.getElem?_eq_getElem hi,
      List.getElem?_eq_getElem hb, Option.getD_some] at h
    rw [List.getElem?_eq_getElem hi, List.getElem?_eq_getElem hb, h]
  · rw [List.getElem?_eq_none (by omega), List.getElem?_eq_none (by omega)]

/-- When `ftell` fails, `sacd_internal_finalize_file_headers` returns at once. -/
theorem finalize_ftell_fails (file : FILE) (format : sacd_output_format_t) (n : Nat)
    (hpos : ¬ file.pos < 2 ^ 63) :
    sacd_internal_finalize_file_headers file format n = (SACD_RESULT_IO_ERROR, file) := by
  have hft : ftell file = -1 := by
    unfold ftell
    rw [if_neg hpos]
  unfold sacd_internal_finalize_file_headers
  simp only [hft]
  rfl

theorem dsf_finalized_byte_at (file : FILE) (n i : Nat)
    (h12 : ¬ (12 ≤ i ∧ i ≤ 19)) (h84 : ¬ (84 ≤ i ∧ i ≤ 91)) :
    byte_at (dsf_finalized file n).bytes i = byte_at file.bytes i := by
  rw [dsf_finalized_bytes, byte_at_file_put, if_neg (by
    show ¬ (84 ≤ i ∧ i < 84 + (write_le64 _).length)
    rw [write_le64_length]
    omega)]
  show byte_at (file_put (write_le64 file.pos) { file with pos := 12 }).bytes i = _
  rw [byte_at_file_put, if_neg (by
    show ¬ (12 ≤ i ∧ i < 12 + (write_le64 _).length)
    rw [write_le64_length]
    omega)]

theorem dsdiff_finalized_byte_at (file : FILE) (i : Nat) (h4 : ¬ (4 ≤ i ∧ i ≤ 11)) :
    byte_at (dsdiff_finalized file).bytes i = byte_at file.bytes i := by
  show byte_at (file_put _ { file with pos := 4 }).bytes i = _
  rw [byte_at_file_put, if_neg (by
    show ¬ (4 ≤ i ∧ i < 4 + (write_be64 _).length)
    rw [write_be64_length]
    omega)]

/-- C21: for every output file of at least 92 bytes (on a device that holds
it, so that a write inside the file succeeds), every format and every
`audio_data_size`, `sacd_internal_finalize_file_headers` leaves the length of
the file and the file cursor as they were on entry, and leaves every byte as it
was except those at offsets 12..19 and 84..91 for format DSF, and those at
offsets 4..11 for the formats DSDIFF and DSDIFF Edit Master. -/
theorem sacd_internal_finalize_file_headers_frame (file : FILE)
    (format : sacd_output_format_t) (audio_data_size : Nat)
    (hlen : 92 ≤ file.bytes.length) (hlim : file.bytes.length ≤ file.limit) :
    (sacd_internal_finalize_file_headers file format audio_data_size).2.bytes.length
        = file.bytes.length
      ∧ (sacd_internal_finalize_file_headers file format audio_data_size).2.pos = file.pos
      ∧ (format = SACD_FORMAT_DSF → ∀ i, ¬ (12 ≤ i ∧ i ≤ 19) → ¬ (84 ≤ i ∧ i ≤ 91) →
          (sacd_internal_finalize_file_headers file format audio_data_size).2.bytes[i]?
            = file.bytes[i]?)
      ∧ (format ≠ SACD_FORMAT_DSF → ∀ i, ¬ (4 ≤ i ∧ i ≤ 11) →
          (sacd_internal_finalize_file_headers file format audio_data_size).2.bytes[i]?
            = file.bytes[i]?) := by
  by_cases hpos : file.pos < 2 ^ 63
  · cases format with
    | SACD_FORMAT_DSF =>
      rw [finalize_dsf_eq file audio_data_size hpos (by omega)]
      have hl := dsf_finalized_length file audio_data_size hlen
      refine ⟨hl, rfl, fun _ i h12 h84 => ?_, fun h => absurd rfl h⟩
      exact getElem?_of_byte_at _ _ i hl (dsf_finalized_byte_at file audio_data_size i h12 h84)
    | SACD_FORMAT_DSDIFF =>
      rw [finalize_dsdiff_eq file _ audio_data_size (Or.inl rfl) hpos (by omega)]
      have hl := dsdiff_finalized_length file (by omega)
      refine ⟨hl, rfl, fun h => (by cases h), fun _ i h4 => ?_⟩
      exact getElem?_of_byte_at _ _ i hl (dsdiff_finalized_byte_at file i h4)
    | SACD_FORMAT_DSDIFF_EM =>
      rw [finalize_dsdiff_eq file _ audio_data_size (Or.inr rfl) hpos (by omega)]
      have hl := dsdiff_finalized_length file (by omega)
      refine ⟨hl, rfl, fun h => (by cases h), fun _ i h4 => ?_⟩
      exact getElem?_of_byte_at _ _ i hl (dsdiff_finalized_byte_at file i h4)
  · rw [finalize_ftell_fails file format audio_data_size hpos]
    exact ⟨rfl, rfl, fun _ _ _ _ => rfl, fun _ _ _ => rfl⟩

theorem sacd_internal_finalize_file_headers_frame_witness :
    (sacd_internal_finalize_file_headers
        { bytes := List.replicate 100 7, pos := 100, limit := 100 } SACD_FORMAT_DSF
        8).2.bytes.length = 100
      ∧ (sacd_internal_finalize_file_headers
          { bytes := List.replicate 100 7, pos := 100, limit := 100 } SACD_FORMAT_DSF
          8).2.bytes[20]? = some 7 := by
  have h := sacd_internal_finalize_file_headers_frame
    { bytes := List.replicate 100 7, pos := 100, limit := 100 } SACD_FORMAT_DSF 8
    (by decide) (by decide)
  exact ⟨h.1, (h.2.2.1 rfl 20 (by decide) (by decide)).trans (by decide)⟩
/-! ## C30 -/

theorem same_setup_extraction_thread (env : worker_env) (ws : worker_state) :
    same_setup ws.ex (extraction_thread env ws).ex := by
  have h := same_setup_thread_loop env (List.range ws.ex.track_queue_count.toNat) ws
  unfold extraction_thread
  simp only
  split
  · exact same_setup_trans h ⟨rfl, rfl, rfl, rfl, rfl, rfl, rfl, rfl, rfl⟩
  · exact same_setup_trans h ⟨rfl, rfl, rfl, rfl, rfl, rfl, rfl, rfl, rfl⟩

/-- A well-formed queue stays well formed when the fields it is made of stay. -/
theorem queue_ok_of_same_setup (a b : sacd_extractor_internal_t) (h : same_setup a b)
    (ha : queue_ok a) : queue_ok b := by
  obtain ⟨h1, -, -, -, -, -, h7, h8, h9⟩ := h
  unfold queue_ok queue at *
  rw [← h1, ← h7, ← h8, ← h9]
  exact ha

/-- The loop of `sacd_extractor_add_tracks` on a well-formed queue with room
for the list leaves a well-formed queue, whether it ends or returns early. -/
theorem add_tracks_loop_queue_ok :
    ∀ (track_numbers : List Int) (ex : sacd_extractor_internal_t),
      queue_ok ex →
      ex.track_queue_count + track_numbers.length ≤ ex.track_queue_capacity →
      queue_ok (add_tracks_loop ex track_numbers).2
  | [], ex, hok, _ => hok
  | t :: rest, ex, hok, hroom => by
    unfold add_tracks_loop
    by_cases hbad : t < 0 ∨ t ≥ ex.area.track_count
    · rw [if_pos hbad]
      exact hok
    · rw [if_neg hbad]
      obtain ⟨h0, hcap, hbuf, hq⟩ := hok
      rw [List.length_cons] at hroom
      push_cast at hroom
      have hlt : ex.track_queue_count.toNat < ex.track_queue.length := by omega
      apply add_tracks_loop_queue_ok rest
      · refine ⟨?_, ?_, ?_, ?_⟩
        · show 0 ≤ ex.track_queue_count + 1
          omega
        · show ex.track_queue_count + 1 ≤ ex.track_queue_capacity
          omega
        · show ((ex.track_queue.set ex.track_queue_count.toNat t).length : Int)
            = ex.track_queue_capacity
          rw [List.length_set]
          exact hbuf
        · intro x hx
          have hx2 : x ∈ (ex.track_queue.set ex.track_queue_count.toNat t).take
              (ex.track_queue_count + 1).toNat := hx
          have e1 : (ex.track_queue_count + 1).toNat = ex.track_queue_count.toNat + 1 := by
            omega
          rw [e1, take_set_succ _ _ _ hlt, List.mem_append, List.mem_singleton] at hx2
          show 0 ≤ x ∧ x < ex.area.track_count
          rcases hx2 with h | h
          · exact hq x h
          · rw [h]
            omega
      · show ex.track_queue_count + 1 + (rest.length : Int) ≤ ex.track_queue_capacity
        omega

theorem sacd_extractor_add_tracks_queue_ok (heap_ok : Bool) (ex : sacd_extractor_internal_t)
    (track_numbers : List Int) (hok : queue_ok ex) :
    queue_ok (sacd_extractor_add_tracks heap_ok ex track_numbers).2 := by
  unfold sacd_extractor_add_tracks
  simp only
  split
  · exact hok
  · split
    · exact hok
    · split
      · rename_i hgrow
        split
        · exact hok
        · obtain ⟨h0, hcap, hbuf, hq⟩ := hok
          apply add_tracks_loop_queue_ok
          · refine ⟨h0, ?_, ?_, ?_⟩
            · show ex.track_queue_count
                ≤ (ex.track_queue_count + (track_numbers.length : Int)) * 2
              omega
            · show ((realloc ex.track_queue
                  ((ex.track_queue_count + (track_numbers.length : Int)) * 2).toNat).length
                  : Int) = (ex.track_queue_count + (track_numbers.length : Int)) * 2
              unfold realloc
              rw [List.length_append, List.length_take, List.length_replicate]
              omega
            · intro x hx
              have hx2 : x ∈ (realloc ex.track_queue
                  ((ex.track_queue_count + (track_numbers.length : Int)) * 2).toNat).take
                  ex.track_queue_count.toNat := hx
              unfold realloc at hx2
              rw [List.take_append_of_le_length (by rw [List.length_take]; omega),
                List.take_take] at hx2
              have e : min ex.track_queue_count.toNat
                  ((ex.track_queue_count + (track_numbers.length : Int)) * 2).toNat
                  = ex.track_queue_count.toNat := by omega
              rw [e] at hx2
              exact hq x hx2
          · show ex.track_queue_count + (track_numbers.length : Int)
              ≤ (ex.track_queue_count + (track_numbers.length : Int)) * 2
            omega
      · rename_i hfit
        exact add_tracks_loop_queue_ok track_numbers ex hok (by omega)

theorem sacd_extractor_add_tracks_area (heap_ok : Bool) (ex : sacd_extractor_internal_t)
    (track_numbers : List Int) :
    (sacd_extractor_add_tracks heap_ok ex track_numbers).2.area = ex.area := by
  unfold sacd_extractor_add_tracks
  simp only
  split
  · rfl
  · split
    · rfl
    · split
      · split
        · rfl
        · exact add_tracks_loop_area _ _
      · exact add_tracks_loop_area _ _

/-- Every call keeps the queue well formed and the area bound. -/
theorem apply_call_queue_ok (ex : sacd_extractor_internal_t) (call : extractor_call)
    (hok : queue_ok ex) :
    queue_ok (apply_call ex call) ∧ (apply_call ex call).area = ex.area := by
  cases call with
  | add_tracks heap_ok track_numbers =>
    exact ⟨sacd_extractor_add_tracks_queue_ok heap_ok ex track_numbers hok,
      sacd_extractor_add_tracks_area heap_ok ex track_numbers⟩
  | add_all_tracks heap_ok =>
    show queue_ok (sacd_extractor_add_all_tracks heap_ok ex).2
      ∧ (sacd_extractor_add_all_tracks heap_ok ex).2.area = ex.area
    unfold sacd_extractor_add_all_tracks
    simp only
    split
    · exact ⟨hok, rfl⟩
    · exact ⟨sacd_extractor_add_tracks_queue_ok heap_ok ex _ hok,
        sacd_extractor_add_tracks_area heap_ok ex _⟩
  | start thread_ok =>
    show queue_ok (sacd_extractor_start thread_ok ex).2.1
      ∧ (sacd_extractor_start thread_ok ex).2.1.area = ex.area
    unfold sacd_extractor_start
    split
    · exact ⟨hok, rfl⟩
    · split
      · exact ⟨hok, rfl⟩
      · simp only
        split
        · exact ⟨hok, rfl⟩
        · exact ⟨hok, rfl⟩
  | worker_run env last_reported_progress =>
    show queue_ok (if ex.is_running = true then _ else ex)
      ∧ (if ex.is_running = true then _ else ex).area = ex.area
    split
    · have h := same_setup_extraction_thread env
        { ex := ex, trace := [], last_reported_progress := last_reported_progress }
      exact ⟨queue_ok_of_same_setup _ _ h hok, h.1.symm⟩
    · exact ⟨hok, rfl⟩

theorem apply_calls_queue_ok : ∀ (calls : List extractor_call) (ex : sacd_extractor_internal_t),
    queue_ok ex →
    queue_ok (calls.foldl apply_call ex) ∧ (calls.foldl apply_call ex).area = ex.area
  | [], _, hok => ⟨hok, rfl⟩
  | call :: rest, ex, hok => by
    obtain ⟨h1, h2⟩ := apply_call_queue_ok ex call hok
    obtain ⟨h3, h4⟩ := apply_calls_queue_ok rest (apply_call ex call) h1
    exact ⟨h3, h4.trans h2⟩

/-- A new extractor has an empty, well-formed queue and the given area. -/
theorem sacd_extractor_create_queue_ok (heap_ok mutex_ok dir_ok : Bool) (area : sacd_area_t)
    (format : sacd_output_format_t) (cb1 cb2 cb3 : Bool) (ex : sacd_extractor_internal_t)
    (h : sacd_extractor_create heap_ok mutex_ok dir_ok area format cb1 cb2 cb3
      = (SACD_RESULT_OK, some ex)) :
    queue_ok ex ∧ ex.area = area ∧ ex.track_queue_count = 0 := by
  unfold sacd_extractor_create at h
  cases heap_ok <;> cases mutex_ok <;> cases dir_ok <;>
    simp [sacd_internal_dst_decoder_init] at h
  rw [← h]
  refine ⟨⟨le_refl _, (by show (0 : Int) ≤ 16; decide), rfl, ?_⟩, rfl, rfl⟩
  intro t ht
  simp [queue] at ht

/-- C30: for every extractor that `sacd_extractor_create` returns and every
sequence of calls of `sacd_extractor_add_tracks`, `sacd_extractor_add_all_tracks`
and `sacd_extractor_start` on it, successful or not, with the runs of the
spawned worker in between: afterwards the extractor is still bound to the area
it was created for, every index in the track queue is at least 0 and below the
`track_count` of that area, and `track_queue_count` lies between 0 and
`track_queue_capacity`, the length of the queue array. -/
theorem track_queue_invariant (heap_ok mutex_ok dir_ok : Bool) (area : sacd_area_t)
    (format : sacd_output_format_t) (cb1 cb2 cb3 : Bool) (ex : sacd_extractor_internal_t)
    (calls : List extractor_call)
    (hcreate : sacd_extractor_create heap_ok mutex_ok dir_ok area format cb1 cb2 cb3
      = (SACD_RESULT_OK, some ex)) :
    (calls.foldl apply_call ex).area = area
      ∧ (∀ t, t ∈ queue (calls.foldl apply_call ex) → 0 ≤ t ∧ t < area.track_count)
      ∧ 0 ≤ (calls.foldl apply_call ex).track_queue_count
      ∧ (calls.foldl apply_call ex).track_queue_count
          ≤ (calls.foldl apply_call ex).track_queue_capacity
      ∧ ((calls.foldl apply_call ex).track_queue.length : Int)
          = (calls.foldl apply_call ex).track_queue_capacity := by
  obtain ⟨hok, harea, -⟩ :=
    sacd_extractor_create_queue_ok heap_ok mutex_ok dir_ok area format cb1 cb2 cb3 ex hcreate
  obtain ⟨⟨h0, hcap, hbuf, hq⟩, ha⟩ := apply_calls_queue_ok calls ex hok
  have harea2 : (calls.foldl apply_call ex).area = area := ha.trans harea
  refine ⟨harea2, ?_, h0, hcap, hbuf⟩
  intro t ht
  rw [← harea2]
  exact hq t ht

theorem track_queue_invariant_witness :
    (2 : Int) ∈ queue ([extractor_call.add_tracks true [0, 5],
          extractor_call.add_all_tracks true, extractor_call.start true].foldl apply_call
        { area := { track_count := 3 }, format := SACD_FORMAT_DSF, track_queue_count := 0,
          track_queue_capacity := 16 })
      ∧ (2 : Int) < ({ track_count := 3 } : sacd_area_t).track_count
      ∧ ([extractor_call.add_tracks true [0, 5], extractor_call.add_all_tracks true,
            extractor_call.start true].foldl apply_call
          { area := { track_count := 3 }, format := SACD_FORMAT_DSF, track_queue_count := 0,
            track_queue_capacity := 16 }).track_queue_count
        ≤ ([extractor_call.add_tracks true [0, 5], extractor_call.add_all_tracks true,
            extractor_call.start true].foldl apply_call
          { area := { track_count := 3 }, format := SACD_FORMAT_DSF, track_queue_count := 0,
            track_queue_capacity := 16 }).track_queue_capacity := by
  have h := track_queue_invariant true true true { track_count := 3 } SACD_FORMAT_DSF
    true true true
    { area := { track_count := 3 }, format := SACD_FORMAT_DSF, track_queue_count := 0,
      track_queue_capacity := 16 }
    [extractor_call.add_tracks true [0, 5], extractor_call.add_all_tracks true,
      extractor_call.start true] rfl
  exact ⟨by decide, (h.2.1 2 (by decide)).2, h.2.2.2.1⟩

/-! ## The marker scan of `parse_area_toc` -/

theorem update_tracks_length (n : Nat) (f : Nat → sacd_track_t → sacd_track_t)
    (tracks : List sacd_track_t) : (update_tracks n f tracks).length = tracks.length := by
  unfold update_tracks
  exact List.length_mapIdx

theorem update_tracks_getD (n : Nat) (f : Nat → sacd_track_t → sacd_track_t)
    (tracks : List sacd_track_t) (i : Nat) (d : sacd_track_t) (hi : i < tracks.length) :
    (update_tracks n f tracks).getD i d
      = if i < n then f i (tracks.getD i d) else tracks.getD i d := by
  unfold update_tracks
  rw [List.getD_eq_getElem?_getD, List.getElem?_mapIdx, List.getD_eq_getElem?_getD,
    List.getElem?_eq_getElem hi]
  rfl

/-- The scan leaves the track count, the channel count and the length of the
track array as they are. -/
theorem scan_marker_counts (mem : List Nat) (area : sacd_area_t) (k : Nat) :
    (scan_marker mem area k).track_count = area.track_count
      ∧ (scan_marker mem area k).channel_count = area.channel_count
      ∧ (scan_marker mem area k).tracks.length = area.tracks.length := by
  unfold scan_marker
  simp only
  split
  · exact ⟨rfl, rfl, update_tracks_length _ _ _⟩
  · split
    · exact ⟨rfl, rfl, update_tracks_length _ _ _⟩
    · split
      · exact ⟨rfl, rfl, update_tracks_length _ _ _⟩
      · exact ⟨rfl, rfl, rfl⟩

theorem scan_fold_counts (mem : List Nat) :
    ∀ (ks : List Nat) (area : sacd_area_t),
      (ks.foldl (scan_marker mem) area).track_count = area.track_count
        ∧ (ks.foldl (scan_marker mem) area).channel_count = area.channel_count
        ∧ (ks.foldl (scan_marker mem) area).tracks.length = area.tracks.length
  | [], _ => ⟨rfl, rfl, rfl⟩
  | k :: rest, area => by
    obtain ⟨h1, h2, h3⟩ := scan_marker_counts mem area k
    obtain ⟨h4, h5, h6⟩ := scan_fold_counts mem rest (scan_marker mem area k)
    exact ⟨h4.trans h1, h5.trans h2, h6.trans h3⟩

/-- A sector that begins with "SACDTRL1" sets number, start and length of the
tracks below the track count. -/
theorem scan_marker_trl1 (mem : List Nat) (area : sacd_area_t) (k i : Nat)
    (hmark : bytes_at mem (k * SACD_LSN_SIZE) 8 = ascii "SACDTRL1")
    (hi : i < track_loop_bound area.track_count) (hlen : i < area.tracks.length) :
    ((scan_marker mem area k).tracks.getD i {}).number = i
      ∧ ((scan_marker mem area k).tracks.getD i {}).start_lsn
          = be32_to_cpu mem (k * SACD_LSN_SIZE + 8 + i * 4)
      ∧ ((scan_marker mem area k).tracks.getD i {}).length_lsn
          = be32_to_cpu mem (k * SACD_LSN_SIZE + 8 + (255 + i) * 4) := by
  unfold scan_marker
  simp only
  rw [if_pos hmark]
  show ((update_tracks _ _ area.tracks).getD i {}).number = _ ∧ _
  rw [update_tracks_getD _ _ _ _ _ hlen, if_pos hi]
  exact ⟨rfl, rfl, rfl⟩

/-- A sector that does not begin with "SACDTRL1" leaves number, start and length
of every track as they are. -/
theorem scan_marker_other (mem : List Nat) (area : sacd_area_t) (k i : Nat)
    (hmark : bytes_at mem (k * SACD_LSN_SIZE) 8 ≠ ascii "SACDTRL1")
    (hlen : i < area.tracks.length) :
    ((scan_marker mem area k).tracks.getD i {}).number = (area.tracks.getD i {}).number
      ∧ ((scan_marker mem area k).tracks.getD i {}).start_lsn
          = (area.tracks.getD i {}).start_lsn
      ∧ ((scan_marker mem area k).tracks.getD i {}).length_lsn
          = (area.tracks.getD i {}).length_lsn := by
  unfold scan_marker
  simp only
  rw [if_neg hmark]
  split
  · show ((update_tracks _ _ area.tracks).getD i {}).number = _ ∧ _
    rw [update_tracks_getD _ _ _ _ _ hlen]
    split <;> exact ⟨rfl, rfl, rfl⟩
  · split
    · show ((update_tracks _ _ area.tracks).getD i {}).number = _ ∧ _
      rw [update_tracks_getD _ _ _ _ _ hlen]
      split <;> exact ⟨rfl, rfl, rfl⟩
    · exact ⟨rfl, rfl, rfl⟩

theorem scan_fold_other (mem : List Nat) (i : Nat) :
    ∀ (ks : List Nat) (area : sacd_area_t),
      (∀ k, k ∈ ks → bytes_at mem (k * SACD_LSN_SIZE) 8 ≠ ascii "SACDTRL1") →
      i < area.tracks.length →
      ((ks.foldl (scan_marker mem) area).tracks.getD i {}).number
          = (area.tracks.getD i {}).number
        ∧ ((ks.foldl (scan_marker mem) area).tracks.getD i {}).start_lsn
            = (area.tracks.getD i {}).start_lsn
        ∧ ((ks.foldl (scan_marker mem) area).tracks.getD i {}).length_lsn
            = (area.tracks.getD i {}).length_lsn
  | [], _, _, _ => ⟨rfl, rfl, rfl⟩
  | k :: rest, area, hno, hlen => by
    obtain ⟨h1, h2, h3⟩ := scan_marker_other mem area k i (hno k (List.mem_cons_self _ _)) hlen
    obtain ⟨h4, h5, h6⟩ := scan_fold_other mem i rest (scan_marker mem area k)
      (fun k' hk' => hno k' (List.mem_cons_of_mem _ hk'))
      (by rw [(scan_marker_counts mem area k).2.2]; exact hlen)
    exact ⟨h4.trans h1, h5.trans h2, h6.trans h3⟩

/-- What `parse_area_toc` returns for an index below `SACD_MAX_AREAS` when the
TOC sectors can be read and begin with one of the two signatures. -/
theorem parse_area_toc_eq (image junk : List Nat) (idx toc_start toc_size : Nat)
    (area : sacd_area_t) (data : List Nat) (hidx : idx < 2)
    (hread : read_sectors image toc_start toc_size = .ok data)
    (hsig : bytes_at data 0 8 = ascii "TWOCHTOC" ∨ bytes_at data 0 8 = ascii "MULCHTOC") :
    parse_area_toc image junk idx toc_start toc_size area
      = (SACD_RESULT_OK,
          (scanned_sectors (be16_to_cpu data 10)).foldl (scan_marker (data ++ junk))
            { area with
              channel_count := byte_at data 32
              sample_frequency := SACD_SAMPLING_FREQ
              track_count := ((if byte_at data 69 > SACD_MAX_TRACKS then SACD_MAX_TRACKS
                else byte_at data 69 : Nat) : Int)
              start_lsn := be32_to_cpu data 72
              end_lsn := be32_to_cpu data 76 }) := by
  unfold parse_area_toc
  rw [if_neg (by unfold SACD_MAX_AREAS; omega), hread]
  simp only
  rw [if_neg (by
    intro h
    rcases hsig with h1 | h1
    · exact h.1 h1
    · exact h.2 h1)]

/-! ## C23 -/

theorem byte_at_lt (mem : List Nat) (h : ∀ b, b ∈ mem → b < 256) (i : Nat) :
    byte_at mem i < 256 := by
  unfold byte_at
  rw [List.getD_eq_getElem?_getD]
  cases hi : mem[i]? with
  | none => exact (by decide : (0 : Nat) < 256)
  | some b => exact h b (List.getElem?_mem hi)

theorem or_eq_add_of_lt (i a b x : Nat) (hx : x = 2 ^ i * a) (hb : b < 2 ^ i) :
    x ||| b = x + b := by
  rw [hx]
  exact (Nat.mul_add_lt_is_or hb a).symm

theorem be32_value (b0 b1 b2 b3 : Nat) (h0 : b0 < 256) (h1 : b1 < 256) (h2 : b2 < 256)
    (h3 : b3 < 256) :
    ((b0 <<< 24) ||| (b1 <<< 16) ||| (b2 <<< 8) ||| b3) % 2 ^ 32
      = b0 * 256 ^ 3 + (b1 * 256 ^ 2 + (b2 * 256 ^ 1 + (b3 * 256 ^ 0 + 0))) := by
  rw [Nat.shiftLeft_eq, Nat.shiftLeft_eq, Nat.shiftLeft_eq,
    or_eq_add_of_lt 24 b0 (b1 * 2 ^ 16) (b0 * 2 ^ 24) (by omega) (by omega),
    or_eq_add_of_lt 16 (b0 * 2 ^ 8 + b1) (b2 * 2 ^ 8) (b0 * 2 ^ 24 + b1 * 2 ^ 16) (by omega)
      (by omega),
    or_eq_add_of_lt 8 (b0 * 2 ^ 16 + b1 * 2 ^ 8 + b2) b3
      (b0 * 2 ^ 24 + b1 * 2 ^ 16 + b2 * 2 ^ 8) (by omega) (by omega),
    Nat.mod_eq_of_lt (by omega)]
  omega

/-- On bytes, the decoder `be32_to_cpu` of the code yields the big-endian
unsigned integer of the four bytes. -/
theorem be32_to_cpu_eq_read_be (mem : List Nat) (off : Nat) (h : ∀ b, b ∈ mem → b < 256) :
    be32_to_cpu mem off = read_be mem off 4 := by
  unfold be32_to_cpu
  exact be32_value _ _ _ _ (byte_at_lt mem h off) (byte_at_lt mem h (off + 1))
    (byte_at_lt mem h (off + 2)) (byte_at_lt mem h (off + 3))

/-- C23: for every area TOC that `parse_area_toc` accepts (index below
`SACD_MAX_AREAS`, sectors readable, signature present, a track array of 255
entries, the memory holding bytes), every scanned sector `k` that begins with
"SACDTRL1", with no such sector scanned after it, and every `i` below the
track count of the parsed area: `tracks[i].start_lsn` is the big-endian
unsigned integer of the 4 bytes at byte `8 + 4 i` of that sector,
`tracks[i].length_lsn` the big-endian unsigned integer of the 4 bytes at byte
`8 + 4 (255 + i)` of that sector, and `tracks[i].number = i`; the track count
is at most 255, so that both reads end inside the 2048 bytes of the sector. -/
theorem parse_area_toc_track_lsn (image junk : List Nat) (idx toc_start toc_size : Nat)
    (area : sacd_area_t) (data : List Nat) (k i : Nat) (hidx : idx < 2)
    (hread : read_sectors image toc_start toc_size = .ok data)
    (hsig : bytes_at data 0 8 = ascii "TWOCHTOC" ∨ bytes_at data 0 8 = ascii "MULCHTOC")
    (htracks : area.tracks.length = SACD_MAX_TRACKS)
    (hbytes : ∀ b, b ∈ data ++ junk → b < 256)
    (hk : k ∈ scanned_sectors (be16_to_cpu data 10))
    (hmark : bytes_at (data ++ junk) (k * SACD_LSN_SIZE) 8 = ascii "SACDTRL1")
    (hlast : ∀ k', k' ∈ scanned_sectors (be16_to_cpu data 10) → k < k' →
      bytes_at (data ++ junk) (k' * SACD_LSN_SIZE) 8 ≠ ascii "SACDTRL1")
    (hi : (i : Int) < (parse_area_toc image junk idx toc_start toc_size area).2.track_count) :
    (parse_area_toc image junk idx toc_start toc_size area).1 = SACD_RESULT_OK
      ∧ (((parse_area_toc image junk idx toc_start toc_size area).2.tracks.getD i {}).start_lsn
          = read_be (data ++ junk) (k * SACD_LSN_SIZE + (8 + 4 * i)) 4)
      ∧ (((parse_area_toc image junk idx toc_start toc_size area).2.tracks.getD i {}).length_lsn
          = read_be (data ++ junk) (k * SACD_LSN_SIZE + (8 + 4 * (255 + i))) 4)
      ∧ ((parse_area_toc image junk idx toc_start toc_size area).2.tracks.getD i {}).number = i
      ∧ (parse_area_toc image junk idx toc_start toc_size area).2.track_count ≤ 255
      ∧ 8 + 4 * i + 4 ≤ SACD_LSN_SIZE ∧ 8 + 4 * (255 + i) + 4 ≤ SACD_LSN_SIZE := by
  rw [parse_area_toc_eq image junk idx toc_start toc_size area data hidx hread hsig] at hi ⊢
  simp only at hi ⊢
  generalize harea1 : ({ area with
      channel_count := byte_at data 32
      sample_frequency := SACD_SAMPLING_FREQ
      track_count := ((if byte_at data 69 > SACD_MAX_TRACKS then SACD_MAX_TRACKS
        else byte_at data 69 : Nat) : Int)
      start_lsn := be32_to_cpu data 72
      end_lsn := be32_to_cpu data 76 } : sacd_area_t) = area1 at hi ⊢
  have hlen1 : area1.tracks.length = 255 := by
    rw [← harea1]
    exact htracks
  have hcount1 : area1.track_count ≤ 255 := by
    rw [← harea1]
    show ((if byte_at data 69 > SACD_MAX_TRACKS then SACD_MAX_TRACKS else byte_at data 69 : Nat)
      : Int) ≤ 255
    unfold SACD_MAX_TRACKS
    split <;> omega
  -- the scanned sectors before `k`, and those after it
  obtain ⟨hk1, hk2⟩ := List.mem_range'_1.mp hk
  have hsplit : scanned_sectors (be16_to_cpu data 10)
      = List.range' 1 (k - 1) ++ k :: List.range' (k + 1) (be16_to_cpu data 10 - 1 - k) := by
    unfold scanned_sectors
    have e1 : List.range' 1 (be16_to_cpu data 10 - 1)
        = List.range' 1 (k - 1) ++ List.range' (1 + 1 * (k - 1)) (be16_to_cpu data 10 - 1 - (k - 1)) := by
      rw [List.range'_append]
      congr 1
      omega
    have e2 : 1 + 1 * (k - 1) = k := by omega
    have e3 : be16_to_cpu data 10 - 1 - (k - 1) = (be16_to_cpu data 10 - 1 - k) + 1 := by omega
    rw [e1, e2, e3, List.range'_succ]
  rw [hsplit, List.foldl_append, List.foldl_cons] at hi ⊢
  generalize hpre : (List.range' 1 (k - 1)).foldl (scan_marker (data ++ junk)) area1 = area2
    at hi ⊢
  have hc2 := scan_fold_counts (data ++ junk) (List.range' 1 (k - 1)) area1
  rw [hpre] at hc2
  have hc3 := scan_marker_counts (data ++ junk) area2 k
  have hc4 := scan_fold_counts (data ++ junk)
    (List.range' (k + 1) (be16_to_cpu data 10 - 1 - k)) (scan_marker (data ++ junk) area2 k)
  have hcount : ((List.range' (k + 1) (be16_to_cpu data 10 - 1 - k)).foldl
      (scan_marker (data ++ junk)) (scan_marker (data ++ junk) area2 k)).track_count
      = area1.track_count := hc4.1.trans (hc3.1.trans hc2.1)
  rw [hcount] at hi ⊢
  have hi255 : i < 255 := by omega
  have hlen2 : i < area2.tracks.length := by
    rw [hc2.2.2, hlen1]
    exact hi255
  have hbound : i < track_loop_bound area2.track_count := by
    unfold track_loop_bound SACD_MAX_TRACKS
    rw [hc2.1]
    omega
  obtain ⟨hn, hs, hl⟩ := scan_marker_trl1 (data ++ junk) area2 k i hmark hbound hlen2
  obtain ⟨hn2, hs2, hl2⟩ := scan_fold_other (data ++ junk) i
    (List.range' (k + 1) (be16_to_cpu data 10 - 1 - k)) (scan_marker (data ++ junk) area2 k)
    (fun k' hk' => by
      obtain ⟨h1, h2⟩ := List.mem_range'_1.mp hk'
      apply hlast k' _ (by omega)
      unfold scanned_sectors
      rw [List.mem_range'_1]
      omega)
    (by rw [hc3.2.2]; exact hlen2)
  have e1 : k * SACD_LSN_SIZE + 8 + i * 4 = k * SACD_LSN_SIZE + (8 + 4 * i) := by omega
  have e2 : k * SACD_LSN_SIZE + 8 + (255 + i) * 4 = k * SACD_LSN_SIZE + (8 + 4 * (255 + i)) := by
    omega
  refine ⟨trivial, ?_, ?_, hn2.trans hn, hcount1, ?_, ?_⟩
  · rw [hs2, hs, e1]
    exact be32_to_cpu_eq_read_be _ _ hbytes
  · rw [hl2, hl, e2]
    exact be32_to_cpu_eq_read_be _ _ hbytes
  · unfold SACD_LSN_SIZE
    omega
  · unfold SACD_LSN_SIZE
    omega

set_option maxRecDepth 100000 in
theorem parse_area_toc_track_lsn_witness :
    ((parse_area_toc
        (toc_header_sector 2 2
          ++ marker_sector "SACDTRL1" [1, 2, 3, 4, 5, 6, 7, 8] [9, 10, 11, 12, 13, 14, 15, 16])
        [] 0 0 2 {}).2.tracks.getD 1 {}).start_lsn = 5 * 256 ^ 3 + 6 * 256 ^ 2 + 7 * 256 + 8
    ∧ ((parse_area_toc
        (toc_header_sector 2 2
          ++ marker_sector "SACDTRL1" [1, 2, 3, 4, 5, 6, 7, 8] [9, 10, 11, 12, 13, 14, 15, 16])
        [] 0 0 2 {}).2.tracks.getD 1 {}).length_lsn
      = 13 * 256 ^ 3 + 14 * 256 ^ 2 + 15 * 256 + 16 := by
  have h := parse_area_toc_track_lsn
    (toc_header_sector 2 2
      ++ marker_sector "SACDTRL1" [1, 2, 3, 4, 5, 6, 7, 8] [9, 10, 11, 12, 13, 14, 15, 16])
    [] 0 0 2 {}
    (bytes_at (toc_header_sector 2 2
      ++ marker_sector "SACDTRL1" [1, 2, 3, 4, 5, 6, 7, 8] [9, 10, 11, 12, 13, 14, 15, 16])
      (0 * SACD_LSN_SIZE) (2 * SACD_LSN_SIZE))
    1 1 (by decide)
    (read_sectors_ok _ 0 2 (by decide!) (by decide))
    (Or.inl (by decide!)) rfl (by decide!) (by decide!) (by decide!)
    (fun k' hk' hlt => by
      have hs : scanned_sectors (be16_to_cpu
          (bytes_at (toc_header_sector 2 2
            ++ marker_sector "SACDTRL1" [1, 2, 3, 4, 5, 6, 7, 8]
              [9, 10, 11, 12, 13, 14, 15, 16])
            (0 * SACD_LSN_SIZE) (2 * SACD_LSN_SIZE)) 10) = [1] := by decide!
      rw [hs, List.mem_singleton] at hk'
      omega)
    (by decide!)
  exact ⟨h.2.1.trans (by decide!), h.2.2.1.trans (by decide!)⟩
/-! ## The marker scan, sector by sector -/

theorem byte_at_in_sector (pre s post : List Nat) (o : Nat) (ho : o < s.length) :
    byte_at (pre ++ s ++ post) (pre.length + o) = byte_at s o := by
  rw [List.append_assoc, byte_at_append_right _ _ _ (by omega), Nat.add_sub_cancel_left,
    byte_at_append_left _ _ _ ho]

theorem be32_in_sector (pre s post : List Nat) (o : Nat) (ho : o + 3 < s.length) :
    be32_to_cpu (pre ++ s ++ post) (pre.length + o) = be32_to_cpu s o := by
  unfold be32_to_cpu
  rw [byte_at_in_sector pre s post o (by omega),
    show pre.length + o + 1 = pre.length + (o + 1) by omega,
    show pre.length + o + 2 = pre.length + (o + 2) by omega,
    show pre.length + o + 3 = pre.length + (o + 3) by omega,
    byte_at_in_sector pre s post (o + 1) (by omega),
    byte_at_in_sector pre s post (o + 2) (by omega),
    byte_at_in_sector pre s post (o + 3) (by omega)]

theorem bytes_at_in_sector (pre s post : List Nat) (n : Nat) (hn : n ≤ s.length) :
    bytes_at (pre ++ s ++ post) pre.length n = bytes_at s 0 n := by
  unfold bytes_at
  rw [List.append_assoc, List.drop_left' rfl, List.take_append_of_le_length hn, List.drop_zero]

theorem update_tracks_congr (n : Nat) (f g : Nat → sacd_track_t → sacd_track_t)
    (tracks : List sacd_track_t) (h : ∀ i t, i < n → f i t = g i t) :
    update_tracks n f tracks = update_tracks n g tracks := by
  unfold update_tracks
  apply List.ext_getElem?
  intro i
  rw [List.getElem?_mapIdx, List.getElem?_mapIdx]
  cases tracks[i]? with
  | none => rfl
  | some t =>
    simp only [Option.map_some']
    by_cases hi : i < n
    · rw [if_pos hi, if_pos hi, h i t hi]
    · rw [if_neg hi, if_neg hi]

theorem track_loop_bound_le (track_count : Int) : track_loop_bound track_count ≤ 255 := by
  unfold track_loop_bound SACD_MAX_TRACKS
  omega

/-- The scan of the sector with index `k` looks at that sector only: it is the
scan of the sector taken alone. -/
theorem scan_marker_in_sector (pre s post : List Nat) (area : sacd_area_t) (k : Nat)
    (hpre : pre.length = k * SACD_LSN_SIZE) (hs : s.length = SACD_LSN_SIZE) :
    scan_marker (pre ++ s ++ post) area k = scan_marker s area 0 := by
  have hb := track_loop_bound_le area.track_count
  have h2048 : SACD_LSN_SIZE = 2048 := rfl
  unfold scan_marker
  simp only [Nat.zero_mul]
  rw [← hpre, bytes_at_in_sector pre s post 8 (by omega)]
  have hlsn : update_tracks (track_loop_bound area.track_count)
        (set_track_lsn (pre ++ s ++ post) pre.length area.channel_count) area.tracks
      = update_tracks (track_loop_bound area.track_count)
        (set_track_lsn s 0 area.channel_count) area.tracks := by
    apply update_tracks_congr
    intro i t hi
    unfold set_track_lsn
    rw [show pre.length + 8 + i * 4 = pre.length + (8 + i * 4) by omega,
      show pre.length + 8 + (255 + i) * 4 = pre.length + (8 + (255 + i) * 4) by omega,
      be32_in_sector pre s post _ (by omega), be32_in_sector pre s post _ (by omega),
      show 0 + 8 + i * 4 = 8 + i * 4 by omega,
      show 0 + 8 + (255 + i) * 4 = 8 + (255 + i) * 4 by omega]
  have htime : update_tracks (track_loop_bound area.track_count)
        (set_track_time (pre ++ s ++ post) pre.length) area.tracks
      = update_tracks (track_loop_bound area.track_count) (set_track_time s 0) area.tracks := by
    apply update_tracks_congr
    intro i t hi
    unfold set_track_time
    rw [show pre.length + 8 + i * 4 = pre.length + (8 + i * 4) by omega,
      show pre.length + (8 + i * 4) + 1 = pre.length + (8 + i * 4 + 1) by omega,
      show pre.length + (8 + i * 4) + 2 = pre.length + (8 + i * 4 + 2) by omega,
      show pre.length + 8 + 255 * 4 + i * 4 = pre.length + (8 + 255 * 4 + i * 4) by omega,
      show pre.length + (8 + 255 * 4 + i * 4) + 1 = pre.length + (8 + 255 * 4 + i * 4 + 1) by
        omega,
      show pre.length + (8 + 255 * 4 + i * 4) + 2 = pre.length + (8 + 255 * 4 + i * 4 + 2) by
        omega,
      byte_at_in_sector pre s post _ (by omega), byte_at_in_sector pre s post _ (by omega),
      byte_at_in_sector pre s post _ (by omega), byte_at_in_sector pre s post _ (by omega),
      byte_at_in_sector pre s post _ (by omega), byte_at_in_sector pre s post _ (by omega)]
  rw [hlsn, htime]

/-- The scan of the sectors `secs` that lie in memory from sector index `m` on
is the scan of these sectors taken one by one. -/
theorem scan_fold_sectors (post : List Nat) :
    ∀ (secs : List (List Nat)) (pre : List Nat) (m : Nat) (area : sacd_area_t),
      pre.length = m * SACD_LSN_SIZE →
      (∀ s, s ∈ secs → s.length = SACD_LSN_SIZE) →
      (List.range' m secs.length).foldl (scan_marker (pre ++ secs.flatten ++ post)) area
        = secs.foldl (fun a s => scan_marker s a 0) area
  | [], _, _, _, _, _ => rfl
  | s :: rest, pre, m, area, hpre, hsecs => by
    have hs := hsecs s (List.mem_cons_self _ _)
    rw [List.length_cons, List.range'_succ, List.foldl_cons, List.foldl_cons, List.flatten_cons]
    have e1 : pre ++ (s ++ rest.flatten) ++ post = pre ++ s ++ (rest.flatten ++ post) := by
      simp only [List.append_assoc]
    have e2 : pre ++ (s ++ rest.flatten) ++ post = (pre ++ s) ++ rest.flatten ++ post := by
      simp only [List.append_assoc]
    rw [show scan_marker (pre ++ (s ++ rest.flatten) ++ post) area m = scan_marker s area 0 by
      rw [e1]
      exact scan_marker_in_sector pre s _ area m hpre hs]
    rw [e2]
    exact scan_fold_sectors post rest (pre ++ s) (m + 1) (scan_marker s area 0)
      (by
        rw [List.length_append, hpre, hs]
        ring)
      (fun x hx => hsecs x (List.mem_cons_of_mem _ hx))

theorem scan_marker_trl1_eq (mem : List Nat) (area : sacd_area_t) (k : Nat)
    (h : bytes_at mem (k * SACD_LSN_SIZE) 8 = ascii "SACDTRL1") :
    scan_marker mem area k
      = { area with
          tracks := update_tracks (track_loop_bound area.track_count)
            (set_track_lsn mem (k * SACD_LSN_SIZE) area.channel_count) area.tracks } := by
  unfold scan_marker
  simp only
  rw [if_pos h]

theorem scan_marker_trl2_eq (mem : List Nat) (area : sacd_area_t) (k : Nat)
    (h : bytes_at mem (k * SACD_LSN_SIZE) 8 = ascii "SACDTRL2") :
    scan_marker mem area k
      = { area with
          tracks := update_tracks (track_loop_bound area.track_count)
            (set_track_time mem (k * SACD_LSN_SIZE)) area.tracks } := by
  unfold scan_marker
  simp only
  rw [if_neg (by rw [h]; decide), if_pos h]

theorem scan_marker_ttxt_eq (mem : List Nat) (area : sacd_area_t) (k : Nat)
    (h : bytes_at mem (k * SACD_LSN_SIZE) 8 = ascii "SACDTTxt") :
    scan_marker mem area k
      = { area with
          tracks := update_tracks (track_loop_bound area.track_count)
            set_track_text area.tracks } := by
  unfold scan_marker
  simp only
  rw [if_neg (by rw [h]; decide), if_neg (by rw [h]; decide), if_pos h]

theorem scan_marker_other_eq (mem : List Nat) (area : sacd_area_t) (k : Nat)
    (h1 : bytes_at mem (k * SACD_LSN_SIZE) 8 ≠ ascii "SACDTRL1")
    (h2 : bytes_at mem (k * SACD_LSN_SIZE) 8 ≠ ascii "SACDTRL2")
    (h3 : bytes_at mem (k * SACD_LSN_SIZE) 8 ≠ ascii "SACDTTxt") :
    scan_marker mem area k = area := by
  unfold scan_marker
  simp only
  rw [if_neg h1, if_neg h2, if_neg h3]

theorem update_tracks_comm (n : Nat) (f g : Nat → sacd_track_t → sacd_track_t)
    (tracks : List sacd_track_t) (h : ∀ i t, f i (g i t) = g i (f i t)) :
    update_tracks n f (update_tracks n g tracks)
      = update_tracks n g (update_tracks n f tracks) := by
  unfold update_tracks
  apply List.ext_getElem?
  intro i
  simp only [List.getElem?_mapIdx]
  cases tracks[i]? with
  | none => rfl
  | some t =>
    simp only [Option.map_some']
    by_cases hi : i < n
    · simp only [if_pos hi, h i t]
    · simp only [if_neg hi]

/-- The scans of two sectors commute, unless both sectors begin with
"SACDTRL1" or both begin with "SACDTRL2" and they differ. -/
theorem scan_sector_comm (x y : List Nat) (z : sacd_area_t)
    (h1 : bytes_at x 0 8 = ascii "SACDTRL1" → bytes_at y 0 8 = ascii "SACDTRL1" → x = y)
    (h2 : bytes_at x 0 8 = ascii "SACDTRL2" → bytes_at y 0 8 = ascii "SACDTRL2" → x = y) :
    scan_marker y (scan_marker x z 0) 0 = scan_marker x (scan_marker y z 0) 0 := by
  have hz : ∀ s : List Nat, bytes_at s (0 * SACD_LSN_SIZE) 8 = bytes_at s 0 8 := by
    intro s
    rw [Nat.zero_mul]
  by_cases hxy : x = y
  · rw [hxy]
  by_cases hx1 : bytes_at x 0 8 = ascii "SACDTRL1"
  · by_cases hy1 : bytes_at y 0 8 = ascii "SACDTRL1"
    · exact absurd (h1 hx1 hy1) hxy
    · rw [scan_marker_trl1_eq x z 0 ((hz x).trans hx1),
        scan_marker_trl1_eq x _ 0 ((hz x).trans hx1)]
      by_cases hy2 : bytes_at y 0 8 = ascii "SACDTRL2"
      · rw [scan_marker_trl2_eq y z 0 ((hz y).trans hy2),
          scan_marker_trl2_eq y _ 0 ((hz y).trans hy2)]
        simp only
        congr 1
        apply update_tracks_comm
        intro i t
        rfl
      · by_cases hy3 : bytes_at y 0 8 = ascii "SACDTTxt"
        · rw [scan_marker_ttxt_eq y z 0 ((hz y).trans hy3),
            scan_marker_ttxt_eq y _ 0 ((hz y).trans hy3)]
          simp only
          congr 1
          apply update_tracks_comm
          intro i t
          rfl
        · rw [scan_marker_other_eq y z 0 (by rw [hz]; exact hy1) (by rw [hz]; exact hy2)
              (by rw [hz]; exact hy3),
            scan_marker_other_eq y _ 0 (by rw [hz]; exact hy1) (by rw [hz]; exact hy2)
              (by rw [hz]; exact hy3)]
  · by_cases hx2 : bytes_at x 0 8 = ascii "SACDTRL2"
    · rw [scan_marker_trl2_eq x z 0 ((hz x).trans hx2),
        scan_marker_trl2_eq x _ 0 ((hz x).trans hx2)]
      by_cases hy1 : bytes_at y 0 8 = ascii "SACDTRL1"
      · rw [scan_marker_trl1_eq y z 0 ((hz y).trans hy1),
          scan_marker_trl1_eq y _ 0 ((hz y).trans hy1)]
        simp only
        congr 1
        apply update_tracks_comm
        intro i t
        rfl
      · by_cases hy2 : bytes_at y 0 8 = ascii "SACDTRL2"
        · exact absurd (h2 hx2 hy2) hxy
        · by_cases hy3 : bytes_at y 0 8 = ascii "SACDTTxt"
          · rw [scan_marker_ttxt_eq y z 0 ((hz y).trans hy3),
              scan_marker_ttxt_eq y _ 0 ((hz y).trans hy3)]
            simp only
            congr 1
            apply update_tracks_comm
            intro i t
            rfl
          · rw [scan_marker_other_eq y z 0 (by rw [hz]; exact hy1) (by rw [hz]; exact hy2)
                (by rw [hz]; exact hy3),
              scan_marker_other_eq y _ 0 (by rw [hz]; exact hy1) (by rw [hz]; exact hy2)
                (by rw [hz]; exact hy3)]
    · by_cases hx3 : bytes_at x 0 8 = ascii "SACDTTxt"
      · rw [scan_marker_ttxt_eq x z 0 ((hz x).trans hx3),
          scan_marker_ttxt_eq x _ 0 ((hz x).trans hx3)]
        by_cases hy1 : bytes_at y 0 8 = ascii "SACDTRL1"
        · rw [scan_marker_trl1_eq y z 0 ((hz y).trans hy1),
            scan_marker_trl1_eq y _ 0 ((hz y).trans hy1)]
          simp only
          congr 1
          apply update_tracks_comm
          intro i t
          rfl
        · by_cases hy2 : bytes_at y 0 8 = ascii "SACDTRL2"
          · rw [scan_marker_trl2_eq y z 0 ((hz y).trans hy2),
              scan_marker_trl2_eq y _ 0 ((hz y).trans hy2)]
            simp only
            congr 1
            apply update_tracks_comm
            intro i t
            rfl
          · by_cases hy3 : bytes_at y 0 8 = ascii "SACDTTxt"
            · rw [scan_marker_ttxt_eq y z 0 ((hz y).trans hy3),
                scan_marker_ttxt_eq y _ 0 ((hz y).trans hy3)]
            · rw [scan_marker_other_eq y z 0 (by rw [hz]; exact hy1) (by rw [hz]; exact hy2)
                  (by rw [hz]; exact hy3),
                scan_marker_other_eq y _ 0 (by rw [hz]; exact hy1) (by rw [hz]; exact hy2)
                  (by rw [hz]; exact hy3)]
      · rw [scan_marker_other_eq x z 0 (by rw [hz]; exact hx1) (by rw [hz]; exact hx2)
            (by rw [hz]; exact hx3),
          scan_marker_other_eq x _ 0 (by rw [hz]; exact hx1) (by rw [hz]; exact hx2)
            (by rw [hz]; exact hx3)]

theorem eq_of_mem_of_length_le_one {α : Type} (l : List α) (a b : α) (h : l.length ≤ 1)
    (ha : a ∈ l) (hb : b ∈ l) : a = b := by
  cases l with
  | nil => cases ha
  | cons c rest =>
    cases rest with
    | nil =>
      rw [List.mem_singleton] at ha hb
      rw [ha, hb]
    | cons d rest2 =>
      simp only [List.length_cons] at h
      omega

theorem header_fields_of_append (hdr tail : List Nat) (hhdr : hdr.length = SACD_LSN_SIZE) :
    bytes_at (hdr ++ tail) 0 8 = bytes_at hdr 0 8
      ∧ be16_to_cpu (hdr ++ tail) 10 = be16_to_cpu hdr 10
      ∧ byte_at (hdr ++ tail) 32 = byte_at hdr 32
      ∧ byte_at (hdr ++ tail) 69 = byte_at hdr 69
      ∧ be32_to_cpu (hdr ++ tail) 72 = be32_to_cpu hdr 72
      ∧ be32_to_cpu (hdr ++ tail) 76 = be32_to_cpu hdr 76 := by
  have h2048 : SACD_LSN_SIZE = 2048 := rfl
  have hb : ∀ i, i < 2048 → byte_at (hdr ++ tail) i = byte_at hdr i := fun i hi =>
    byte_at_append_left _ _ _ (by omega)
  refine ⟨?_, ?_, hb 32 (by omega), hb 69 (by omega), ?_, ?_⟩
  · unfold bytes_at
    rw [List.drop_zero, List.drop_zero, List.take_append_of_le_length (by omega)]
  · unfold be16_to_cpu
    rw [hb 10 (by omega), hb 11 (by omega)]
  · unfold be32_to_cpu
    rw [hb 72 (by omega), hb 73 (by omega), hb 74 (by omega), hb 75 (by omega)]
  · unfold be32_to_cpu
    rw [hb 76 (by omega), hb 77 (by omega), hb 78 (by omega), hb 79 (by omega)]

/-- What `parse_area_toc` returns when the scanned sectors `secs` follow the
first sector `hdr` in the TOC buffer. -/
theorem parse_area_toc_sectors (image junk : List Nat) (idx toc_start toc_size : Nat)
    (area : sacd_area_t) (hdr : List Nat) (secs : List (List Nat)) (rest : List Nat)
    (hidx : idx < 2)
    (hread : read_sectors image toc_start toc_size = .ok (hdr ++ secs.flatten ++ rest))
    (hhdr : hdr.length = SACD_LSN_SIZE)
    (hsecs : ∀ s, s ∈ secs → s.length = SACD_LSN_SIZE)
    (hscan : be16_to_cpu hdr 10 = secs.length + 1) :
    parse_area_toc image junk idx toc_start toc_size area
      = if bytes_at hdr 0 8 ≠ ascii "TWOCHTOC" ∧ bytes_at hdr 0 8 ≠ ascii "MULCHTOC" then
          (SACD_RESULT_INVALID_FILE, area)
        else
          (SACD_RESULT_OK,
            secs.foldl (fun a s => scan_marker s a 0)
              { area with
                channel_count := byte_at hdr 32
                sample_frequency := SACD_SAMPLING_FREQ
                track_count := ((if byte_at hdr 69 > SACD_MAX_TRACKS then SACD_MAX_TRACKS
                  else byte_at hdr 69 : Nat) : Int)
                start_lsn := be32_to_cpu hdr 72
                end_lsn := be32_to_cpu hdr 76 }) := by
  obtain ⟨f1, f2, f3, f4, f5, f6⟩ :=
    header_fields_of_append hdr (secs.flatten ++ rest) hhdr
  rw [← List.append_assoc] at f1 f2 f3 f4 f5 f6
  by_cases hsig : bytes_at hdr 0 8 ≠ ascii "TWOCHTOC" ∧ bytes_at hdr 0 8 ≠ ascii "MULCHTOC"
  · rw [if_pos hsig]
    unfold parse_area_toc
    rw [if_neg (by unfold SACD_MAX_AREAS; omega), hread]
    simp only
    rw [f1, if_pos hsig]
  · rw [if_neg hsig]
    have hsig2 : bytes_at (hdr ++ secs.flatten ++ rest) 0 8 = ascii "TWOCHTOC"
        ∨ bytes_at (hdr ++ secs.flatten ++ rest) 0 8 = ascii "MULCHTOC" := by
      rw [f1]
      by_contra hc
      exact hsig ⟨fun h => hc (Or.inl h), fun h => hc (Or.inr h)⟩
    rw [parse_area_toc_eq image junk idx toc_start toc_size area _ hidx hread hsig2,
      f2, f3, f4, f5, f6, hscan]
    have hrange : scanned_sectors (secs.length + 1) = List.range' 1 secs.length := by
      unfold scanned_sectors
      rw [Nat.add_sub_cancel]
    have hmem : hdr ++ secs.flatten ++ rest ++ junk = hdr ++ secs.flatten ++ (rest ++ junk) := by
      simp only [List.append_assoc]
    rw [hrange, hmem, scan_fold_sectors (rest ++ junk) secs hdr 1 _ (by rw [hhdr, Nat.one_mul])
      hsecs]

/-! ## C24 -/

/-- C24: area TOC parsing does not depend on the order of the scanned sectors.
The two TOC buffers begin with the same first sector `hdr`, whose size field
makes the scan cover the sectors that follow it, `secs` in one buffer and a
permutation `secs'` of them in the other. When at most one of these sectors
begins with "SACDTRL1" and at most one with "SACDTRL2", `parse_area_toc`
returns the same result and the same area for both buffers. (No condition on
"SACDTTxt" is needed.) -/
theorem parse_area_toc_order_independent (image image' junk junk' : List Nat)
    (idx toc_start toc_start' toc_size toc_size' : Nat) (area : sacd_area_t)
    (hdr : List Nat) (secs secs' : List (List Nat)) (rest rest' : List Nat)
    (hidx : idx < 2)
    (hread : read_sectors image toc_start toc_size = .ok (hdr ++ secs.flatten ++ rest))
    (hread' : read_sectors image' toc_start' toc_size' = .ok (hdr ++ secs'.flatten ++ rest'))
    (hhdr : hdr.length = SACD_LSN_SIZE)
    (hsecs : ∀ s, s ∈ secs → s.length = SACD_LSN_SIZE)
    (hscan : be16_to_cpu hdr 10 = secs.length + 1)
    (hperm : secs.Perm secs')
    (hone1 : (secs.filter (fun s => decide (bytes_at s 0 8 = ascii "SACDTRL1"))).length ≤ 1)
    (hone2 : (secs.filter (fun s => decide (bytes_at s 0 8 = ascii "SACDTRL2"))).length ≤ 1) :
    parse_area_toc image junk idx toc_start toc_size area
      = parse_area_toc image' junk' idx toc_start' toc_size' area := by
  rw [parse_area_toc_sectors image junk idx toc_start toc_size area hdr secs rest hidx hread
      hhdr hsecs hscan,
    parse_area_toc_sectors image' junk' idx toc_start' toc_size' area hdr secs' rest' hidx
      hread' hhdr (fun s hs => hsecs s (hperm.mem_iff.mpr hs))
      (by rw [hscan, hperm.length_eq])]
  have hfold : ∀ a : sacd_area_t,
      secs.foldl (fun a s => scan_marker s a 0) a
        = secs'.foldl (fun a s => scan_marker s a 0) a := by
    intro a
    refine List.Perm.foldl_eq' hperm (fun x hx y hy z => ?_) a
    apply scan_sector_comm
    · intro h1 h2
      exact eq_of_mem_of_length_le_one _ x y hone1
        (List.mem_filter.mpr ⟨hx, decide_eq_true h1⟩)
        (List.mem_filter.mpr ⟨hy, decide_eq_true h2⟩)
    · intro h1 h2
      exact eq_of_mem_of_length_le_one _ x y hone2
        (List.mem_filter.mpr ⟨hx, decide_eq_true h1⟩)
        (List.mem_filter.mpr ⟨hy, decide_eq_true h2⟩)
  rw [hfold]

/-- An image that consists of `n` sectors is what reading `n` sectors from
sector 0 delivers. -/
theorem read_sectors_whole (image : List Nat) (n : Nat)
    (hlen : image.length = n * SACD_LSN_SIZE) (hn : n ≤ 2 ^ 32) :
    read_sectors image 0 n = .ok image := by
  rw [read_sectors_ok image 0 n (by rw [Nat.zero_add, hlen]) (by omega)]
  unfold bytes_at
  rw [Nat.zero_mul, List.drop_zero, List.take_of_length_le (by omega)]

set_option maxRecDepth 100000 in
theorem parse_area_toc_order_independent_witness :
    parse_area_toc
        (toc_header_sector 3 1
          ++ [marker_sector "SACDTRL1" [0, 0, 0, 9] [0, 0, 0, 5],
              marker_sector "SACDTRL2" [1, 2, 3, 0] [0, 4, 5, 0]].flatten ++ [])
        [] 0 0 3 {}
      = parse_area_toc
        (toc_header_sector 3 1
          ++ [marker_sector "SACDTRL2" [1, 2, 3, 0] [0, 4, 5, 0],
              marker_sector "SACDTRL1" [0, 0, 0, 9] [0, 0, 0, 5]].flatten ++ [])
        [] 0 0 3 {} :=
  parse_area_toc_order_independent _ _ [] [] 0 0 0 3 3 {}
    (toc_header_sector 3 1)
    [marker_sector "SACDTRL1" [0, 0, 0, 9] [0, 0, 0, 5],
      marker_sector "SACDTRL2" [1, 2, 3, 0] [0, 4, 5, 0]]
    [marker_sector "SACDTRL2" [1, 2, 3, 0] [0, 4, 5, 0],
      marker_sector "SACDTRL1" [0, 0, 0, 9] [0, 0, 0, 5]]
    [] [] (by decide)
    (read_sectors_whole _ 3 (by decide!) (by decide))
    (read_sectors_whole _ 3 (by decide!) (by decide))
    (by decide!)
    (fun s hs => by
      rw [List.mem_cons, List.mem_singleton] at hs
      rcases hs with h | h <;> rw [h] <;> decide!)
    (by decide!)
    (List.Perm.swap _ _ [])
    (by decide!) (by decide!)
/-! ## The worker: progress callbacks -/

/-- One iteration of the sector loop: the loop ends at the check of the cancel
flag, or returns after a failed read, or skips the sector after a failed
allocation, or returns after a failed write, or goes on after
`report_progress`. -/
theorem sector_loop_step (env : worker_env) (track_index : Int) (track : sacd_track_t)
    (lsn : Nat) (rest : List Nat) (ws : worker_state) (tio : track_io) :
    sector_loop env track_index track (lsn :: rest) ws tio
        = (none, log ws (worker_event.cancel_check true), tio)
      ∨ (∃ e f, sector_loop env track_index track (lsn :: rest) ws tio
          = (some e, log (log (log ws (worker_event.cancel_check false))
              (worker_event.sector_read lsn false)) (worker_event.file_close track_index f),
              tio))
      ∨ (env.heap_ok = false
          ∧ sector_loop env track_index track (lsn :: rest) ws tio
            = sector_loop env track_index track rest
                (log (log ws (worker_event.cancel_check false))
                  (worker_event.sector_read lsn true)) tio)
      ∨ (∃ e f tio1, sector_loop env track_index track (lsn :: rest) ws tio
          = (some e, log (log (log ws (worker_event.cancel_check false))
              (worker_event.sector_read lsn true)) (worker_event.file_close track_index f),
              tio1))
      ∨ (∃ tio1, tio1.sectors_processed = tio.sectors_processed
          ∧ sector_loop env track_index track (lsn :: rest) ws tio
            = sector_loop env track_index track rest
                (report_progress env track (log (log ws (worker_event.cancel_check false))
                  (worker_event.sector_read lsn true)) tio1).1
                (report_progress env track (log (log ws (worker_event.cancel_check false))
                  (worker_event.sector_read lsn true)) tio1).2) := by
  have hwrite : ∀ (data : List Nat) (w : worker_state),
      (∃ f tio1, write_audio track_index data w tio
          = (some SACD_RESULT_IO_ERROR, log w (worker_event.file_close track_index f), tio1))
      ∨ (∃ tio1, tio1.sectors_processed = tio.sectors_processed
          ∧ write_audio track_index data w tio = (none, w, tio1)) := by
    intro data w
    unfold write_audio
    split
    rename_i n file1 _
    split
    · exact Or.inl ⟨_, _, rfl⟩
    · exact Or.inr ⟨{ tio with file := file1,
                               bytes_written := tio.bytes_written + data.length }, rfl, rfl⟩
  cases hflag : flag_set_at env.cancel_at ws.trace.length with
  | true =>
    simp only [sector_loop, cancel_seen, hflag]
    exact Or.inl trivial
  | false =>
    simp only [sector_loop, cancel_seen, hflag]
    right
    cases hrd : read_sector env.image lsn with
    | error e =>
      simp only
      exact Or.inl ⟨_, _, rfl⟩
    | ok sector =>
      simp only
      right
      cases hex : sacd_internal_extract_dsd_from_sector env.heap_ok
          (sector ++ env.sector_junk) with
      | none =>
        simp only
        refine Or.inl ⟨?_, trivial⟩
        unfold sacd_internal_extract_dsd_from_sector at hex
        cases hh : env.heap_ok with
        | false => rfl
        | true =>
          rw [hh] at hex
          simp at hex
      | some audio_data =>
        simp only
        right
        split
        · split
          · rename_i decompressed_data _
            rcases hwrite decompressed_data (log (log ws (worker_event.cancel_check false))
              (worker_event.sector_read lsn true)) with ⟨f, tio1, hw⟩ | ⟨tio1, hsp, hw⟩
            · rw [hw]
              exact Or.inl ⟨_, _, _, rfl⟩
            · rw [hw]
              exact Or.inr ⟨tio1, hsp, rfl⟩
          · exact Or.inr ⟨tio, rfl, rfl⟩
        · rcases hwrite audio_data (log (log ws (worker_event.cancel_check false))
            (worker_event.sector_read lsn true)) with ⟨f, tio1, hw⟩ | ⟨tio1, hsp, hw⟩
          · rw [hw]
            exact Or.inl ⟨_, _, _, rfl⟩
          · rw [hw]
            exact Or.inr ⟨tio1, hsp, rfl⟩

/-- What `report_progress` does: it counts the sector, and issues the progress
callback with the new track percentage when a callback is installed and the
percentage differs from the value found in `last_reported_progress`, which
then takes that value. -/
theorem report_progress_spec (env : worker_env) (track : sacd_track_t) (ws : worker_state)
    (tio : track_io) :
    (report_progress env track ws tio).2.sectors_processed = tio.sectors_processed + 1
      ∧ (report_progress env track ws tio).1.ex.current_track_index
          = ws.ex.current_track_index
      ∧ (report_progress env track ws tio).1.ex.track_queue_count = ws.ex.track_queue_count
      ∧ (report_progress env track ws tio).1.ex.progress_callback = ws.ex.progress_callback
      ∧ (ws.ex.progress_callback = true →
          (report_progress env track ws tio).1.last_reported_progress
            = (((tio.sectors_processed + 1) * 100 / track.length_lsn : Nat) : Int))
      ∧ ((report_progress env track ws tio).1.trace = ws.trace
          ∨ (ws.ex.progress_callback = true
              ∧ (((tio.sectors_processed + 1) * 100 / track.length_lsn : Nat) : Int)
                  ≠ (env.other_progress ws.trace.length).getD ws.last_reported_progress
              ∧ ∃ title megabytes, (report_progress env track ws tio).1.trace
                  = ws.trace ++ [worker_event.progress (track.number + 1)
                      ws.ex.track_queue_count
                      (((tio.sectors_processed + 1) * 100 / track.length_lsn : Nat) : Int)
                      (Int.tdiv (ws.ex.current_track_index * 100
                        + (((tio.sectors_processed + 1) * 100 / track.length_lsn : Nat) : Int))
                        ws.ex.track_queue_count)
                      (status_text.extracting (ws.ex.current_track_index + 1)
                        ws.ex.track_queue_count title
                        (((tio.sectors_processed + 1) * 100 / track.length_lsn : Nat) : Int)
                        megabytes)])) := by
  unfold report_progress
  simp only
  split
  · rename_i h
    refine ⟨rfl, rfl, rfl, rfl, fun _ => rfl, Or.inr ⟨h.1, h.2, _, _, rfl⟩⟩
  · rename_i h
    refine ⟨rfl, rfl, rfl, rfl, fun hcb => ?_, Or.inl rfl⟩
    by_contra hne
    exact h ⟨hcb, fun heq => hne heq.symm⟩

theorem progress_reports_append (a b : List worker_event) :
    progress_reports (a ++ b) = progress_reports a ++ progress_reports b := by
  unfold progress_reports
  exact List.filterMap_append _ _ _

theorem each_track_progress_append (P : worker_event → worker_event → Prop)
    (a b : List worker_event) (ha : each_track_progress P a) (hb : each_track_progress P b) :
    each_track_progress P (a ++ b) := by
  intro j e hj he
  by_cases hlt : j < a.length
  · rw [List.getElem?_append_left hlt] at hj
    obtain ⟨h1, prev, h2, h3⟩ := ha j e hj he
    exact ⟨h1, prev, by rw [List.getElem?_append_left (by omega)]; exact h2, h3⟩
  · rw [List.getElem?_append_right (by omega)] at hj
    obtain ⟨h1, prev, h2, h3⟩ := hb (j - a.length) e hj he
    refine ⟨by omega, prev, ?_, h3⟩
    rw [List.getElem?_append_right (by omega)]
    have e1 : j - 1 - a.length = j - a.length - 1 := by omega
    rw [e1]
    exact h2

/-- A list of steps without progress callbacks of a track. -/
theorem each_track_progress_plain (P : worker_event → worker_event → Prop)
    (a : List worker_event) (h : ∀ e, e ∈ a → is_track_progress e = false) :
    each_track_progress P a := by
  intro j e hj he
  have hmem : e ∈ a := List.getElem?_mem hj
  rw [h e hmem] at he
  cases he

theorem progress_reports_plain (a : List worker_event)
    (h : ∀ e, e ∈ a → is_track_progress e = false) : progress_reports a = [] := by
  unfold progress_reports
  rw [List.filterMap_eq_nil_iff]
  intro e he
  have := h e he
  cases e with
  | progress tn tot tp op st =>
    cases st with
    | extracting a b c d m => cases this
    | cancelled => rfl
    | completed => rfl
  | _ => rfl

theorem each_track_progress_mono (P Q : worker_event → worker_event → Prop)
    (a : List worker_event) (hPQ : ∀ prev e, P prev e → Q prev e)
    (h : each_track_progress P a) : each_track_progress Q a := by
  intro j e hj he
  obtain ⟨h1, prev, h2, h3⟩ := h j e hj he
  exact ⟨h1, prev, h2, hPQ prev e h3⟩

theorem track_percentages_append (a b : List worker_event) :
    track_percentages (a ++ b) = track_percentages a ++ track_percentages b := by
  unfold track_percentages
  rw [progress_reports_append, List.map_append]

theorem track_percentages_plain (a : List worker_event)
    (h : ∀ e, e ∈ a → is_track_progress e = false) : track_percentages a = [] := by
  unfold track_percentages
  rw [progress_reports_plain a h]
  rfl

/-- The progress callbacks of the sector loop, when the loop is at the sectors
`start_lsn + sectors_processed`, ... of the track: each follows the read of
the sector it counts and reports the percentages of `track_progress_values`.
When no other worker stores to `last_reported_progress`, the track percentages
increase strictly, and they lie above the percentage of `sectors_processed`
when that is the value of `last_reported_progress`. -/
theorem sector_loop_progress (env : worker_env) (track_index : Int) (track : sacd_track_t)
    (hheap : env.heap_ok = true) :
    ∀ (lsns : List Nat) (ws : worker_state) (tio : track_io) (m : Nat),
      lsns = List.range' (track.start_lsn + tio.sectors_processed) m →
      tio.sectors_processed + m ≤ track.length_lsn →
      ∃ new, (sector_loop env track_index track lsns ws tio).2.1.trace = ws.trace ++ new
        ∧ each_track_progress (track_progress_values track ws.ex.current_track_index
            ws.ex.track_queue_count) new
        ∧ ((∀ n, env.other_progress n = none) →
            List.Pairwise (fun a b => a < b) (track_percentages new)
            ∧ ((ws.ex.progress_callback = true → ws.last_reported_progress
                  = ((tio.sectors_processed * 100 / track.length_lsn : Nat) : Int)) →
                ∀ p, p ∈ track_percentages new →
                  ((tio.sectors_processed * 100 / track.length_lsn : Nat) : Int) < p)) := by
  intro lsns
  induction lsns with
  | nil =>
    intro ws tio m _ _
    refine ⟨[], ?_, ?_, fun _ => ⟨?_, ?_⟩⟩
    · simp only [sector_loop, List.append_nil]
    · exact each_track_progress_plain _ _ (fun e he => by cases he)
    · exact List.Pairwise.nil
    · intro _ p hp
      cases hp
  | cons lsn rest ih =>
    intro ws tio m hl hm
    have hplain : ∀ (l : List worker_event), (∀ e, e ∈ l → is_track_progress e = false) →
        (sector_loop env track_index track (lsn :: rest) ws tio).2.1.trace = ws.trace ++ l →
        ∃ new, (sector_loop env track_index track (lsn :: rest) ws tio).2.1.trace
            = ws.trace ++ new
          ∧ each_track_progress (track_progress_values track ws.ex.current_track_index
              ws.ex.track_queue_count) new
          ∧ ((∀ n, env.other_progress n = none) →
              List.Pairwise (fun a b => a < b) (track_percentages new)
              ∧ ((ws.ex.progress_callback = true → ws.last_reported_progress
                    = ((tio.sectors_processed * 100 / track.length_lsn : Nat) : Int)) →
                  ∀ p, p ∈ track_percentages new →
                    ((tio.sectors_processed * 100 / track.length_lsn : Nat) : Int) < p)) := by
      intro l hl1 hl2
      refine ⟨l, hl2, each_track_progress_plain _ _ hl1, fun _ => ⟨?_, ?_⟩⟩
      · rw [track_percentages_plain l hl1]
        exact List.Pairwise.nil
      · intro _ p hp
        rw [track_percentages_plain l hl1] at hp
        cases hp
    rcases sector_loop_step env track_index track lsn rest ws tio with
      h | ⟨e, f, h⟩ | ⟨hh, _⟩ | ⟨e, f, tio1, h⟩ | ⟨tio1, hsp, h⟩
    · apply hplain [worker_event.cancel_check true]
      · intro e he
        simp only [List.mem_singleton] at he
        rw [he]
        rfl
      · rw [h]
        rfl
    · apply hplain [worker_event.cancel_check false, worker_event.sector_read lsn false,
        worker_event.file_close track_index f]
      · intro e he
        simp only [List.mem_cons, List.mem_singleton, List.not_mem_nil, or_false] at he
        rcases he with he | he | he <;> rw [he] <;> rfl
      · rw [h]
        simp only [log, List.append_assoc, List.cons_append, List.nil_append]
    · rw [hheap] at hh
      cases hh
    · apply hplain [worker_event.cancel_check false, worker_event.sector_read lsn true,
        worker_event.file_close track_index f]
      · intro e he
        simp only [List.mem_cons, List.mem_singleton, List.not_mem_nil, or_false] at he
        rcases he with he | he | he <;> rw [he] <;> rfl
      · rw [h]
        simp only [log, List.append_assoc, List.cons_append, List.nil_append]
    · -- the sector is counted
      cases m with
      | zero => simp only [List.range'_zero] at hl; cases hl
      | succ m1 =>
        rw [List.range'_succ] at hl
        injection hl with hlsn hrest
        have hspec := report_progress_spec env track
          (log (log ws (worker_event.cancel_check false))
            (worker_event.sector_read lsn true)) tio1
        generalize hws' : (report_progress env track
          (log (log ws (worker_event.cancel_check false))
            (worker_event.sector_read lsn true)) tio1).1 = ws' at h hspec
        generalize htio' : (report_progress env track
          (log (log ws (worker_event.cancel_check false))
            (worker_event.sector_read lsn true)) tio1).2 = tio' at h hspec
        obtain ⟨hsp', hidx, hcnt, hcb, hlast, htrace⟩ := hspec
        rw [hsp] at hsp' hlast htrace
        have hidx2 : ws'.ex.current_track_index = ws.ex.current_track_index := hidx
        have hcnt2 : ws'.ex.track_queue_count = ws.ex.track_queue_count := hcnt
        have hcb2 : ws'.ex.progress_callback = ws.ex.progress_callback := hcb
        have hrest2 : rest = List.range' (track.start_lsn + tio'.sectors_processed) m1 := by
          rw [hrest, hsp']
          rfl
        obtain ⟨new', hn1, hn2, hquiet'⟩ := ih ws' tio' m1 hrest2 (by omega)
        rw [hidx2, hcnt2] at hn2
        rw [hcb2, hsp'] at hquiet'
        have hmono : ((tio.sectors_processed * 100 / track.length_lsn : Nat) : Int)
            ≤ (((tio.sectors_processed + 1) * 100 / track.length_lsn : Nat) : Int) := by
          apply Int.ofNat_le.mpr
          apply Nat.div_le_div_right
          omega
        have hhead : ∀ e, e ∈ [worker_event.cancel_check false,
            worker_event.sector_read lsn true] → is_track_progress e = false := by
          intro e he
          simp only [List.mem_cons, List.mem_singleton, List.not_mem_nil, or_false] at he
          rcases he with he | he <;> rw [he] <;> rfl
        rcases htrace with ht | ⟨hcbt, hne, title, megabytes, ht⟩
        · -- no callback for this sector
          refine ⟨[worker_event.cancel_check false, worker_event.sector_read lsn true]
            ++ new', ?_, ?_, fun hquiet => ⟨?_, ?_⟩⟩
          · rw [h, hn1, ht]
            simp only [log, List.append_assoc, List.cons_append, List.nil_append]
          · exact each_track_progress_append _ _ _ (each_track_progress_plain _ _ hhead) hn2
          · rw [track_percentages_append, track_percentages_plain _ hhead, List.nil_append]
            exact (hquiet' hquiet).1
          · intro _ p hp
            rw [track_percentages_append, track_percentages_plain _ hhead,
              List.nil_append] at hp
            exact lt_of_le_of_lt hmono ((hquiet' hquiet).2 hlast p hp)
        · -- the callback is issued
          refine ⟨[worker_event.cancel_check false, worker_event.sector_read lsn true,
            worker_event.progress (track.number + 1) ws.ex.track_queue_count
              (((tio.sectors_processed + 1) * 100 / track.length_lsn : Nat) : Int)
              (Int.tdiv (ws.ex.current_track_index * 100
                + (((tio.sectors_processed + 1) * 100 / track.length_lsn : Nat) : Int))
                ws.ex.track_queue_count)
              (status_text.extracting (ws.ex.current_track_index + 1)
                ws.ex.track_queue_count title
                (((tio.sectors_processed + 1) * 100 / track.length_lsn : Nat) : Int)
                megabytes)] ++ new', ?_, ?_, fun hquiet => ⟨?_, ?_⟩⟩
          · rw [h, hn1, ht]
            simp only [log, List.append_assoc, List.cons_append, List.nil_append]
          · refine each_track_progress_append _ _ _ ?_ hn2
            intro j e hj he
            match j, hj with
            | 0, hj =>
              simp only [List.getElem?_cons_zero, Option.some.injEq] at hj
              rw [← hj] at he
              cases he
            | 1, hj =>
              simp only [List.getElem?_cons_succ, List.getElem?_cons_zero,
                Option.some.injEq] at hj
              rw [← hj] at he
              cases he
            | 2, hj =>
              simp only [List.getElem?_cons_succ, List.getElem?_cons_zero,
                Option.some.injEq] at hj
              refine ⟨by omega, worker_event.sector_read lsn true, rfl, ?_⟩
              rw [← hj]
              refine ⟨tio.sectors_processed + 1, by omega, by omega, ?_, rfl, rfl, rfl,
                rfl, rfl⟩
              rw [hlsn]
              rfl
            | j + 3, hj =>
              simp only [List.getElem?_cons_succ, List.getElem?_nil] at hj
              cases hj
          · have hsplit : track_percentages ([worker_event.cancel_check false,
                worker_event.sector_read lsn true,
                worker_event.progress (track.number + 1) ws.ex.track_queue_count
                  (((tio.sectors_processed + 1) * 100 / track.length_lsn : Nat) : Int)
                  (Int.tdiv (ws.ex.current_track_index * 100
                    + (((tio.sectors_processed + 1) * 100 / track.length_lsn : Nat) : Int))
                    ws.ex.track_queue_count)
                  (status_text.extracting (ws.ex.current_track_index + 1)
                    ws.ex.track_queue_count title
                    (((tio.sectors_processed + 1) * 100 / track.length_lsn : Nat) : Int)
                    megabytes)] ++ new')
                = (((tio.sectors_processed + 1) * 100 / track.length_lsn : Nat) : Int)
                    :: track_percentages new' := by
              rw [track_percentages_append]
              rfl
            rw [hsplit]
            exact List.Pairwise.cons ((hquiet' hquiet).2 hlast) (hquiet' hquiet).1
          · intro hJ p hp
            have hsplit : track_percentages ([worker_event.cancel_check false,
                worker_event.sector_read lsn true,
                worker_event.progress (track.number + 1) ws.ex.track_queue_count
                  (((tio.sectors_processed + 1) * 100 / track.length_lsn : Nat) : Int)
                  (Int.tdiv (ws.ex.current_track_index * 100
                    + (((tio.sectors_processed + 1) * 100 / track.length_lsn : Nat) : Int))
                    ws.ex.track_queue_count)
                  (status_text.extracting (ws.ex.current_track_index + 1)
                    ws.ex.track_queue_count title
                    (((tio.sectors_processed + 1) * 100 / track.length_lsn : Nat) : Int)
                    megabytes)] ++ new')
                = (((tio.sectors_processed + 1) * 100 / track.length_lsn : Nat) : Int)
                    :: track_percentages new' := by
              rw [track_percentages_append]
              rfl
            rw [hsplit] at hp
            have hlt : ((tio.sectors_processed * 100 / track.length_lsn : Nat) : Int)
                < (((tio.sectors_processed + 1) * 100 / track.length_lsn : Nat) : Int) := by
              have h1 := hJ hcbt
              have h2 : (((tio.sectors_processed + 1) * 100 / track.length_lsn : Nat) : Int)
                  ≠ ((tio.sectors_processed * 100 / track.length_lsn : Nat) : Int) := by
                intro heq
                apply hne
                rw [heq, hquiet]
                exact h1.symm
              omega
            rcases List.mem_cons.mp hp with hp1 | hp1
            · rw [hp1]
              exact hlt
            · exact lt_trans hlt ((hquiet' hquiet).2 hlast p hp1)

theorem announce_track_steps (track_index : Int) (track : sacd_track_t) (ws : worker_state) :
    (announce_track track_index track ws).ex = ws.ex
      ∧ ∃ l, (announce_track track_index track ws).trace = ws.trace ++ l
          ∧ ∀ e, e ∈ l → is_track_progress e = false := by
  unfold announce_track
  split
  · refine ⟨rfl, [worker_event.track_start track_index (track.number + 1)], rfl, ?_⟩
    intro e he
    simp only [List.mem_singleton] at he
    rw [he]
    rfl
  · exact ⟨rfl, [], (List.append_nil _).symm, fun e he => by cases he⟩

theorem open_output_steps (env : worker_env) (track_index : Int) (track : sacd_track_t)
    (ws1 : worker_state) :
    (∀ r, open_output env track_index track ws1 = .error r →
        ∃ l, r.2.trace = ws1.trace ++ l ∧ ∀ e, e ∈ l → is_track_progress e = false)
    ∧ (∀ p, open_output env track_index track ws1 = .ok p →
        env.heap_ok = true ∧ p.1.ex.current_track_index = ws1.ex.current_track_index
        ∧ ∃ l, p.1.trace = ws1.trace ++ l ∧ ∀ e, e ∈ l → is_track_progress e = false) := by
  unfold open_output
  simp only
  split
  · refine ⟨fun r h => ?_, fun p h => by cases h⟩
    injection h with h
    rw [← h]
    refine ⟨[worker_event.file_open track_index false], rfl, ?_⟩
    intro e he
    simp only [List.mem_singleton] at he
    rw [he]
    rfl
  · split <;>
    · split
      · refine ⟨fun r h => ?_, fun p h => by cases h⟩
        injection h with h
        rw [← h]
        refine ⟨[_, _], List.append_assoc _ [_] [_], ?_⟩
        · intro e he
          simp only [List.mem_cons, List.mem_singleton, List.not_mem_nil, or_false] at he
          rcases he with he | he <;> rw [he] <;> rfl
      · split
        · refine ⟨fun r h => ?_, fun p h => by cases h⟩
          injection h with h
          rw [← h]
          refine ⟨[_, _], List.append_assoc _ [_] [_], ?_⟩
          · intro e he
            simp only [List.mem_cons, List.mem_singleton, List.not_mem_nil, or_false] at he
            rcases he with he | he <;> rw [he] <;> rfl
        · rename_i hheap
          refine ⟨fun r h => (by cases h), fun p h => ?_⟩
          injection h with h
          rw [← h]
          refine ⟨?_, rfl, [worker_event.file_open track_index true], rfl, ?_⟩
          · cases hh : env.heap_ok with
            | true => rfl
            | false =>
              rw [hh] at hheap
              exact absurd (by decide) hheap
          · intro e he
            simp only [List.mem_singleton] at he
            rw [he]
            rfl

theorem finish_track_steps (track_index : Int) (track : sacd_track_t)
    (ws4 : worker_state) (tio : track_io) :
    ∃ l, (finish_track track_index track ws4 tio).2.trace = ws4.trace ++ l
      ∧ ∀ e, e ∈ l → is_track_progress e = false := by
  unfold finish_track
  split
  rename_i result1 file2 _
  simp only
  split
  · split
    · refine ⟨[worker_event.finalize tio.bytes_written result1,
        worker_event.file_close track_index file2,
        worker_event.track_complete track_index (track.number + 1) tio.bytes_written],
        ?_, ?_⟩
      · simp only [log, List.append_assoc, List.cons_append, List.nil_append]
      · intro e he
        simp only [List.mem_cons, List.mem_singleton, List.not_mem_nil, or_false] at he
        rcases he with he | he | he <;> rw [he] <;> rfl
    · refine ⟨[worker_event.finalize tio.bytes_written result1,
        worker_event.file_close track_index file2], ?_, ?_⟩
      · simp only [log, List.append_assoc, List.cons_append, List.nil_append]
      · intro e he
        simp only [List.mem_cons, List.mem_singleton, List.not_mem_nil, or_false] at he
        rcases he with he | he <;> rw [he] <;> rfl
  · refine ⟨[worker_event.finalize tio.bytes_written result1,
      worker_event.file_close track_index file2], ?_, ?_⟩
    · simp only [log, List.append_assoc, List.cons_append, List.nil_append]
    · intro e he
      simp only [List.mem_cons, List.mem_singleton, List.not_mem_nil, or_false] at he
      rcases he with he | he <;> rw [he] <;> rfl

/-- The progress callbacks of one call of `extract_track`: the values of
`track_progress_values` for the track, at the queue position and queue length
of the extractor, with strictly increasing track percentages when no other
worker stores to `last_reported_progress`. -/
theorem extract_track_progress (env : worker_env) (track_index : Int) (ws : worker_state) :
    ∃ new, (extract_track env track_index ws).2.trace = ws.trace ++ new
      ∧ each_track_progress (track_progress_values
          (ws.ex.area.tracks.getD track_index.toNat {}) ws.ex.current_track_index
          ws.ex.track_queue_count) new
      ∧ ((∀ n, env.other_progress n = none) →
          List.Pairwise (fun a b => a < b) (track_percentages new)) := by
  have hplain : ∀ (w : worker_state) (l : List worker_event),
      (∀ e, e ∈ l → is_track_progress e = false) → w.trace = ws.trace ++ l →
      ∃ new, w.trace = ws.trace ++ new
        ∧ each_track_progress (track_progress_values
            (ws.ex.area.tracks.getD track_index.toNat {}) ws.ex.current_track_index
            ws.ex.track_queue_count) new
        ∧ ((∀ n, env.other_progress n = none) →
            List.Pairwise (fun a b => a < b) (track_percentages new)) := by
    intro w l hl1 hl2
    refine ⟨l, hl2, each_track_progress_plain _ _ hl1, fun _ => ?_⟩
    rw [track_percentages_plain l hl1]
    exact List.Pairwise.nil
  have hmem : ∀ (a b : List worker_event), (∀ e, e ∈ a → is_track_progress e = false) →
      (∀ e, e ∈ b → is_track_progress e = false) →
      ∀ e, e ∈ a ++ b → is_track_progress e = false := by
    intro a b ha hb e he
    rcases List.mem_append.mp he with h | h
    · exact ha e h
    · exact hb e h
  unfold extract_track
  simp only
  split
  · exact hplain ws [] (fun e he => by cases he) (List.append_nil _).symm
  · obtain ⟨hex1, l1, ht1, hp1⟩ := announce_track_steps track_index
      (ws.ex.area.tracks.getD track_index.toNat {}) ws
    have hopen := open_output_steps env track_index
      (ws.ex.area.tracks.getD track_index.toNat {})
      (announce_track track_index (ws.ex.area.tracks.getD track_index.toNat {}) ws)
    have hsame := same_setup_open_output env track_index
      (ws.ex.area.tracks.getD track_index.toNat {})
      (announce_track track_index (ws.ex.area.tracks.getD track_index.toNat {}) ws)
    split
    · rename_i early heq
      obtain ⟨l2, ht2, hp2⟩ := hopen.1 early heq
      apply hplain early.2 (l1 ++ l2) (hmem _ _ hp1 hp2)
      rw [ht2, ht1, List.append_assoc]
    · rename_i ws3 file1 heq
      obtain ⟨hheap, hidx, l2, ht2, hp2⟩ := hopen.2 _ heq
      have hcnt := (hsame.2 _ heq).2.2.2.2.2.2.2.1
      rw [hex1] at hidx hcnt
      have hidx3 : ws3.ex.current_track_index = ws.ex.current_track_index := hidx
      have hcnt3 : ws.ex.track_queue_count = ws3.ex.track_queue_count := hcnt
      have ht3 : ws3.trace = ws.trace ++ (l1 ++ l2) := by
        have : ws3.trace
            = (announce_track track_index (ws.ex.area.tracks.getD track_index.toNat {})
                ws).trace ++ l2 := ht2
        rw [this, ht1, List.append_assoc]
      obtain ⟨new, hn1, hn2, hn3⟩ := sector_loop_progress env track_index
        (ws.ex.area.tracks.getD track_index.toNat {}) hheap
        (track_sectors (ws.ex.area.tracks.getD track_index.toNat {})) ws3
        { file := file1, bytes_written := 0, sectors_processed := 0 }
        (((ws.ex.area.tracks.getD track_index.toNat {}).start_lsn
          + (ws.ex.area.tracks.getD track_index.toNat {}).length_lsn) % 2 ^ 32
          - (ws.ex.area.tracks.getD track_index.toNat {}).start_lsn)
        rfl
        (by
          have := Nat.mod_le ((ws.ex.area.tracks.getD track_index.toNat {}).start_lsn
            + (ws.ex.area.tracks.getD track_index.toNat {}).length_lsn) (2 ^ 32)
          show 0 + _ ≤ _
          omega)
      rw [hidx3, ← hcnt3] at hn2
      have h12 := hmem _ _ hp1 hp2
      have hloop2 : each_track_progress (track_progress_values
          (ws.ex.area.tracks.getD track_index.toNat {}) ws.ex.current_track_index
          ws.ex.track_queue_count) (l1 ++ l2 ++ new) :=
        each_track_progress_append _ _ _ (each_track_progress_plain _ _ h12) hn2
      have hloop3 : track_percentages (l1 ++ l2 ++ new) = track_percentages new := by
        rw [track_percentages_append, track_percentages_plain _ h12, List.nil_append]
      split
      · rename_i e ws4 tio4 heq2
        rw [heq2] at hn1
        refine ⟨l1 ++ l2 ++ new, ?_, hloop2, fun hquiet => ?_⟩
        · show ws4.trace = _
          have : ws4.trace = ws3.trace ++ new := hn1
          rw [this, ht3, List.append_assoc]
        · rw [hloop3]
          exact (hn3 hquiet).1
      · rename_i ws4 tio4 heq2
        rw [heq2] at hn1
        obtain ⟨l3, ht4, hp3⟩ := finish_track_steps track_index
          (ws.ex.area.tracks.getD track_index.toNat {}) ws4 tio4
        refine ⟨l1 ++ l2 ++ new ++ l3, ?_, ?_, fun hquiet => ?_⟩
        · have : ws4.trace = ws3.trace ++ new := hn1
          rw [ht4, this, ht3]
          simp only [List.append_assoc]
        · exact each_track_progress_append _ _ _ hloop2 (each_track_progress_plain _ _ hp3)
        · rw [track_percentages_append, track_percentages_plain _ hp3, List.append_nil,
            hloop3]
          exact (hn3 hquiet).1

/-- The values of a callback for the track at queue position `i`, read as
values of the run: the rounded-toward-zero quotients of the code are the
floors of the natural-number quotients, and both percentages are at most
100. -/
theorem run_progress_values_of_track (ex : sacd_extractor_internal_t) (i : Nat)
    (hi : i < ex.track_queue_count.toNat) (previous e : worker_event)
    (h : track_progress_values (queued_track ex i) (i : Int) ex.track_queue_count
      previous e) : run_progress_values ex previous e := by
  cases e with
  | progress tn tot tp op st =>
    cases st with
    | extracting si a b c d =>
      simp only [track_progress_values] at h
      simp only [run_progress_values]
      obtain ⟨k, hk1, hk2, hprev, htn, htot, hsi, htp, hop⟩ := h
      have hcount : ((ex.track_queue_count.toNat : Nat) : Int) = ex.track_queue_count :=
        Int.toNat_of_nonneg (by omega)
      have hb1 : 100 * k / (queued_track ex i).length_lsn ≤ 100 :=
        Nat.div_le_of_le_mul (by omega)
      have hb2 : (100 * i + 100 * k / (queued_track ex i).length_lsn)
          / ex.track_queue_count.toNat ≤ 100 :=
        Nat.div_le_of_le_mul (by
          have : (i + 1) * 100 ≤ ex.track_queue_count.toNat * 100 :=
            Nat.mul_le_mul_right 100 hi
          omega)
      refine ⟨i, k, hi, hsi, by omega, by omega, hk1, hk2, hprev, htn, htot, ?_, ?_,
        hb1, hb2⟩
      · rw [htp, Nat.mul_comm k 100]
      · rw [hop, htp, Int.ofNat_tdiv (100 * i + 100 * k / (queued_track ex i).length_lsn)
          ex.track_queue_count.toNat, hcount, Nat.mul_comm k 100]
        congr 1
        push_cast
        ring
    | cancelled => trivial
    | completed => trivial
  | _ => trivial

theorem is_track_progress_final (track_number total track_progress overall : Int)
    (c : Prop) [Decidable c] :
    is_track_progress (worker_event.progress track_number total track_progress overall
      (if c then status_text.cancelled else status_text.completed)) = false := by
  split <;> rfl

theorem run_progress_values_congr (a b : sacd_extractor_internal_t) (h : same_setup a b) :
    run_progress_values a = run_progress_values b := by
  obtain ⟨h1, -, -, -, -, -, h7, h8, -⟩ := h
  funext previous e
  unfold run_progress_values queued_track
  rw [h1, h7, h8]

/-- The progress callbacks of the loop of `extraction_thread` over queue
positions below the queue length. -/
theorem thread_loop_progress (env : worker_env) :
    ∀ (is : List Nat) (ws : worker_state),
      (∀ i, i ∈ is → i < ws.ex.track_queue_count.toNat) →
      ∃ new, (thread_loop env is ws).trace = ws.trace ++ new
        ∧ each_track_progress (run_progress_values ws.ex) new
  | [], ws, _ =>
    ⟨[], (List.append_nil _).symm, each_track_progress_plain _ _ (fun e he => by cases he)⟩
  | i :: rest, ws, his => by
    unfold thread_loop
    cases hflag : flag_set_at env.cancel_at ws.trace.length with
    | true =>
      simp only [cancel_seen, hflag]
      refine ⟨[worker_event.cancel_check true], rfl, each_track_progress_plain _ _ ?_⟩
      intro e he
      simp only [List.mem_singleton] at he
      rw [he]
      rfl
    | false =>
      simp only [cancel_seen, hflag]
      generalize htn : (log ws (worker_event.cancel_check false)).ex.track_queue.getD i 0 = tn
      generalize hws2 : ({ log ws (worker_event.cancel_check false) with
        ex := { (log ws (worker_event.cancel_check false)).ex with
                current_track_index := (i : Int) } } : worker_state) = ws2
      have hsame2 : same_setup ws.ex ws2.ex := by
        rw [← hws2]
        exact ⟨rfl, rfl, rfl, rfl, rfl, rfl, rfl, rfl, rfl⟩
      have hidx2 : ws2.ex.current_track_index = (i : Int) := by
        rw [← hws2]
      have htr2 : ws2.trace = ws.trace ++ [worker_event.cancel_check false] := by
        rw [← hws2]
        rfl
      have hi : i < ws2.ex.track_queue_count.toNat := by
        rw [← hsame2.2.2.2.2.2.2.2.1]
        exact his i (List.mem_cons_self _ _)
      have htn2 : tn = ws2.ex.track_queue.getD i 0 := by
        rw [← hws2, ← htn]
      obtain ⟨new1, hn1, hn2, -⟩ := extract_track_progress env tn ws2
      rw [hidx2, htn2] at hn2
      have hn3 : each_track_progress (run_progress_values ws.ex) new1 := by
        rw [run_progress_values_congr _ _ hsame2]
        exact each_track_progress_mono _ _ _
          (fun previous e h => run_progress_values_of_track ws2.ex i hi previous e h) hn2
      have hsame3 := same_setup_trans hsame2
        (same_setup_extract_track env tn ws2)
      obtain ⟨new2, hm1, hm2⟩ := thread_loop_progress env rest
        (extract_track env tn ws2).2 (by
          intro j hj
          rw [← hsame3.2.2.2.2.2.2.2.1]
          exact his j (List.mem_cons_of_mem _ hj))
      rw [← run_progress_values_congr _ _ hsame3] at hm2
      refine ⟨[worker_event.cancel_check false] ++ new1 ++ new2, ?_, ?_⟩
      · rw [hm1, hn1, htr2]
        simp only [List.append_assoc]
      · refine each_track_progress_append _ _ _ (each_track_progress_append _ _ _
          (each_track_progress_plain _ _ ?_) hn3) hm2
        intro e he
        simp only [List.mem_singleton] at he
        rw [he]
        rfl

/-- The progress callbacks of a run of the worker. -/
theorem extraction_thread_progress (env : worker_env) (ws : worker_state) :
    ∃ new, (extraction_thread env ws).trace = ws.trace ++ new
      ∧ each_track_progress (run_progress_values ws.ex) new := by
  obtain ⟨new, hn1, hn2⟩ := thread_loop_progress env
    (List.range ws.ex.track_queue_count.toNat) ws (fun i hi => List.mem_range.mp hi)
  cases hcb : ws.ex.progress_callback with
  | true =>
    rw [extraction_thread_trace env ws hcb, hn1]
    refine ⟨new ++ [_, _, _], List.append_assoc _ _ _, ?_⟩
    refine each_track_progress_append _ _ _ hn2 (each_track_progress_plain _ _ ?_)
    intro e he
    simp only [List.mem_cons, List.mem_singleton, List.not_mem_nil, or_false] at he
    rcases he with he | he | he
    · rw [he]
      rfl
    · rw [he]
      rfl
    · rw [he]
      exact is_track_progress_final _ _ _ _ _
  | false =>
    obtain ⟨-, -, h3, -⟩ :=
      same_setup_thread_loop env (List.range ws.ex.track_queue_count.toNat) ws
    refine ⟨new, ?_, hn2⟩
    unfold extraction_thread
    simp only [← h3, hcb]
    exact hn1

/-- C25: every progress callback that a run of the worker issues while a track
is being extracted comes right after the read of a sector of the track at some
queue position `i` below the queue length `n`; with `k` the number of sectors
of the track processed so far (the sector just read is the `k`-th,
`1 ≤ k ≤ length_lsn`), it reports the track percentage
`floor (100 k / length_lsn)` and the overall percentage
`floor ((100 i + track percentage) / n)`; both are at most 100 (and, being
natural numbers, at least 0), and the divisors `length_lsn` and `n` are
positive. The `int` arithmetic of the overall percentage is taken as exact. -/
theorem progress_callback_values (env : worker_env) (ws : worker_state) :
    ∃ new, (extraction_thread env ws).trace = ws.trace ++ new
      ∧ each_track_progress (run_progress_values ws.ex) new :=
  extraction_thread_progress env ws

/-! ## The shared `last_reported_progress` -/

set_option maxRecDepth 100000 in
/-- C26: a track percentage is reported twice within one track when the worker
of another extractor stores to the shared `last_reported_progress` in between.
The track has `length_lsn = 300`, so that its first two sectors both give the
percentage 0. After the first sector the worker reports 0 and leaves 0 in the
variable; as it comes to the second sector (7 steps into the call), the other
worker has stored 5 there, the test `track_progress != last_reported_progress`
holds again, and 0 is reported a second time. Without the other store, 0 is
reported once. (The third sector is not in the image, which ends the call.) -/
theorem track_percentage_reported_twice :
    track_percentages (extract_track
        { image := List.replicate 4096 0, file_limit := fun _ => 100000,
          other_progress := fun step => if step = 7 then some 5 else none } 0
        { ex := { area := { track_count := 1, tracks := [{ length_lsn := 300 }] },
                  track_queue := [0], track_queue_count := 1,
                  is_running := true } }).2.trace
      = [0, 0]
    ∧ track_percentages (extract_track
        { image := List.replicate 4096 0, file_limit := fun _ => 100000 } 0
        { ex := { area := { track_count := 1, tracks := [{ length_lsn := 300 }] },
                  track_queue := [0], track_queue_count := 1,
                  is_running := true } }).2.trace
      = [0] := by
  decide!

/-! ## The store past the end of `chnl_buf` -/

set_option maxRecDepth 100000 in
/-- C24: swapping two sectors after the first changes the parsed area when the
size field of the header is smaller than `toc_size`. The area TOC has 3
sectors and the size field 2, so the scan covers sector 1 only. With the
"SACDTRL1" sector at index 1 and a sector of zeros at index 2, track 0 gets
the start sector 9 and the length 5; with the two sectors swapped, no scanned
sector begins with a marker and track 0 keeps 0 and 0. In both orders each
marker heads at most one scanned sector. -/
theorem parse_area_toc_depends_on_unscanned_order :
    scanned_sectors (be16_to_cpu (toc_header_sector 2 1) 10) = [1]
    ∧ (parse_area_toc
        (toc_header_sector 2 1 ++ marker_sector "SACDTRL1" [0, 0, 0, 9] [0, 0, 0, 5]
          ++ List.replicate 2048 0) [] 0 0 3 {}).1 = SACD_RESULT_OK
    ∧ ((parse_area_toc
        (toc_header_sector 2 1 ++ marker_sector "SACDTRL1" [0, 0, 0, 9] [0, 0, 0, 5]
          ++ List.replicate 2048 0) [] 0 0 3 {}).2.tracks.getD 0 {}).start_lsn = 9
    ∧ ((parse_area_toc
        (toc_header_sector 2 1 ++ marker_sector "SACDTRL1" [0, 0, 0, 9] [0, 0, 0, 5]
          ++ List.replicate 2048 0) [] 0 0 3 {}).2.tracks.getD 0 {}).length_lsn = 5
    ∧ (parse_area_toc
        (toc_header_sector 2 1 ++ List.replicate 2048 0
          ++ marker_sector "SACDTRL1" [0, 0, 0, 9] [0, 0, 0, 5]) [] 0 0 3 {}).1
      = SACD_RESULT_OK
    ∧ ((parse_area_toc
        (toc_header_sector 2 1 ++ List.replicate 2048 0
          ++ marker_sector "SACDTRL1" [0, 0, 0, 9] [0, 0, 0, 5]) [] 0 0 3 {}).2.tracks.getD 0
          {}).start_lsn = 0
    ∧ ((parse_area_toc
        (toc_header_sector 2 1 ++ List.replicate 2048 0
          ++ marker_sector "SACDTRL1" [0, 0, 0, 9] [0, 0, 0, 5]) [] 0 0 3 {}).2.tracks.getD 0
          {}).length_lsn = 0 := by
  decide!

/-! ## A track at the end of the `uint32_t` range -/

end Sacd
